import Mathlib

/-!
# ReconcilePro matching engine

A shallow embedding of the matching code of the repository:

* `supabase/functions/auto-match-transactions/index.ts`: the scoring function
  `calculateMatchConfidence`, the string similarity built on `levenshteinDistance`,
  `getMatchReasons`, and the selection and commit loops of the request handler;
* `src/components/Review/MatchingTable.jsx`: the suggested-match list of the review table.

JavaScript numbers are idealised as rationals (exact arithmetic); a result that is `NaN` in
JavaScript is `none`.  A date is carried as the value of `new Date(row.date).getTime()`, the
number of milliseconds since the epoch.  Strings are sequences of characters, one character
standing for one UTF-16 code unit.

The section on binary64 arithmetic renders the amount block of `calculateMatchConfidence` with
the rounding of every operation, which decides the tier of an amount pair at a tier boundary.
-/

namespace ReconcilePro

/-! ## Data model -/

/-- The `status` column of the `expenses` and `sales` tables. -/
inductive Status where
  | pending
  | matched
  | ignored
deriving DecidableEq, Repr

/-- A row of the `expenses` or of the `sales` table, restricted to the columns the matching code
reads or writes.  `date` is `new Date(row.date).getTime()`.  An expense row uses
`matched_to_sale_id`, a sale row uses `matched_to_expense_id`; the other link column is absent
(`none`). -/
structure Transaction where
  id : String
  date : Int
  amount : ℚ
  description : Option String
  status : Status
  matched_to_sale_id : Option String
  matched_to_expense_id : Option String
deriving DecidableEq, Repr

/-- The `MatchResult` interface of `index.ts`.  `confidence` is a JavaScript number, `none`
standing for `NaN`. -/
structure MatchResult where
  expenseId : String
  saleId : String
  confidence : Option ℚ
  reasons : List String
deriving DecidableEq, Repr

/-! ## String similarity (`index.ts`, lines 196-225) -/

/-- Cells `1 .. str1.length` of row `i` of the matrix of `levenshteinDistance`.  `c` is
`str2.charAt(i - 1)`, the first list holds the remaining characters `str1.charAt(j - 1)`, the
second list is row `i - 1` from column `j - 1` on, and `left` is `matrix[i][j - 1]`. -/
def levenshteinRow (c : Char) : List Char → List Nat → Nat → List Nat
  | a :: rest, diag :: up :: prev, left =>
    let cell := if c = a then diag else min (diag + 1) (min (left + 1) (up + 1))
    cell :: levenshteinRow c rest (up :: prev) cell
  | _, _, _ => []

/-- The rows of the matrix of `levenshteinDistance`, computed one after the other: the state is
the index of the last row built together with that row. Row `0` is `[0, 1, .., str1.length]`,
row `i` starts with `i`. -/
def levenshteinMatrix (str1 str2 : List Char) : Nat × List Nat :=
  str2.foldl
    (fun st c => (st.1 + 1, (st.1 + 1) :: levenshteinRow c str1 st.2 (st.1 + 1)))
    (0, List.range (str1.length + 1))

/-- The function `levenshteinDistance(str1, str2)`: `matrix[str2.length][str1.length]`. -/
def levenshteinDistance (str1 str2 : String) : Nat :=
  (levenshteinMatrix str1.toList str2.toList).2.getD str1.length 0

/-- The function `calculateStringSimilarity(str1, str2)`.  When both strings are empty the
quotient is `0 / 0`, which is `NaN`: `none`. -/
def calculateStringSimilarity (str1 str2 : String) : Option ℚ :=
  let longer := if str1.length > str2.length then str1 else str2
  let shorter := if str1.length > str2.length then str2 else str1
  let editDistance := levenshteinDistance longer shorter
  if longer.length = 0 then none
  else some (((longer.length : ℚ) - (editDistance : ℚ)) / (longer.length : ℚ))

/-! ## Scoring (`index.ts`, lines 148-194) -/

/-- The block "Amount matching (70% weight)" of `calculateMatchConfidence`: what it adds to
`confidence`. -/
def amountContribution (expense sale : Transaction) : ℚ :=
  let amountDiff := |expense.amount - sale.amount|
  if amountDiff = 0 then 70
  else if amountDiff < expense.amount * (5 / 100) then 50
  else if amountDiff < expense.amount * (1 / 10) then 30
  else if amountDiff < expense.amount * (2 / 10) then 10
  else 0

/-- The quantity `daysDiff` of `calculateMatchConfidence`, `getMatchReasons` and the review
table: the distance of the two timestamps divided by the milliseconds of a day. -/
def daysDiff (expense sale : Transaction) : ℚ :=
  let dateDiff : Int := |expense.date - sale.date|
  (dateDiff : ℚ) / (1000 * 60 * 60 * 24)

/-- The inner block of "Date matching (20% weight)" of `calculateMatchConfidence`: what it adds
to `confidence` when the strategy activates it. -/
def dateContribution (expense sale : Transaction) (dateToleranceDays : ℚ) : ℚ :=
  if daysDiff expense sale = 0 then 20
  else if daysDiff expense sale ≤ 1 then 15
  else if daysDiff expense sale ≤ dateToleranceDays then 10
  else 0

/-- The function `calculateMatchConfidence(expense, sale, dateToleranceDays, matchStrategy)`.
The result is `none` when the JavaScript result is `NaN`. -/
def calculateMatchConfidence (expense sale : Transaction) (dateToleranceDays : ℚ)
    (matchStrategy : String) : Option ℚ :=
  let confidence : ℚ := 0
  let confidence := confidence + amountContribution expense sale
  let confidence :=
    if matchStrategy = "amount_and_date" ∨ matchStrategy = "fuzzy_match" then
      confidence + dateContribution expense sale dateToleranceDays
    else confidence
  let confidence : Option ℚ :=
    if matchStrategy = "fuzzy_match" then
      (calculateStringSimilarity (expense.description.getD "") (sale.description.getD "")).map
        (fun descriptionSimilarity => confidence + descriptionSimilarity * 10)
    else some confidence
  confidence.map (fun c => min c 100)

/-- The function `getMatchReasons(expense, sale, dateToleranceDays)`.  `Math.round(x)` is
`⌊x + 1/2⌋`. -/
def getMatchReasons (expense sale : Transaction) (dateToleranceDays : ℚ) : List String :=
  let reasons : List String := []
  let reasons :=
    if expense.amount = sale.amount then reasons ++ ["Exact amount match"] else reasons
  let reasons :=
    if daysDiff expense sale = 0 then reasons ++ ["Same date"]
    else if daysDiff expense sale ≤ dateToleranceDays then
      reasons ++ ["Within " ++ toString ⌊daysDiff expense sale + 1 / 2⌋ ++ " day" ++
        (if daysDiff expense sale > 1 then "s" else "")]
    else reasons
  reasons

/-! ## Auto-match handler (`index.ts`, lines 57-137)

The store holds the rows of the signed-in user; every write succeeds. -/

namespace AutoMatch

/-- An element `{ sale, confidence }` of `potentialMatches`. -/
structure Candidate where
  sale : Transaction
  confidence : Option ℚ
deriving DecidableEq, Repr

/-- The test `match.confidence >= autoMatchThreshold`; a comparison with `NaN` is false. -/
def reachesThreshold (autoMatchThreshold : ℚ) (m : Candidate) : Bool :=
  match m.confidence with
  | some c => decide (autoMatchThreshold ≤ c)
  | none => false

/-- The comparator `(a, b) => b.confidence - a.confidence` is not positive: the sort leaves `a`
in front of `b`.  A comparator value `NaN` counts as `0`. -/
def keepsOrder (a b : Candidate) : Bool :=
  match a.confidence, b.confidence with
  | some x, some y => decide (y - x ≤ 0)
  | _, _ => true

/-- The array `potentialMatches` of the selection loop: `sales.map(..).filter(..).sort(..)`.
`Array.prototype.sort` is a stable sort; it is rendered by insertion sort, which moves an element
behind another one only when the comparator is positive. -/
def potentialMatches (expense : Transaction) (sales : List Transaction)
    (dateToleranceDays autoMatchThreshold : ℚ) (matchStrategy : String) : List Candidate :=
  (((sales.map fun sale =>
      (⟨sale, calculateMatchConfidence expense sale dateToleranceDays matchStrategy⟩ : Candidate)
    ).filter (reachesThreshold autoMatchThreshold)
    ).insertionSort fun a b => keepsOrder a b = true)

/-- The body of the loop `for (const expense of expenses)`: `matches` after the iteration for
`expense`. -/
def selectFor (sales : List Transaction) (dateToleranceDays autoMatchThreshold : ℚ)
    (matchStrategy : String) (acc : List MatchResult) (expense : Transaction) :
    List MatchResult :=
  match potentialMatches expense sales dateToleranceDays autoMatchThreshold matchStrategy with
  | bestMatch :: _ =>
    acc ++ [⟨expense.id, bestMatch.sale.id, bestMatch.confidence,
      getMatchReasons expense bestMatch.sale dateToleranceDays⟩]
  | [] => acc

/-- The array `matches` after the selection loop ("Find matches"). -/
def findMatches (expenses sales : List Transaction) (dateToleranceDays autoMatchThreshold : ℚ)
    (matchStrategy : String) : List MatchResult :=
  expenses.foldl (selectFor sales dateToleranceDays autoMatchThreshold matchStrategy) []

/-- The tables `expenses` and `sales`. -/
structure Store where
  expenses : List Transaction
  sales : List Transaction
deriving DecidableEq, Repr

/-- The write `from('expenses').update({ matched_to_sale_id, status: 'matched' }).eq('id', ..)`. -/
def updateExpense (rows : List Transaction) (expenseId saleId : String) : List Transaction :=
  rows.map fun r =>
    if r.id = expenseId then { r with matched_to_sale_id := some saleId, status := Status.matched }
    else r

/-- The write `from('sales').update({ matched_to_expense_id, status: 'matched' }).eq('id', ..)`. -/
def updateSale (rows : List Transaction) (saleId expenseId : String) : List Transaction :=
  rows.map fun r =>
    if r.id = saleId then { r with matched_to_expense_id := some expenseId, status := Status.matched }
    else r

/-- The body of the loop `for (const match of matches)`: both writes, then `matchedCount++`. -/
def applyMatch (st : Store × Nat) (m : MatchResult) : Store × Nat :=
  (⟨updateExpense st.1.expenses m.expenseId m.saleId, updateSale st.1.sales m.saleId m.expenseId⟩,
    st.2 + 1)

/-- The commit loop ("Apply matches"): the store and `matchedCount` after it. -/
def applyMatches (st : Store) (ms : List MatchResult) : Store × Nat :=
  ms.foldl applyMatch (st, 0)

/-- The body of the JSON response of a successful run; `matchList` is its field `matches`. -/
structure Summary where
  matchedCount : Nat
  totalExpenses : Nat
  totalSales : Nat
  matchList : List MatchResult
deriving DecidableEq, Repr

/-- The rows a query `.eq('status', 'pending')` returns. -/
def pendingRows (rows : List Transaction) : List Transaction :=
  rows.filter fun r => r.status = Status.pending

/-- One run of the handler on a store, from the two queries for pending rows to the response:
the store after the commit loop and the response. -/
def run (st : Store) (dateToleranceDays autoMatchThreshold : ℚ) (matchStrategy : String) :
    Store × Summary :=
  let expenses := pendingRows st.expenses
  let sales := pendingRows st.sales
  let ms := findMatches expenses sales dateToleranceDays autoMatchThreshold matchStrategy
  let applied := applyMatches st ms
  (applied.1, ⟨applied.2, expenses.length, sales.length, ms⟩)

/-! ### The store after the commit loop -/

/-- What the commit loop over `ms` makes of one row of `expenses`. -/
def expenseAfter (ms : List MatchResult) (r : Transaction) : Transaction :=
  ms.foldl
    (fun r m =>
      if r.id = m.expenseId then
        { r with matched_to_sale_id := some m.saleId, status := Status.matched }
      else r)
    r

/-- What the commit loop over `ms` makes of one row of `sales`. -/
def saleAfter (ms : List MatchResult) (r : Transaction) : Transaction :=
  ms.foldl
    (fun r m =>
      if r.id = m.saleId then
        { r with matched_to_expense_id := some m.expenseId, status := Status.matched }
      else r)
    r

/-- The link invariant of the data model: a row has a counterpart link iff its status is
`matched`, and the links of expenses and sales point at each other. -/
def linkInvariant (st : Store) : Prop :=
  (∀ e ∈ st.expenses, (e.matched_to_sale_id ≠ none ↔ e.status = Status.matched)) ∧
  (∀ s ∈ st.sales, (s.matched_to_expense_id ≠ none ↔ s.status = Status.matched)) ∧
  (∀ e ∈ st.expenses, ∀ s ∈ st.sales,
    (e.matched_to_sale_id = some s.id ↔ s.matched_to_expense_id = some e.id))

instance (st : Store) : Decidable (linkInvariant st) := by
  unfold linkInvariant
  infer_instance

end AutoMatch

/-! ## Review table (`MatchingTable.jsx`, lines 18-55) -/

namespace MatchingTable

/-- An element `{ ...sale, matchScore, daysDiff }` of `potentialMatches`. -/
structure SuggestedMatch where
  sale : Transaction
  matchScore : ℚ
  daysDiff : ℚ
deriving DecidableEq, Repr

/-- The value of `score` the callback of `.map` computes for a sale ("Calculate match score"). -/
def matchScore (expense sale : Transaction) : ℚ :=
  let amountDiff := |expense.amount - sale.amount|
  let score : ℚ := 0
  let score :=
    if amountDiff = 0 then score + 70
    else if amountDiff < expense.amount * (1 / 10) then score + 50
    else if amountDiff < expense.amount * (2 / 10) then score + 30
    else score
  let score :=
    if daysDiff expense sale ≤ 1 then score + 30
    else if daysDiff expense sale ≤ 7 then score + 20
    else if daysDiff expense sale ≤ 30 then score + 10
    else score
  score

/-- The comparator `(a, b) => b.matchScore - a.matchScore` is not positive. -/
def keepsOrder (a b : SuggestedMatch) : Bool := decide (b.matchScore - a.matchScore ≤ 0)

/-- The array `potentialMatches` the effect computes for one pending expense:
`sales.filter(..).map(..).filter(..).sort(..).slice(0, 3)`, the sort being stable. -/
def potentialMatches (expense : Transaction) (sales : List Transaction) : List SuggestedMatch :=
  (((((sales.filter fun sale => sale.status = Status.pending
    ).map fun sale =>
      (⟨sale, matchScore expense sale, daysDiff expense sale⟩ : SuggestedMatch)
    ).filter fun m => decide (m.matchScore > 20)
    ).insertionSort fun a b => keepsOrder a b = true
    ).take 3)

/-- The pool the ranking is taken from, in the words of the specification: the pending sales whose
score is strictly greater than 20, in pool order, each with its score. -/
def eligible (expense : Transaction) (sales : List Transaction) : List SuggestedMatch :=
  (sales.filter fun sale =>
      decide (sale.status = Status.pending) && decide (20 < matchScore expense sale)).map
    fun sale => ⟨sale, matchScore expense sale, daysDiff expense sale⟩

end MatchingTable

/-! ## The recurrence behind the matrix of `levenshteinDistance` -/

/-- The recurrence of the matrix cells, read on reversed prefixes: `editRec p q` is the cell of
the row of the `str2`-prefix `p.reverse` and the column of the `str1`-prefix `q.reverse`. -/
def editRec : List Char → List Char → Nat
  | [], q => q.length
  | c :: p, [] => (c :: p).length
  | c :: p, a :: q =>
    if c = a then editRec p q
    else min (editRec p q + 1) (min (editRec (c :: p) q + 1) (editRec p (a :: q) + 1))
termination_by p q => p.length + q.length

/-- The cell of the matrix in the row of the `str2`-prefix `p` and the column of the
`str1`-prefix `q`. -/
def cellOf (p q : List Char) : Nat := editRec p.reverse q.reverse

/-- The cells of one row to the right of the column of the prefix `q`. -/
def rowFrom (f : List Char → Nat) : List Char → List Char → List Nat
  | _, [] => []
  | q, a :: rest => f (q ++ [a]) :: rowFrom f (q ++ [a]) rest

/-- The row of the matrix that belongs to the `str2`-prefix `p`. -/
def fullRow (str1 p : List Char) : List Nat := cellOf p [] :: rowFrom (cellOf p) [] str1

/-! ## The edit distance of the specification -/

/-- The unit-cost edit distance by its standard recursive definition: the length of the other
string when one string is empty, otherwise the least of a deletion, an insertion, and a
substitution (free when the two first characters are equal) followed by the distance of what is
left. -/
def editDistance : List Char → List Char → Nat
  | [], b => b.length
  | x :: a, [] => (x :: a).length
  | x :: a, y :: b =>
    min (editDistance a (y :: b) + 1)
      (min (editDistance (x :: a) b + 1) (editDistance a b + if x = y then 0 else 1))
termination_by a b => a.length + b.length

/-- The statement `EditScript a b n`: the string `a` is turned into the string `b` by a sequence
of single-character edits, read from left to right, of which `n` are insertions, deletions or
substitutions (keeping a character costs nothing). -/
inductive EditScript : List Char → List Char → Nat → Prop
  | done : EditScript [] [] 0
  | keep (x : Char) {a b : List Char} {n : Nat} :
    EditScript a b n → EditScript (x :: a) (x :: b) n
  | substitute (x y : Char) {a b : List Char} {n : Nat} :
    EditScript a b n → EditScript (x :: a) (y :: b) (n + 1)
  | delete (x : Char) {a b : List Char} {n : Nat} :
    EditScript a b n → EditScript (x :: a) b (n + 1)
  | insert (y : Char) {a b : List Char} {n : Nat} :
    EditScript a b n → EditScript a (y :: b) (n + 1)

/-! ## Negated amounts -/

/-- The row with its amount negated. -/
def negateAmount (t : Transaction) : Transaction := { t with amount := -t.amount }

/-! ## Manual confirmation (`dataStore.js`, lines 181-211) -/

namespace DataStore

/-- The function `confirmMatch(expenseId, saleId)` on the tables.  `expenseError` and `saleError`
are the `error` fields the two writes answer with (`none`: the write is applied; a write that
answers with an error changes nothing).  The result is the tables afterwards and the error the
function throws, if any.  The two writes are those of the commit loop of the handler. -/
def confirmMatch (st : AutoMatch.Store) (expenseId saleId : String)
    (expenseError saleError : Option String) : AutoMatch.Store × Option String :=
  match expenseError with
  | some error => (st, some error)
  | none =>
    let expenses := AutoMatch.updateExpense st.expenses expenseId saleId
    match saleError with
    | some error => (⟨expenses, st.sales⟩, some error)
    | none => (⟨expenses, AutoMatch.updateSale st.sales saleId expenseId⟩, none)

end DataStore

/-! ## Request handler (`index.ts`, lines 16-146) -/

/-- A row of the `settings` table, restricted to the columns the handler reads; a column is `none`
when it is null. -/
structure Settings where
  date_tolerance_days : Option ℚ
  auto_match_threshold : Option ℚ
  match_strategy : Option String
deriving DecidableEq, Repr

namespace Handler

/-- The constant `dateToleranceDays = settings?.date_tolerance_days || 7`; `settings` is `none`
when the query finds no row.  The operator `||` takes the right side when the left side is null,
undefined or 0. -/
def dateToleranceDays (settings : Option Settings) : ℚ :=
  match settings.bind fun s => s.date_tolerance_days with
  | some v => if v = 0 then 7 else v
  | none => 7

/-- The constant `autoMatchThreshold = settings?.auto_match_threshold || 95`. -/
def autoMatchThreshold (settings : Option Settings) : ℚ :=
  match settings.bind fun s => s.auto_match_threshold with
  | some v => if v = 0 then 95 else v
  | none => 95

/-- The constant `matchStrategy = settings?.match_strategy || 'amount_and_date'`; the empty string
is falsy as well. -/
def matchStrategy (settings : Option Settings) : String :=
  match settings.bind fun s => s.match_strategy with
  | some v => if v = "" then "amount_and_date" else v
  | none => "amount_and_date"

/-- The response of the handler: the JSON body of a successful run, or a status with an error
message. -/
inductive Response where
  | success (body : AutoMatch.Summary)
  | failure (status : Nat) (error : String)
deriving DecidableEq, Repr

/-- The handler on a request that is not `OPTIONS`, the queries for the pending rows answering
with data: `user` is the user of the token (`none`: no user), `settings` the settings row of the
user.  The result is the store afterwards and the response. -/
def serve (user : Option String) (settings : Option Settings) (st : AutoMatch.Store) :
    AutoMatch.Store × Response :=
  match user with
  | none => (st, Response.failure 401 "Unauthorized")
  | some _ =>
    let result := AutoMatch.run st (dateToleranceDays settings) (autoMatchThreshold settings)
      (matchStrategy settings)
    (result.1, Response.success result.2)

/-- What one request meets, as far as the control flow of the handler depends on it: the method
of the request, whether `createClient` or `auth.getUser()` throws, the user of the token (`none`:
no user), whether one of the three queries throws, the settings row of the user (`none`: no row),
and whether the query for the pending expenses and the query for the pending sales answer with
data.  The writes of the commit loop do not throw. -/
structure Request where
  method : String
  authThrows : Bool
  user : Option String
  queryThrows : Bool
  settings : Option Settings
  expensesAnswered : Bool
  salesAnswered : Bool
deriving DecidableEq, Repr

/-- What the handler returns: the body `ok` for a request of method `OPTIONS`, or a JSON
response. -/
inductive Answer where
  | ok
  | json (response : Response)
deriving DecidableEq, Repr

/-- The handler `serve(async (req) => ..)`: the store afterwards and the answer.  An exception
in the `try` block is answered by the `catch` block with status 500. -/
def handle (req : Request) (st : AutoMatch.Store) : AutoMatch.Store × Answer :=
  if req.method = "OPTIONS" then (st, Answer.ok)
  else if req.authThrows then (st, Answer.json (Response.failure 500 "Internal server error"))
  else
    match req.user with
    | none => (st, Answer.json (Response.failure 401 "Unauthorized"))
    | some _ =>
      if req.queryThrows then
        (st, Answer.json (Response.failure 500 "Internal server error"))
      else if !req.expensesAnswered || !req.salesAnswered then
        (st, Answer.json (Response.failure 500 "Failed to fetch transactions"))
      else
        let result := AutoMatch.run st (dateToleranceDays req.settings)
          (autoMatchThreshold req.settings) (matchStrategy req.settings)
        (result.1, Answer.json (Response.success result.2))

end Handler

/-! ## Commit loop when a write is refused (`index.ts`, lines 104-126) -/

namespace AutoMatch

/-- The body of the commit loop when the store may refuse a write: `written m` tells for the
pairing `m` whether the write to `expenses` and the write to `sales` are applied (a write that is
answered with an error changes nothing).  The handler does not look at the answers, and
`matchedCount++` runs in every iteration. -/
def applyMatchWith (written : MatchResult → Bool × Bool) (st : Store × Nat) (m : MatchResult) :
    Store × Nat :=
  (⟨if (written m).1 then updateExpense st.1.expenses m.expenseId m.saleId else st.1.expenses,
    if (written m).2 then updateSale st.1.sales m.saleId m.expenseId else st.1.sales⟩,
    st.2 + 1)

/-- The commit loop when the store may refuse a write: the store and `matchedCount` after it. -/
def applyMatchesWith (written : MatchResult → Bool × Bool) (st : Store)
    (ms : List MatchResult) : Store × Nat :=
  ms.foldl (applyMatchWith written) (st, 0)

end AutoMatch

/-! ## Manual ignore (`dataStore.js`, lines 213-230) -/

namespace DataStore

/-- The write `update({ status: 'ignored' }).eq('id', transactionId)` on one table. -/
def setIgnored (rows : List Transaction) (transactionId : String) : List Transaction :=
  rows.map fun r => if r.id = transactionId then { r with status := Status.ignored } else r

/-- The function `ignoreMatch(transactionId, type)` on the tables; `error` is the `error` field
the write answers with.  The result is the tables afterwards and the error thrown, if any. -/
def ignoreMatch (st : AutoMatch.Store) (transactionId type : String) (error : Option String) :
    AutoMatch.Store × Option String :=
  match error with
  | some e => (st, some e)
  | none =>
    if type = "expense" then (⟨setIgnored st.expenses transactionId, st.sales⟩, none)
    else (⟨st.expenses, setIgnored st.sales transactionId⟩, none)

end DataStore

/-! ## The amount block in binary64 arithmetic (`index.ts`, lines 157-168)

A JavaScript number is an IEEE 754 binary64 value, and every arithmetic operation delivers the
double nearest to the exact result.  This section renders the amount block with that rounding:
the tier an amount pair falls into at a boundary of 5%, 10% or 20% depends on it. -/

namespace Double

/-- The integer nearest to `q`; of two integers equally near, the even one. -/
def roundHalfEven (q : ℚ) : ℤ :=
  if q - ⌊q⌋ < 1 / 2 then ⌊q⌋
  else if 1 / 2 < q - ⌊q⌋ then ⌊q⌋ + 1
  else if ⌊q⌋ % 2 = 0 then ⌊q⌋ else ⌊q⌋ + 1

/-- The binary exponent of `x ≠ 0`: the `e` with `2 ^ e ≤ |x| < 2 ^ (e + 1)`. -/
def exponent (x : ℚ) : ℤ := Int.log 2 |x|

/-- The double nearest to `x`, ties to even: the value of a decimal literal or of a number read
by `JSON.parse`, and the result of an arithmetic operation whose exact result is `x`.  A double
has a significand of 53 bits: it is a multiple of `2 ^ (exponent x - 52)`.  The exponent range is
not rendered (no overflow, no subnormal numbers). -/
def round (x : ℚ) : ℚ :=
  if x = 0 then 0
  else (roundHalfEven (x / 2 ^ (exponent x - 52)) : ℚ) * 2 ^ (exponent x - 52)

/-- The block "Amount matching (70% weight)" of `calculateMatchConfidence` in binary64
arithmetic: what it adds to `confidence`.  The column `amount` holds a decimal number; the code
holds the double nearest to it.  `0.05`, `0.1` and `0.2` are the doubles nearest to these
decimals. -/
def amountContribution (expense sale : Transaction) : ℚ :=
  let expenseAmount := round expense.amount
  let saleAmount := round sale.amount
  let amountDiff := |round (expenseAmount - saleAmount)|
  if amountDiff = 0 then 70
  else if amountDiff < round (expenseAmount * round (5 / 100)) then 50
  else if amountDiff < round (expenseAmount * round (1 / 10)) then 30
  else if amountDiff < round (expenseAmount * round (2 / 10)) then 10
  else 0

/-- The function `calculateMatchConfidence` in binary64 arithmetic for the strategy
`amount_only`: the date block and the description block are skipped, so the result is
`Math.min(confidence, 100)` with `confidence = 0 + ` the amount contribution. -/
def amountOnlyConfidence (expense sale : Transaction) : ℚ :=
  let confidence : ℚ := 0
  let confidence := round (confidence + amountContribution expense sale)
  min confidence 100

end Double

/-! ## Example rows -/

namespace Examples

/-- A pending row without links; `day` counts whole days since the epoch. -/
def row (id : String) (day : Int) (amount : ℚ) (description : Option String) : Transaction :=
  ⟨id, day * 86400000, amount, description, Status.pending, none, none⟩

/-- Two pending expenses of amount 100 and one pending sale of amount 100, all of 2024-03-01. -/
def contested : AutoMatch.Store :=
  ⟨[row "A" 19783 100 none, row "B" 19783 100 none], [row "S" 19783 100 none]⟩

/-- A pending expense of amount 100, a pending expense of amount 250 and a pending sale of
amount 100, all of 2024-03-01. -/
def uncontested : AutoMatch.Store :=
  ⟨[row "A" 19783 100 none, row "B" 19783 250 none], [row "S" 19783 100 none]⟩

/-- A pool of five pending sales around an expense of amount 100 of 2024-03-01: two exact
amounts three days later, an exact amount on the same day, a far one, and a near one. -/
def pool : List Transaction :=
  [row "S1" 19786 100 none, row "S2" 19786 100 none, row "S3" 19783 100 none,
    row "S4" 19823 150 none, row "S5" 19784 101 none]

/-- The expense `A` and the sale `S0` matched to each other, and a pending sale `S`. -/
def settled : AutoMatch.Store :=
  ⟨[{ row "A" 19783 100 none with
        status := Status.matched, matched_to_sale_id := some "S0" }],
    [{ row "S0" 19783 100 none with
        status := Status.matched, matched_to_expense_id := some "A" },
      row "S" 19783 100 none]⟩

/-- A pending expense `B` of amount 250 and a pending expense `A` of amount 100, both of
2024-03-01, and five pending sales: a near amount on the same day, two exact amounts one day
later, an exact amount three days later, and a far amount on the same day. -/
def tied : AutoMatch.Store :=
  ⟨[row "B" 19783 250 none, row "A" 19783 100 none],
    [row "T1" 19783 101 none, row "T2" 19784 100 none, row "T3" 19784 100 none,
      row "T4" 19786 100 none, row "T5" 19783 150 none]⟩

/-- A request of a user whose settings row holds the tolerance -1 and the threshold 40; nothing
throws and both queries for pending rows answer with data. -/
def outOfRangeRequest : Handler.Request :=
  ⟨"POST", false, some "user", false, some ⟨some (-1), some 40, some "amount_and_date"⟩,
    true, true⟩

end Examples

/-! # Theorems -/

/-! ## `levenshteinDistance` computes the recurrence -/

theorem editRec_nil_right (p : List Char) : editRec p [] = p.length := by
  cases p <;> simp [editRec]

theorem cellOf_snoc_snoc (p q : List Char) (c a : Char) :
    cellOf (p ++ [c]) (q ++ [a]) =
      if c = a then cellOf p q
      else min (cellOf p q + 1) (min (cellOf (p ++ [c]) q + 1) (cellOf p (q ++ [a]) + 1)) := by
  simp [cellOf, editRec]

theorem levenshteinRow_eq (p : List Char) (c : Char) (rest q : List Char) :
    levenshteinRow c rest (cellOf p q :: rowFrom (cellOf p) q rest) (cellOf (p ++ [c]) q) =
      rowFrom (cellOf (p ++ [c])) q rest := by
  induction rest generalizing q with
  | nil => simp [levenshteinRow, rowFrom]
  | cons a rest ih =>
    simp only [rowFrom, levenshteinRow]
    rw [← cellOf_snoc_snoc, ih (q ++ [a])]

theorem rowFrom_length (q rest : List Char) :
    rowFrom (cellOf []) q rest = List.range' (q.length + 1) rest.length := by
  induction rest generalizing q with
  | nil => simp [rowFrom]
  | cons a rest ih =>
    simp [rowFrom, ih, List.range', cellOf, editRec]

theorem fullRow_nil (str1 : List Char) : fullRow str1 [] = List.range (str1.length + 1) := by
  simp [fullRow, rowFrom_length, List.range_eq_range', cellOf, editRec]
  rw [List.range'_succ]

theorem cellOf_nil_right (p : List Char) : cellOf p [] = p.length := by
  simp [cellOf, editRec_nil_right]

theorem foldl_levenshtein (str1 rest p : List Char) :
    rest.foldl
      (fun st c => (st.1 + 1, (st.1 + 1) :: levenshteinRow c str1 st.2 (st.1 + 1)))
      (p.length, fullRow str1 p) = ((p ++ rest).length, fullRow str1 (p ++ rest)) := by
  induction rest generalizing p with
  | nil => simp
  | cons c rest ih =>
    have h := ih (p ++ [c])
    simp only [List.foldl_cons]
    have hrow : (p.length + 1) :: levenshteinRow c str1 (fullRow str1 p) (p.length + 1)
        = fullRow str1 (p ++ [c]) := by
      have := levenshteinRow_eq p c str1 []
      simp only [fullRow, cellOf_nil_right, List.length_append, List.length_singleton] at this ⊢
      rw [this]
    rw [hrow]
    simpa using h

theorem rowFrom_getD (f : List Char → Nat) (q rest : List Char) :
    (f q :: rowFrom f q rest).getD rest.length 0 = f (q ++ rest) := by
  induction rest generalizing q with
  | nil => simp
  | cons a rest ih =>
    simp only [rowFrom, List.length_cons, List.getD_cons_succ]
    simpa using ih (q ++ [a])

theorem levenshteinMatrix_eq (str1 str2 : List Char) :
    levenshteinMatrix str1 str2 = (str2.length, fullRow str1 str2) := by
  have := foldl_levenshtein str1 str2 []
  simpa [levenshteinMatrix, fullRow_nil] using this

theorem levenshteinDistance_eq (str1 str2 : String) :
    levenshteinDistance str1 str2 = editRec str2.toList.reverse str1.toList.reverse := by
  unfold levenshteinDistance
  rw [levenshteinMatrix_eq]
  have := rowFrom_getD (cellOf str2.toList) [] str1.toList
  simpa [fullRow, cellOf] using this

theorem editRec_comm (p q : List Char) : editRec p q = editRec q p := by
  induction p, q using editRec.induct with
  | case1 q => simp [editRec, editRec_nil_right]
  | case2 c p => simp [editRec]
  | case3 c p q ih => simp [editRec, ih]
  | case4 c p a q h ih1 ih2 ih3 =>
    have h2 : ¬ a = c := fun e => h e.symm
    simp only [editRec, h, h2, if_false, ih1, ih2, ih3]
    rw [min_comm (editRec q (c :: p) + 1)]

theorem editRec_le (p q : List Char) : editRec p q ≤ max p.length q.length := by
  induction p, q using editRec.induct with
  | case1 q => simp [editRec]
  | case2 c p => simp [editRec]
  | case3 c p q ih => simp [editRec]; omega
  | case4 c p a q h ih1 ih2 ih3 =>
    simp only [editRec, h, if_false, List.length_cons]
    have : min (editRec p q + 1) (min (editRec (c :: p) q + 1) (editRec p (a :: q) + 1)) ≤
        editRec p q + 1 := min_le_left _ _
    omega

theorem levenshteinDistance_comm (a b : String) :
    levenshteinDistance a b = levenshteinDistance b a := by
  rw [levenshteinDistance_eq, levenshteinDistance_eq, editRec_comm]

theorem levenshteinDistance_le (a b : String) :
    levenshteinDistance a b ≤ max a.length b.length := by
  rw [levenshteinDistance_eq]
  have := editRec_le b.toList.reverse a.toList.reverse
  simpa [max_comm] using this

/-! ## Scoring -/

theorem string_eq_empty (s : String) (h : s.length = 0) : s = "" := by
  cases s with
  | mk d =>
    have hd : d = [] := List.length_eq_zero.mp h
    subst hd
    rfl

theorem calculateStringSimilarity_comm (a b : String) :
    calculateStringSimilarity a b = calculateStringSimilarity b a := by
  unfold calculateStringSimilarity
  rcases lt_trichotomy a.length b.length with h | h | h
  · have h1 : ¬ a.length > b.length := by omega
    simp only [h1, h, if_true, if_false, gt_iff_lt]
  · have h1 : ¬ a.length > b.length := by omega
    have h2 : ¬ b.length > a.length := by omega
    simp only [h1, h2, if_false]
    rw [levenshteinDistance_comm a b, h]
  · have h1 : ¬ b.length > a.length := by omega
    simp only [h1, h, if_true, if_false, gt_iff_lt]

theorem daysDiff_comm (x y : Transaction) : daysDiff x y = daysDiff y x := by
  simp only [daysDiff, abs_sub_comm]

theorem dateContribution_comm (x y : Transaction) (tol : ℚ) :
    dateContribution x y tol = dateContribution y x tol := by
  simp only [dateContribution, daysDiff_comm x y]

theorem daysDiff_nonneg (x y : Transaction) : 0 ≤ daysDiff x y := by
  unfold daysDiff
  apply div_nonneg
  · exact_mod_cast abs_nonneg _
  · norm_num

theorem amountContribution_range (e s : Transaction) :
    0 ≤ amountContribution e s ∧ amountContribution e s ≤ 70 := by
  unfold amountContribution
  dsimp only
  split_ifs <;> norm_num

theorem dateContribution_range (e s : Transaction) (tol : ℚ) :
    0 ≤ dateContribution e s tol ∧ dateContribution e s tol ≤ 20 := by
  unfold dateContribution
  split_ifs <;> norm_num

theorem calculateStringSimilarity_range (a b : String) (v : ℚ)
    (h : calculateStringSimilarity a b = some v) : 0 ≤ v ∧ v ≤ 1 := by
  unfold calculateStringSimilarity at h
  simp only at h
  split_ifs at h with h1 h0 h0
  all_goals
    simp only [Option.some.injEq] at h
    subst h
  · have hle := levenshteinDistance_le a b
    have hpos : (0 : ℚ) < (a.length : ℚ) := by
      have : 0 < a.length := by omega
      exact_mod_cast this
    have hmax : max a.length b.length = a.length := by omega
    rw [hmax] at hle
    have hle' : (levenshteinDistance a b : ℚ) ≤ (a.length : ℚ) := by exact_mod_cast hle
    constructor
    · apply div_nonneg <;> linarith
    · rw [div_le_one hpos]
      have : (0 : ℚ) ≤ (levenshteinDistance a b : ℚ) := by positivity
      linarith
  · have hle := levenshteinDistance_le b a
    have hpos : (0 : ℚ) < (b.length : ℚ) := by
      have : 0 < b.length := by omega
      exact_mod_cast this
    have hmax : max b.length a.length = b.length := by omega
    rw [hmax] at hle
    have hle' : (levenshteinDistance b a : ℚ) ≤ (b.length : ℚ) := by exact_mod_cast hle
    constructor
    · apply div_nonneg <;> linarith
    · rw [div_le_one hpos]
      have : (0 : ℚ) ≤ (levenshteinDistance b a : ℚ) := by positivity
      linarith

theorem calculateMatchConfidence_amount_only_eq (e s : Transaction) (tol : ℚ) (strat : String)
    (h1 : strat ≠ "amount_and_date") (h2 : strat ≠ "fuzzy_match") :
    calculateMatchConfidence e s tol strat = some (amountContribution e s) := by
  have := amountContribution_range e s
  simp only [calculateMatchConfidence, h1, h2, or_self, if_false, Option.map_some', zero_add]
  congr 1
  apply min_eq_left
  linarith

theorem calculateMatchConfidence_amount_and_date_eq (e s : Transaction) (tol : ℚ) :
    calculateMatchConfidence e s tol "amount_and_date" =
      some (amountContribution e s + dateContribution e s tol) := by
  have := amountContribution_range e s
  have := dateContribution_range e s tol
  have h2 : ¬ ("amount_and_date" = "fuzzy_match") := by decide
  simp only [calculateMatchConfidence, h2, true_or, if_true, if_false, Option.map_some', zero_add]
  congr 1
  apply min_eq_left
  linarith

theorem calculateMatchConfidence_fuzzy_eq (e s : Transaction) (tol : ℚ) :
    calculateMatchConfidence e s tol "fuzzy_match" =
      (calculateStringSimilarity (e.description.getD "") (s.description.getD "")).map
        (fun sim => amountContribution e s + dateContribution e s tol + sim * 10) := by
  have := amountContribution_range e s
  have := dateContribution_range e s tol
  simp only [calculateMatchConfidence, or_true, if_true, zero_add]
  cases hsim : calculateStringSimilarity (e.description.getD "") (s.description.getD "") with
  | none => rfl
  | some v =>
    have := calculateStringSimilarity_range _ _ v hsim
    simp only [Option.map_some']
    congr 1
    apply min_eq_left
    linarith

/-- Whenever the score is a number it lies between 0 and 100. -/
theorem calculateMatchConfidence_range (e s : Transaction) (tol : ℚ) (strat : String) (v : ℚ)
    (h : calculateMatchConfidence e s tol strat = some v) : 0 ≤ v ∧ v ≤ 100 := by
  have ha := amountContribution_range e s
  have hd := dateContribution_range e s tol
  by_cases h2 : strat = "fuzzy_match"
  · subst h2
    rw [calculateMatchConfidence_fuzzy_eq] at h
    cases hsim : calculateStringSimilarity (e.description.getD "") (s.description.getD "") with
    | none => rw [hsim] at h; cases h
    | some w =>
      have := calculateStringSimilarity_range _ _ w hsim
      rw [hsim] at h
      simp only [Option.map_some', Option.some.injEq] at h
      constructor <;> linarith
  · by_cases h1 : strat = "amount_and_date"
    · subst h1
      rw [calculateMatchConfidence_amount_and_date_eq] at h
      simp only [Option.some.injEq] at h
      constructor <;> linarith
    · rw [calculateMatchConfidence_amount_only_eq e s tol strat h1 h2] at h
      simp only [Option.some.injEq] at h
      constructor <;> linarith

/-- The score is `NaN` exactly under `fuzzy_match` with two empty (or absent) descriptions. -/
theorem calculateMatchConfidence_eq_none_iff (e s : Transaction) (tol : ℚ) (strat : String) :
    calculateMatchConfidence e s tol strat = none ↔
      strat = "fuzzy_match" ∧ e.description.getD "" = "" ∧ s.description.getD "" = "" := by
  by_cases h2 : strat = "fuzzy_match"
  · subst h2
    rw [calculateMatchConfidence_fuzzy_eq]
    simp only [Option.map_eq_none', true_and]
    unfold calculateStringSimilarity
    simp only [ite_eq_left_iff, reduceCtorEq, imp_false, not_not]
    constructor
    · intro h
      split_ifs at h with hlt
      · have : (e.description.getD "").length = 0 := h
        omega
      · have h1 : (s.description.getD "").length = 0 := h
        have h0 : (e.description.getD "").length = 0 := by omega
        exact ⟨string_eq_empty _ h0, string_eq_empty _ h1⟩
    · rintro ⟨h0, h1⟩
      simp [h0, h1]
  · by_cases h1 : strat = "amount_and_date"
    · subst h1
      rw [calculateMatchConfidence_amount_and_date_eq]
      simp [h2]
    · rw [calculateMatchConfidence_amount_only_eq e s tol strat h1 h2]
      simp [h2]

/-- C3, at the failing input: under `fuzzy_match` an expense and a sale of amount 100 on the same
day, both without description, get the score `NaN` (the similarity is `0 / 0`), which is not a
value between 0 and 100. -/
theorem calculateMatchConfidence_empty_descriptions :
    calculateMatchConfidence (Examples.row "e1" 19783 100 none) (Examples.row "s1" 19783 100 none)
      7 "fuzzy_match" = none ∧
    calculateMatchConfidence (Examples.row "e1" 19783 100 (some ""))
      (Examples.row "s1" 19783 100 (some "")) 7 "fuzzy_match" = none := by
  constructor <;>
    exact (calculateMatchConfidence_eq_none_iff _ _ _ _).mpr ⟨rfl, rfl, rfl⟩

theorem daysDiff_date_only (expense sale : Transaction) (de ds : Int)
    (he : expense.date = 86400000 * de) (hs : sale.date = 86400000 * ds) :
    daysDiff expense sale = ((|de - ds| : Int) : ℚ) := by
  unfold daysDiff
  rw [he, hs, ← mul_sub, abs_mul]
  push_cast
  norm_num

theorem dateContribution_date_only (expense sale : Transaction) (tol : ℚ) (de ds : Int)
    (he : expense.date = 86400000 * de) (hs : sale.date = 86400000 * ds) :
    dateContribution expense sale tol =
      (if |de - ds| = 0 then 20 else if |de - ds| = 1 then 15
        else if ((|de - ds| : Int) : ℚ) ≤ tol then 10 else 0) := by
  unfold dateContribution
  rw [daysDiff_date_only expense sale de ds he hs]
  have hnn : 0 ≤ |de - ds| := abs_nonneg _
  by_cases h0 : |de - ds| = 0
  · simp [h0]
  · have h0' : ¬ ((|de - ds| : Int) : ℚ) = 0 := by exact_mod_cast h0
    by_cases h1 : |de - ds| = 1
    · simp [h1]
    · have h1' : ¬ ((|de - ds| : Int) : ℚ) ≤ 1 := by
        intro h
        have : |de - ds| ≤ 1 := by exact_mod_cast h
        omega
      simp only [h0, h0', h1, h1', if_false]

/-- C5: for date-only inputs (timestamps that are whole days `de` and `ds`), with
`days = |de - ds|`, the score under `amount_and_date` is the amount contribution plus the date
contribution 20 if `days = 0`, 15 if `days = 1`, 10 if `1 < days ≤ dateToleranceDays`, 0
otherwise; under `fuzzy_match` the same date contribution is added (next to ten times the
description similarity, when that is a number). -/
theorem calculateMatchConfidence_date_tiers (expense sale : Transaction)
    (dateToleranceDays : ℚ) (de ds : Int)
    (he : expense.date = 86400000 * de) (hs : sale.date = 86400000 * ds) :
    calculateMatchConfidence expense sale dateToleranceDays "amount_and_date" =
      some (amountContribution expense sale +
        (if |de - ds| = 0 then 20 else if |de - ds| = 1 then 15
          else if 1 < |de - ds| ∧ ((|de - ds| : Int) : ℚ) ≤ dateToleranceDays then 10 else 0)) ∧
    calculateMatchConfidence expense sale dateToleranceDays "fuzzy_match" =
      (calculateStringSimilarity (expense.description.getD "")
          (sale.description.getD "")).map fun similarity =>
        amountContribution expense sale +
          (if |de - ds| = 0 then 20 else if |de - ds| = 1 then 15
            else if 1 < |de - ds| ∧ ((|de - ds| : Int) : ℚ) ≤ dateToleranceDays then 10 else 0) +
          similarity * 10 := by
  have hnn : 0 ≤ |de - ds| := abs_nonneg _
  have hd : dateContribution expense sale dateToleranceDays =
      (if |de - ds| = 0 then 20 else if |de - ds| = 1 then 15
        else if 1 < |de - ds| ∧ ((|de - ds| : Int) : ℚ) ≤ dateToleranceDays then 10 else 0) := by
    rw [dateContribution_date_only expense sale dateToleranceDays de ds he hs]
    by_cases h0 : |de - ds| = 0
    · simp [h0]
    · by_cases h1 : |de - ds| = 1
      · simp [h1]
      · have h2 : 1 < |de - ds| := by omega
        simp only [h0, h1, h2, if_false, true_and]
  rw [calculateMatchConfidence_amount_and_date_eq, calculateMatchConfidence_fuzzy_eq, hd]
  exact ⟨rfl, rfl⟩

/-- C5 at an expense of 2024-03-01 and a sale of 2024-03-04, both of amount 100, tolerance 7:
the score is 70 + 10. -/
theorem calculateMatchConfidence_date_tiers_witness :
    (Examples.row "e1" 19783 100 none).date = 86400000 * 19783 ∧
    (Examples.row "s1" 19786 100 none).date = 86400000 * 19786 ∧
    calculateMatchConfidence (Examples.row "e1" 19783 100 none)
      (Examples.row "s1" 19786 100 none) 7 "amount_and_date" = some 80 := by
  have he : (Examples.row "e1" 19783 100 none).date = 86400000 * 19783 := by decide
  have hs : (Examples.row "s1" 19786 100 none).date = 86400000 * 19786 := by decide
  refine ⟨he, hs, ?_⟩
  rw [(calculateMatchConfidence_date_tiers (Examples.row "e1" 19783 100 none)
    (Examples.row "s1" 19786 100 none) 7 19783 19786 he hs).1]
  norm_num [amountContribution, Examples.row]

/-- C6, refuted as stated: with amounts 100 and 105 under `amount_only`, scoring the first as
the expense gives 30 (a difference of 5 is not below 5% of 100) and scoring the second as the
expense gives 50 (5 is below 5% of 105). -/
theorem calculateMatchConfidence_not_symmetric :
    calculateMatchConfidence (Examples.row "e1" 19783 100 none)
      (Examples.row "s1" 19783 105 none) 7 "amount_only" = some 30 ∧
    calculateMatchConfidence (Examples.row "s1" 19783 105 none)
      (Examples.row "e1" 19783 100 none) 7 "amount_only" = some 50 ∧
    calculateMatchConfidence (Examples.row "e1" 19783 100 none)
        (Examples.row "s1" 19783 105 none) 7 "amount_only" ≠
      calculateMatchConfidence (Examples.row "s1" 19783 105 none)
        (Examples.row "e1" 19783 100 none) 7 "amount_only" := by
  rw [calculateMatchConfidence_amount_only_eq _ _ _ _ (by decide) (by decide),
    calculateMatchConfidence_amount_only_eq _ _ _ _ (by decide) (by decide)]
  norm_num [amountContribution, Examples.row, abs_of_neg]

/-- C6, amended: the date contribution and the description contribution do not depend on which
transaction is the expense, so the two scores agree whenever the amount contribution is the same
in both directions (in particular for equal amounts); the amount tiers are measured against the
amount of the expense. -/
theorem calculateMatchConfidence_symm_of_amount (x y : Transaction) (dateToleranceDays : ℚ)
    (matchStrategy : String) (h : amountContribution x y = amountContribution y x) :
    calculateMatchConfidence x y dateToleranceDays matchStrategy =
      calculateMatchConfidence y x dateToleranceDays matchStrategy := by
  unfold calculateMatchConfidence
  rw [h, dateContribution_comm x y,
    calculateStringSimilarity_comm (x.description.getD "") (y.description.getD "")]

theorem amountContribution_eq_amount (x y : Transaction) (h : x.amount = y.amount) :
    amountContribution x y = amountContribution y x := by
  unfold amountContribution
  simp [h]

/-- C6 amended, at two transactions of amounts 100 and 101 (tier 50 in both directions) two days
apart with different descriptions, under `fuzzy_match`. -/
theorem calculateMatchConfidence_symm_of_amount_witness :
    amountContribution (Examples.row "e1" 19783 100 (some "Invoice 123"))
        (Examples.row "s1" 19785 101 (some "Inv 12")) =
      amountContribution (Examples.row "s1" 19785 101 (some "Inv 12"))
        (Examples.row "e1" 19783 100 (some "Invoice 123")) ∧
    calculateMatchConfidence (Examples.row "e1" 19783 100 (some "Invoice 123"))
        (Examples.row "s1" 19785 101 (some "Inv 12")) 7 "fuzzy_match" =
      calculateMatchConfidence (Examples.row "s1" 19785 101 (some "Inv 12"))
        (Examples.row "e1" 19783 100 (some "Invoice 123")) 7 "fuzzy_match" := by
  have h : amountContribution (Examples.row "e1" 19783 100 (some "Invoice 123"))
        (Examples.row "s1" 19785 101 (some "Inv 12")) =
      amountContribution (Examples.row "s1" 19785 101 (some "Inv 12"))
        (Examples.row "e1" 19783 100 (some "Invoice 123")) := by
    norm_num [amountContribution, Examples.row, abs_of_neg]
  exact ⟨h, calculateMatchConfidence_symm_of_amount _ _ 7 "fuzzy_match" h⟩

/-! ## The stable sort -/

/-- The head of a list sorted (by insertion) in descending order of a key is maximal, and it is
the first element of the input that has its key. -/
theorem insertionSort_head_desc {α : Type} (key : α → ℚ) (r : α → α → Prop) [DecidableRel r]
    (l : List α) (hr : ∀ a ∈ l, ∀ b ∈ l, (r a b ↔ key b ≤ key a)) (b : α) (rest : List α)
    (h : l.insertionSort r = b :: rest) :
    (∀ x ∈ l, key x ≤ key b) ∧ ∃ l1 l2, l = l1 ++ b :: l2 ∧ ∀ t ∈ l1, key t ≠ key b := by
  induction l generalizing b rest with
  | nil => simp at h
  | cons a l ih =>
    rw [List.insertionSort] at h
    cases hs : List.insertionSort r l with
    | nil =>
      have hl : l = [] := by
        have := List.length_insertionSort r l
        rw [hs] at this
        exact List.length_eq_zero.mp this.symm
      subst hl
      rw [hs] at h
      simp only [List.orderedInsert, List.cons.injEq] at h
      obtain ⟨rfl, -⟩ := h
      exact ⟨by simp, [], [], by simp, by simp⟩
    | cons b' rest' =>
      have hr' : ∀ x ∈ l, ∀ y ∈ l, (r x y ↔ key y ≤ key x) := fun x hx y hy =>
        hr x (List.mem_cons_of_mem _ hx) y (List.mem_cons_of_mem _ hy)
      obtain ⟨hmax, l1, l2, hl, hfirst⟩ := ih hr' b' rest' hs
      have hb'l : b' ∈ l := by rw [hl]; simp
      rw [hs] at h
      simp only [List.orderedInsert] at h
      by_cases hab : r a b'
      · rw [if_pos hab] at h
        simp only [List.cons.injEq] at h
        obtain ⟨rfl, -⟩ := h
        have hk : key b' ≤ key a :=
          (hr a (List.mem_cons_self _ _) b' (List.mem_cons_of_mem _ hb'l)).mp hab
        refine ⟨?_, [], l, by simp, by simp⟩
        intro x hx
        rcases List.mem_cons.mp hx with rfl | hx
        · exact le_refl _
        · exact le_trans (hmax x hx) hk
      · rw [if_neg hab] at h
        simp only [List.cons.injEq] at h
        obtain ⟨rfl, -⟩ := h
        have hk : ¬ key b' ≤ key a := fun hle =>
          hab ((hr a (List.mem_cons_self _ _) b' (List.mem_cons_of_mem _ hb'l)).mpr hle)
        refine ⟨?_, a :: l1, l2, by simp [hl], ?_⟩
        · intro x hx
          rcases List.mem_cons.mp hx with rfl | hx
          · exact le_of_lt (not_le.mp hk)
          · exact hmax x hx
        · intro t ht
          rcases List.mem_cons.mp ht with rfl | ht
          · intro he
            exact hk (le_of_eq he.symm)
          · exact hfirst t ht

theorem insertionSort_eq_nil {α : Type} (r : α → α → Prop) [DecidableRel r] (l : List α) :
    l.insertionSort r = [] ↔ l = [] := by
  constructor
  · intro h
    have := List.length_insertionSort r l
    rw [h] at this
    exact List.length_eq_zero.mp this.symm
  · rintro rfl
    rfl

/-- A decomposition of a filtered image comes from a decomposition of the list. -/
theorem filter_map_eq_append_cons {α β : Type} (f : α → β) (p : β → Bool) (l : List α)
    (l1 l2 : List β) (b : β) (h : (l.map f).filter p = l1 ++ b :: l2) :
    ∃ s1 s s2, l = s1 ++ s :: s2 ∧ f s = b ∧ (s1.map f).filter p = l1 := by
  induction l generalizing l1 with
  | nil => simp at h
  | cons a l ih =>
    simp only [List.map_cons, List.filter_cons] at h
    by_cases hp : p (f a) = true
    · rw [if_pos hp] at h
      cases l1 with
      | nil =>
        simp only [List.nil_append, List.cons.injEq] at h
        exact ⟨[], a, l, by simp, h.1, by simp⟩
      | cons c l1 =>
        simp only [List.cons_append, List.cons.injEq] at h
        obtain ⟨s1, s, s2, hl, hfs, hs1⟩ := ih l1 h.2
        refine ⟨a :: s1, s, s2, by simp [hl], hfs, ?_⟩
        rw [List.map_cons, List.filter_cons, if_pos hp, hs1, h.1]
    · rw [if_neg hp] at h
      obtain ⟨s1, s, s2, hl, hfs, hs1⟩ := ih l1 h
      refine ⟨a :: s1, s, s2, by simp [hl], hfs, ?_⟩
      simp [List.filter_cons, hp, hs1]

/-- Insertion into a list sorted in descending order of a key does not disturb the elements of
any one key. -/
theorem orderedInsert_filter_key {α : Type} (key : α → ℚ) (r : α → α → Prop) [DecidableRel r]
    (hr : ∀ a b, r a b ↔ key b ≤ key a) (v : ℚ) (a : α) (l : List α) :
    (l.orderedInsert r a).filter (fun x => decide (key x = v)) =
      if key a = v then a :: l.filter (fun x => decide (key x = v))
      else l.filter (fun x => decide (key x = v)) := by
  induction l with
  | nil => by_cases h : key a = v <;> simp [h]
  | cons b l ih =>
    rw [List.orderedInsert]
    by_cases hab : r a b
    · rw [if_pos hab]
      by_cases h : key a = v <;> simp [List.filter_cons, h]
    · rw [if_neg hab, List.filter_cons, ih]
      have hlt : ¬ key b ≤ key a := fun hle => hab ((hr a b).mpr hle)
      by_cases h : key a = v
      · have hb : ¬ key b = v := fun hb => hlt (by rw [hb, h])
        simp [List.filter_cons, h, hb]
      · simp [List.filter_cons, h]

/-- The sort is stable: the elements of any one key keep their order. -/
theorem insertionSort_filter_key {α : Type} (key : α → ℚ) (r : α → α → Prop) [DecidableRel r]
    (hr : ∀ a b, r a b ↔ key b ≤ key a) (v : ℚ) (l : List α) :
    (l.insertionSort r).filter (fun x => decide (key x = v)) =
      l.filter (fun x => decide (key x = v)) := by
  induction l with
  | nil => rfl
  | cons a l ih =>
    rw [List.insertionSort, orderedInsert_filter_key key r hr, ih]
    by_cases h : key a = v <;> simp [List.filter_cons, h]

/-- The result of the sort is in descending order of the key. -/
theorem insertionSort_pairwise_key {α : Type} (key : α → ℚ) (r : α → α → Prop) [DecidableRel r]
    (hr : ∀ a b, r a b ↔ key b ≤ key a) (l : List α) :
    (l.insertionSort r).Pairwise (fun a b => key b ≤ key a) := by
  haveI : IsTotal α r := ⟨fun a b => by
    rw [hr a b, hr b a]; exact le_total _ _⟩
  haveI : IsTrans α r := ⟨fun a b c hab hbc => by
    rw [hr] at hab hbc ⊢; exact le_trans hbc hab⟩
  have := List.sorted_insertionSort r l
  exact List.Pairwise.imp (fun {a b} h => (hr a b).mp h) this

namespace AutoMatch

/-! ## Selection loop -/

theorem mem_candidates (expense : Transaction) (sales : List Transaction) (tol thr : ℚ)
    (strat : String) (c : Candidate) :
    c ∈ (sales.map fun sale =>
        (⟨sale, calculateMatchConfidence expense sale tol strat⟩ : Candidate)).filter
          (reachesThreshold thr) ↔
      ∃ s ∈ sales, ∃ v, calculateMatchConfidence expense s tol strat = some v ∧ thr ≤ v ∧
        c = ⟨s, some v⟩ := by
  simp only [List.mem_filter, List.mem_map]
  constructor
  · rintro ⟨⟨s, hs, rfl⟩, hthr⟩
    cases hv : calculateMatchConfidence expense s tol strat with
    | none => simp [reachesThreshold, hv] at hthr
    | some v =>
      simp only [reachesThreshold, hv, decide_eq_true_eq] at hthr
      exact ⟨s, hs, v, hv, hthr, rfl⟩
  · rintro ⟨s, hs, v, hv, hthr, rfl⟩
    refine ⟨⟨s, hs, by rw [hv]⟩, ?_⟩
    simp [reachesThreshold, hthr]

theorem keepsOrder_iff (a b : Candidate) (x y : ℚ) (ha : a.confidence = some x)
    (hb : b.confidence = some y) :
    keepsOrder a b = true ↔ b.confidence.getD 0 ≤ a.confidence.getD 0 := by
  simp [keepsOrder, ha, hb]

theorem potentialMatches_eq_nil (expense : Transaction) (sales : List Transaction)
    (tol thr : ℚ) (strat : String) :
    potentialMatches expense sales tol thr strat = [] ↔
      ∀ s ∈ sales, ∀ v, calculateMatchConfidence expense s tol strat = some v → v < thr := by
  unfold potentialMatches
  rw [insertionSort_eq_nil, List.eq_nil_iff_forall_not_mem]
  constructor
  · intro h s hs v hv
    by_contra hlt
    exact h ⟨s, some v⟩ ((mem_candidates expense sales tol thr strat _).mpr
      ⟨s, hs, v, hv, not_lt.mp hlt, rfl⟩)
  · intro h c hc
    obtain ⟨s, hs, v, hv, hthr, -⟩ := (mem_candidates expense sales tol thr strat c).mp hc
    exact absurd (h s hs v hv) (not_lt.mpr hthr)

/-- The head of `potentialMatches`: its confidence is a number that reaches the threshold and
bounds every score of the pool, and its sale is the first of the pool with that score. -/
theorem potentialMatches_head (expense : Transaction) (sales : List Transaction)
    (tol thr : ℚ) (strat : String) (best : Candidate) (rest : List Candidate)
    (h : potentialMatches expense sales tol thr strat = best :: rest) :
    ∃ v, best.confidence = some v ∧ thr ≤ v ∧
      (∀ s ∈ sales, ∀ w, calculateMatchConfidence expense s tol strat = some w → w ≤ v) ∧
      ∃ l1 l2, sales = l1 ++ best.sale :: l2 ∧
        calculateMatchConfidence expense best.sale tol strat = some v ∧
        ∀ t ∈ l1, calculateMatchConfidence expense t tol strat ≠ some v := by
  unfold potentialMatches at h
  have hr : ∀ a ∈ (sales.map fun sale =>
        (⟨sale, calculateMatchConfidence expense sale tol strat⟩ : Candidate)).filter
          (reachesThreshold thr),
      ∀ b ∈ (sales.map fun sale =>
        (⟨sale, calculateMatchConfidence expense sale tol strat⟩ : Candidate)).filter
          (reachesThreshold thr),
      (keepsOrder a b = true ↔ b.confidence.getD 0 ≤ a.confidence.getD 0) := by
    intro a ha b hb
    obtain ⟨_, _, x, _, _, rfl⟩ := (mem_candidates expense sales tol thr strat a).mp ha
    obtain ⟨_, _, y, _, _, rfl⟩ := (mem_candidates expense sales tol thr strat b).mp hb
    exact keepsOrder_iff _ _ x y rfl rfl
  obtain ⟨hmax, l1, l2, hl, hfirst⟩ :=
    insertionSort_head_desc (fun c : Candidate => c.confidence.getD 0) _ _ hr best rest h
  have hbest : best ∈ (sales.map fun sale =>
        (⟨sale, calculateMatchConfidence expense sale tol strat⟩ : Candidate)).filter
          (reachesThreshold thr) := by
    rw [hl]; simp
  obtain ⟨s0, _, v, hv, hthr, rfl⟩ := (mem_candidates expense sales tol thr strat best).mp hbest
  refine ⟨v, rfl, hthr, ?_, ?_⟩
  · intro s hs w hw
    by_cases hwt : thr ≤ w
    · have := hmax ⟨s, some w⟩ ((mem_candidates expense sales tol thr strat _).mpr
        ⟨s, hs, w, hw, hwt, rfl⟩)
      simpa using this
    · exact le_trans (le_of_lt (not_le.mp hwt)) hthr
  · obtain ⟨s1, s, s2, hsales, hfs, hs1⟩ := filter_map_eq_append_cons _ _ sales l1 l2 _ hl
    have hs : s = s0 := by
      have := congrArg Candidate.sale hfs
      simpa using this
    subst hs
    refine ⟨s1, s2, hsales, hv, ?_⟩
    intro t ht htv
    have hmem : (⟨t, some v⟩ : Candidate) ∈ l1 := by
      rw [← hs1]
      simp only [List.mem_filter, List.mem_map]
      exact ⟨⟨t, ht, by rw [htv]⟩, by simp [reachesThreshold, hthr]⟩
    exact hfirst _ hmem rfl

theorem selectFor_append (sales : List Transaction) (tol thr : ℚ) (strat : String)
    (acc : List MatchResult) (expense : Transaction) :
    selectFor sales tol thr strat acc expense = acc ++ selectFor sales tol thr strat [] expense := by
  unfold selectFor
  cases potentialMatches expense sales tol thr strat <;> simp

theorem foldl_selectFor (sales : List Transaction) (tol thr : ℚ) (strat : String)
    (expenses : List Transaction) (acc : List MatchResult) :
    expenses.foldl (selectFor sales tol thr strat) acc =
      acc ++ expenses.foldl (selectFor sales tol thr strat) [] := by
  induction expenses generalizing acc with
  | nil => simp
  | cons e es ih =>
    simp only [List.foldl_cons]
    rw [ih (selectFor sales tol thr strat acc e), ih (selectFor sales tol thr strat [] e),
      selectFor_append sales tol thr strat acc e, List.append_assoc]

theorem findMatches_cons (e : Transaction) (es sales : List Transaction) (tol thr : ℚ)
    (strat : String) :
    findMatches (e :: es) sales tol thr strat =
      selectFor sales tol thr strat [] e ++ findMatches es sales tol thr strat := by
  unfold findMatches
  rw [List.foldl_cons, foldl_selectFor]

theorem findMatches_nil (sales : List Transaction) (tol thr : ℚ) (strat : String) :
    findMatches [] sales tol thr strat = [] := rfl

/-- C1, refuted as stated: two expenses that both score 96 against the only pending sale `S`
(equal amounts, same day, descriptions at edit distance 2 of 5 characters, `fuzzy_match`,
threshold 95) are both matched to `S`: the match list carries the saleId `S` twice. -/
theorem findMatches_selects_sale_twice :
    (findMatches
      [Examples.row "A" 19783 100 (some "abcde"), Examples.row "B" 19783 100 (some "abcde")]
      [Examples.row "S" 19783 100 (some "abcxy")] 7 95 "fuzzy_match").map
        (fun m => (m.expenseId, m.saleId, m.confidence)) =
      [("A", "S", some 96), ("B", "S", some 96)] ∧
    ¬ ((findMatches
      [Examples.row "A" 19783 100 (some "abcde"), Examples.row "B" 19783 100 (some "abcde")]
      [Examples.row "S" 19783 100 (some "abcxy")] 7 95 "fuzzy_match").map
        (fun m => m.saleId)).Nodup := by
  have hsim : calculateStringSimilarity "abcde" "abcxy" = some (3 / 5) := by
    have hl : levenshteinDistance "abcxy" "abcde" = 2 := by decide
    have h1 : ("abcde" : String).length = 5 := by decide
    have h2 : ("abcxy" : String).length = 5 := by decide
    unfold calculateStringSimilarity
    simp only [h1, h2, gt_iff_lt, lt_self_iff_false, if_false, hl]
    norm_num
  have hc : ∀ id : String, calculateMatchConfidence (Examples.row id 19783 100 (some "abcde"))
      (Examples.row "S" 19783 100 (some "abcxy")) 7 "fuzzy_match" = some 96 := by
    intro id
    rw [calculateMatchConfidence_fuzzy_eq]
    simp only [Examples.row, Option.getD_some, hsim, Option.map_some']
    norm_num [amountContribution, dateContribution, daysDiff]
  have hp : ∀ id : String, potentialMatches (Examples.row id 19783 100 (some "abcde"))
      [Examples.row "S" 19783 100 (some "abcxy")] 7 95 "fuzzy_match" =
      [⟨Examples.row "S" 19783 100 (some "abcxy"), some 96⟩] := by
    intro id
    simp only [potentialMatches, List.map_cons, List.map_nil, hc id]
    have : reachesThreshold 95 ⟨Examples.row "S" 19783 100 (some "abcxy"), some 96⟩ = true := by
      simp only [reachesThreshold, decide_eq_true_eq]
      norm_num
    simp [List.filter_cons, this]
  have hf : (findMatches
      [Examples.row "A" 19783 100 (some "abcde"), Examples.row "B" 19783 100 (some "abcde")]
      [Examples.row "S" 19783 100 (some "abcxy")] 7 95 "fuzzy_match").map
        (fun m => (m.expenseId, m.saleId, m.confidence)) =
      [("A", "S", some 96), ("B", "S", some 96)] := by
    rw [findMatches_cons, findMatches_cons, findMatches_nil]
    simp only [selectFor, hp]
    simp [Examples.row]
  refine ⟨hf, ?_⟩
  have hs : (findMatches
      [Examples.row "A" 19783 100 (some "abcde"), Examples.row "B" 19783 100 (some "abcde")]
      [Examples.row "S" 19783 100 (some "abcxy")] 7 95 "fuzzy_match").map (fun m => m.saleId) =
      ["S", "S"] := by
    have := congrArg (List.map fun t : String × String × Option ℚ => t.2.1) hf
    simpa using this
  rw [hs]
  decide

/-- C1, amended: nothing is removed from the pool during a run.  The match list of a run is the
concatenation, in the order of the expenses, of the matches each expense obtains on its own
against the full list of pending sales. -/
theorem findMatches_independent (expenses1 expenses2 sales : List Transaction)
    (dateToleranceDays autoMatchThreshold : ℚ) (matchStrategy : String) :
    findMatches (expenses1 ++ expenses2) sales dateToleranceDays autoMatchThreshold matchStrategy =
      findMatches expenses1 sales dateToleranceDays autoMatchThreshold matchStrategy ++
        findMatches expenses2 sales dateToleranceDays autoMatchThreshold matchStrategy := by
  unfold findMatches
  rw [List.foldl_append, foldl_selectFor]

/-- The iteration of the selection loop for an expense.  If no sale of the pool has a score that
reaches the threshold, nothing is appended to `matches`.  Otherwise one match is appended; it
carries the id of the expense, its confidence is a number that reaches the threshold and is the
greatest score over the pool, and its sale is the first sale of the pool with that score. -/
theorem selectFor_spec (sales : List Transaction) (dateToleranceDays autoMatchThreshold : ℚ)
    (matchStrategy : String) (acc : List MatchResult) (expense : Transaction) :
    ((¬ ∃ s ∈ sales, ∃ v,
        calculateMatchConfidence expense s dateToleranceDays matchStrategy = some v ∧
          autoMatchThreshold ≤ v) →
      selectFor sales dateToleranceDays autoMatchThreshold matchStrategy acc expense = acc) ∧
    ((∃ s ∈ sales, ∃ v,
        calculateMatchConfidence expense s dateToleranceDays matchStrategy = some v ∧
          autoMatchThreshold ≤ v) →
      ∃ m v l1 s l2,
        selectFor sales dateToleranceDays autoMatchThreshold matchStrategy acc expense =
          acc ++ [m] ∧
        m.expenseId = expense.id ∧ m.confidence = some v ∧ autoMatchThreshold ≤ v ∧
        (∀ t ∈ sales, ∀ w,
          calculateMatchConfidence expense t dateToleranceDays matchStrategy = some w → w ≤ v) ∧
        sales = l1 ++ s :: l2 ∧ m.saleId = s.id ∧
        calculateMatchConfidence expense s dateToleranceDays matchStrategy = some v ∧
        ∀ t ∈ l1, calculateMatchConfidence expense t dateToleranceDays matchStrategy ≠ some v) := by
  constructor
  · intro hno
    have hnil : potentialMatches expense sales dateToleranceDays autoMatchThreshold
        matchStrategy = [] := by
      rw [potentialMatches_eq_nil]
      intro s hs v hv
      by_contra hlt
      exact hno ⟨s, hs, v, hv, not_lt.mp hlt⟩
    simp only [selectFor, hnil]
  · rintro ⟨s, hs, v, hv, hthr⟩
    cases hpm : potentialMatches expense sales dateToleranceDays autoMatchThreshold
        matchStrategy with
    | nil =>
      have := (potentialMatches_eq_nil expense sales dateToleranceDays autoMatchThreshold
        matchStrategy).mp hpm s hs v hv
      exact absurd hthr (not_le.mpr this)
    | cons best rest =>
      obtain ⟨w, hbw, hthrw, hmax, l1, l2, hsales, hbest, hfirst⟩ :=
        potentialMatches_head expense sales dateToleranceDays autoMatchThreshold matchStrategy
          best rest hpm
      refine ⟨⟨expense.id, best.sale.id, best.confidence,
        getMatchReasons expense best.sale dateToleranceDays⟩, w, l1, best.sale, l2, ?_, rfl, hbw,
        hthrw, hmax, hsales, rfl, hbest, hfirst⟩
      simp only [selectFor, hpm]

/-! ## Commit loop -/

theorem expenseAfter_cons (m : MatchResult) (ms : List MatchResult) (r : Transaction) :
    expenseAfter (m :: ms) r =
      expenseAfter ms (if r.id = m.expenseId then
        { r with matched_to_sale_id := some m.saleId, status := Status.matched } else r) := rfl

theorem saleAfter_cons (m : MatchResult) (ms : List MatchResult) (r : Transaction) :
    saleAfter (m :: ms) r =
      saleAfter ms (if r.id = m.saleId then
        { r with matched_to_expense_id := some m.expenseId, status := Status.matched }
        else r) := rfl

theorem foldl_applyMatch (ms : List MatchResult) (st : Store) (n : Nat) :
    ms.foldl applyMatch (st, n) =
      (⟨st.expenses.map (expenseAfter ms), st.sales.map (saleAfter ms)⟩, n + ms.length) := by
  induction ms generalizing st n with
  | nil =>
    have he : expenseAfter [] = id := rfl
    have hs : saleAfter [] = id := rfl
    simp [he, hs]
  | cons m ms ih =>
    rw [List.foldl_cons, applyMatch, ih]
    simp only [updateExpense, updateSale, List.map_map, List.length_cons]
    refine Prod.ext ?_ (by simp only; omega)
    simp only
    congr 1

theorem applyMatches_eq (st : Store) (ms : List MatchResult) :
    applyMatches st ms =
      (⟨st.expenses.map (expenseAfter ms), st.sales.map (saleAfter ms)⟩, ms.length) := by
  unfold applyMatches
  rw [foldl_applyMatch, Nat.zero_add]

/-- A row of `expenses` after the commit loop: untouched when no match names it, else rewritten
by one of the matches that name it. -/
theorem expenseAfter_cases (ms : List MatchResult) (r : Transaction) :
    ((∀ m ∈ ms, m.expenseId ≠ r.id) ∧ expenseAfter ms r = r) ∨
    ∃ m ∈ ms, m.expenseId = r.id ∧
      expenseAfter ms r =
        { r with matched_to_sale_id := some m.saleId, status := Status.matched } := by
  induction ms generalizing r with
  | nil => left; exact ⟨by simp, rfl⟩
  | cons m ms ih =>
    rw [expenseAfter_cons]
    by_cases h : r.id = m.expenseId
    · rw [if_pos h]
      right
      rcases ih { r with matched_to_sale_id := some m.saleId, status := Status.matched } with
        ⟨-, h2⟩ | ⟨m', hm', hid, h2⟩
      · exact ⟨m, List.mem_cons_self _ _, h.symm, h2⟩
      · exact ⟨m', List.mem_cons_of_mem _ hm', hid, h2⟩
    · rw [if_neg h]
      rcases ih r with ⟨h1, h2⟩ | ⟨m', hm', hid, h2⟩
      · left
        refine ⟨?_, h2⟩
        intro m' hm'
        rcases List.mem_cons.mp hm' with rfl | hm'
        · exact fun e => h e.symm
        · exact h1 m' hm'
      · right
        exact ⟨m', List.mem_cons_of_mem _ hm', hid, h2⟩

/-- A row of `sales` after the commit loop. -/
theorem saleAfter_cases (ms : List MatchResult) (r : Transaction) :
    ((∀ m ∈ ms, m.saleId ≠ r.id) ∧ saleAfter ms r = r) ∨
    ∃ m ∈ ms, m.saleId = r.id ∧
      saleAfter ms r =
        { r with matched_to_expense_id := some m.expenseId, status := Status.matched } := by
  induction ms generalizing r with
  | nil => left; exact ⟨by simp, rfl⟩
  | cons m ms ih =>
    rw [saleAfter_cons]
    by_cases h : r.id = m.saleId
    · rw [if_pos h]
      right
      rcases ih { r with matched_to_expense_id := some m.expenseId, status := Status.matched } with
        ⟨-, h2⟩ | ⟨m', hm', hid, h2⟩
      · exact ⟨m, List.mem_cons_self _ _, h.symm, h2⟩
      · exact ⟨m', List.mem_cons_of_mem _ hm', hid, h2⟩
    · rw [if_neg h]
      rcases ih r with ⟨h1, h2⟩ | ⟨m', hm', hid, h2⟩
      · left
        refine ⟨?_, h2⟩
        intro m' hm'
        rcases List.mem_cons.mp hm' with rfl | hm'
        · exact fun e => h e.symm
        · exact h1 m' hm'
      · right
        exact ⟨m', List.mem_cons_of_mem _ hm', hid, h2⟩

/-! ## The match list -/

theorem selectFor_nil_eq (sales : List Transaction) (tol thr : ℚ) (strat : String)
    (e : Transaction) :
    selectFor sales tol thr strat [] e =
      match potentialMatches e sales tol thr strat with
      | best :: _ => [⟨e.id, best.sale.id, best.confidence, getMatchReasons e best.sale tol⟩]
      | [] => [] := by
  unfold selectFor
  cases potentialMatches e sales tol thr strat <;> rfl

theorem findMatches_eq_nil (es sales : List Transaction) (tol thr : ℚ) (strat : String) :
    findMatches es sales tol thr strat = [] ↔
      ∀ e ∈ es, potentialMatches e sales tol thr strat = [] := by
  induction es with
  | nil => simp [findMatches_nil]
  | cons e es ih =>
    rw [findMatches_cons, List.append_eq_nil, ih, selectFor_nil_eq]
    cases h : potentialMatches e sales tol thr strat <;> simp [h]

theorem mem_findMatches (es sales : List Transaction) (tol thr : ℚ) (strat : String)
    (m : MatchResult) (hm : m ∈ findMatches es sales tol thr strat) :
    ∃ e ∈ es, ∃ best rest, potentialMatches e sales tol thr strat = best :: rest ∧
      m.expenseId = e.id ∧ m.saleId = best.sale.id := by
  induction es with
  | nil => simp [findMatches_nil] at hm
  | cons e es ih =>
    rw [findMatches_cons, List.mem_append, selectFor_nil_eq] at hm
    rcases hm with hm | hm
    · cases h : potentialMatches e sales tol thr strat with
      | nil => rw [h] at hm; simp at hm
      | cons best rest =>
        rw [h] at hm
        simp only [List.mem_singleton] at hm
        subst hm
        exact ⟨e, List.mem_cons_self _ _, best, rest, h, rfl, rfl⟩
    · obtain ⟨e', he', rest⟩ := ih hm
      exact ⟨e', List.mem_cons_of_mem _ he', rest⟩

theorem exists_mem_findMatches (es sales : List Transaction) (tol thr : ℚ) (strat : String)
    (e : Transaction) (he : e ∈ es) (h : potentialMatches e sales tol thr strat ≠ []) :
    ∃ m ∈ findMatches es sales tol thr strat, m.expenseId = e.id := by
  induction es with
  | nil => simp at he
  | cons a es ih =>
    rw [findMatches_cons]
    rcases List.mem_cons.mp he with rfl | he
    · rw [selectFor_nil_eq]
      cases hp : potentialMatches e sales tol thr strat with
      | nil => exact absurd hp h
      | cons best rest =>
        exact ⟨⟨e.id, best.sale.id, best.confidence, getMatchReasons e best.sale tol⟩,
          by simp, rfl⟩
    · obtain ⟨m, hm, hid⟩ := ih he
      exact ⟨m, List.mem_append_right _ hm, hid⟩

theorem potentialMatches_sale_mem (e : Transaction) (sales : List Transaction) (tol thr : ℚ)
    (strat : String) (c : Candidate) (hc : c ∈ potentialMatches e sales tol thr strat) :
    c.sale ∈ sales := by
  unfold potentialMatches at hc
  rw [List.mem_insertionSort] at hc
  obtain ⟨s, hs, v, -, -, rfl⟩ := (mem_candidates e sales tol thr strat c).mp hc
  exact hs

theorem mem_pendingRows (rows : List Transaction) (r : Transaction) :
    r ∈ pendingRows rows ↔ r ∈ rows ∧ r.status = Status.pending := by
  simp [pendingRows]

theorem run_fst (st : Store) (tol thr : ℚ) (strat : String) :
    (run st tol thr strat).1 =
      ⟨st.expenses.map (expenseAfter
          (findMatches (pendingRows st.expenses) (pendingRows st.sales) tol thr strat)),
        st.sales.map (saleAfter
          (findMatches (pendingRows st.expenses) (pendingRows st.sales) tol thr strat))⟩ := by
  simp only [run, applyMatches_eq]

theorem run_snd (st : Store) (tol thr : ℚ) (strat : String) :
    (run st tol thr strat).2 =
      ⟨(findMatches (pendingRows st.expenses) (pendingRows st.sales) tol thr strat).length,
        (pendingRows st.expenses).length, (pendingRows st.sales).length,
        findMatches (pendingRows st.expenses) (pendingRows st.sales) tol thr strat⟩ := by
  simp only [run, applyMatches_eq]

theorem expenseAfter_pending (ms : List MatchResult) (r : Transaction)
    (h : (expenseAfter ms r).status = Status.pending) :
    (∀ m ∈ ms, m.expenseId ≠ r.id) ∧ expenseAfter ms r = r := by
  rcases expenseAfter_cases ms r with h1 | ⟨m, -, -, h2⟩
  · exact h1
  · rw [h2] at h
    cases h

theorem saleAfter_pending (ms : List MatchResult) (r : Transaction)
    (h : (saleAfter ms r).status = Status.pending) :
    (∀ m ∈ ms, m.saleId ≠ r.id) ∧ saleAfter ms r = r := by
  rcases saleAfter_cases ms r with h1 | ⟨m, -, -, h2⟩
  · exact h1
  · rw [h2] at h
    cases h

/-- C7: a second run on the store the first run leaves behind (same configuration, every write
of the first run applied) selects no match, reports `matchedCount = 0` and changes nothing. -/
theorem run_twice_selects_nothing (st : Store) (dateToleranceDays autoMatchThreshold : ℚ)
    (matchStrategy : String) :
    (run (run st dateToleranceDays autoMatchThreshold matchStrategy).1
      dateToleranceDays autoMatchThreshold matchStrategy).2.matchList = [] ∧
    (run (run st dateToleranceDays autoMatchThreshold matchStrategy).1
      dateToleranceDays autoMatchThreshold matchStrategy).2.matchedCount = 0 ∧
    (run (run st dateToleranceDays autoMatchThreshold matchStrategy).1
      dateToleranceDays autoMatchThreshold matchStrategy).1 =
      (run st dateToleranceDays autoMatchThreshold matchStrategy).1 := by
  have key : findMatches
      (pendingRows (run st dateToleranceDays autoMatchThreshold matchStrategy).1.expenses)
      (pendingRows (run st dateToleranceDays autoMatchThreshold matchStrategy).1.sales)
      dateToleranceDays autoMatchThreshold matchStrategy = [] := by
    rw [findMatches_eq_nil]
    intro e' he'
    rw [mem_pendingRows, run_fst] at he'
    obtain ⟨hmem, hpend⟩ := he'
    obtain ⟨e, he, rfl⟩ := List.mem_map.mp hmem
    obtain ⟨hno, heq⟩ := expenseAfter_pending _ e hpend
    rw [heq] at hpend ⊢
    have hfirst : potentialMatches e (pendingRows st.sales) dateToleranceDays
        autoMatchThreshold matchStrategy = [] := by
      by_contra hne
      obtain ⟨m, hm, hid⟩ := exists_mem_findMatches (pendingRows st.expenses)
        (pendingRows st.sales) dateToleranceDays autoMatchThreshold matchStrategy e
        ((mem_pendingRows _ _).mpr ⟨he, hpend⟩) hne
      exact hno m hm hid
    rw [potentialMatches_eq_nil] at hfirst ⊢
    intro s' hs'
    rw [mem_pendingRows, run_fst] at hs'
    obtain ⟨hsmem, hspend⟩ := hs'
    obtain ⟨s, hs, rfl⟩ := List.mem_map.mp hsmem
    obtain ⟨-, hseq⟩ := saleAfter_pending _ s hspend
    rw [hseq] at hspend ⊢
    exact hfirst s ((mem_pendingRows _ _).mpr ⟨hs, hspend⟩)
  refine ⟨?_, ?_, ?_⟩
  · rw [run_snd, key]
  · rw [run_snd, key]
    rfl
  · rw [run_fst (run st dateToleranceDays autoMatchThreshold matchStrategy).1, key]
    have he : expenseAfter [] = id := rfl
    have hs : saleAfter [] = id := rfl
    simp [he, hs]

theorem findMatches_expenseIds_sublist (es sales : List Transaction) (tol thr : ℚ)
    (strat : String) :
    ((findMatches es sales tol thr strat).map fun m => m.expenseId).Sublist
      (es.map fun e => e.id) := by
  induction es with
  | nil => simp [findMatches_nil]
  | cons e es ih =>
    rw [findMatches_cons, selectFor_nil_eq]
    cases potentialMatches e sales tol thr strat with
    | nil => simpa using List.Sublist.cons _ ih
    | cons best rest => simpa using ih

theorem pendingRows_sublist (rows : List Transaction) : (pendingRows rows).Sublist rows :=
  List.filter_sublist _

theorem eq_of_nodup_map {α β : Type} (f : α → β) (l : List α) (h : (l.map f).Nodup)
    (a b : α) (ha : a ∈ l) (hb : b ∈ l) (hab : f a = f b) : a = b :=
  List.inj_on_of_nodup_map h ha hb hab

/-- The commit loop keeps the link invariant when the rows of each table have distinct ids, every
match names a pending expense and a pending sale, and no expense and no sale is named twice. -/
theorem linkInvariant_commit (st : Store) (ms : List MatchResult) (hinv : linkInvariant st)
    (hE : (st.expenses.map fun e => e.id).Nodup) (hS : (st.sales.map fun s => s.id).Nodup)
    (hpe : ∀ m ∈ ms, ∃ e ∈ st.expenses, e.status = Status.pending ∧ m.expenseId = e.id)
    (hps : ∀ m ∈ ms, ∃ s ∈ st.sales, s.status = Status.pending ∧ m.saleId = s.id)
    (hme : (ms.map fun m => m.expenseId).Nodup) (hms : (ms.map fun m => m.saleId).Nodup) :
    linkInvariant ⟨st.expenses.map (expenseAfter ms), st.sales.map (saleAfter ms)⟩ := by
  obtain ⟨h1, h2, h3⟩ := hinv
  -- a row named by a match was pending, hence without link
  have hEpend : ∀ e ∈ st.expenses, ∀ m ∈ ms, m.expenseId = e.id →
      e.matched_to_sale_id = none := by
    intro e he m hm hid
    obtain ⟨e0, he0, hp0, hid0⟩ := hpe m hm
    have : e0 = e := eq_of_nodup_map (fun e => e.id) _ hE e0 e he0 he (hid0.symm.trans hid)
    subst this
    by_contra hne
    have := (h1 e0 he0).mp hne
    rw [hp0] at this
    cases this
  have hSpend : ∀ s ∈ st.sales, ∀ m ∈ ms, m.saleId = s.id →
      s.matched_to_expense_id = none := by
    intro s hs m hm hid
    obtain ⟨s0, hs0, hp0, hid0⟩ := hps m hm
    have : s0 = s := eq_of_nodup_map (fun s => s.id) _ hS s0 s hs0 hs (hid0.symm.trans hid)
    subst this
    by_contra hne
    have := (h2 s0 hs0).mp hne
    rw [hp0] at this
    cases this
  refine ⟨?_, ?_, ?_⟩
  · intro e' he'
    obtain ⟨e, he, rfl⟩ := List.mem_map.mp he'
    rcases expenseAfter_cases ms e with ⟨-, heq⟩ | ⟨m, -, -, heq⟩
    · rw [heq]; exact h1 e he
    · rw [heq]; simp
  · intro s' hs'
    obtain ⟨s, hs, rfl⟩ := List.mem_map.mp hs'
    rcases saleAfter_cases ms s with ⟨-, heq⟩ | ⟨m, -, -, heq⟩
    · rw [heq]; exact h2 s hs
    · rw [heq]; simp
  · intro e' he' s' hs'
    obtain ⟨e, he, rfl⟩ := List.mem_map.mp he'
    obtain ⟨s, hs, rfl⟩ := List.mem_map.mp hs'
    rcases expenseAfter_cases ms e with ⟨hne, heq⟩ | ⟨m1, hm1, hid1, heq⟩ <;>
      rcases saleAfter_cases ms s with ⟨hns, hseq⟩ | ⟨m2, hm2, hid2, hseq⟩
    · rw [heq, hseq]; exact h3 e he s hs
    · -- the sale is rewritten, the expense is not
      rw [heq, hseq]
      simp only [Option.some.injEq]
      constructor
      · intro hlink
        have := (h3 e he s hs).mp hlink
        rw [hSpend s hs m2 hm2 hid2] at this
        cases this
      · intro hlink
        exact absurd hlink (hne m2 hm2)
    · -- the expense is rewritten, the sale is not
      rw [heq, hseq]
      simp only [Option.some.injEq]
      constructor
      · intro hlink
        exact absurd hlink (hns m1 hm1)
      · intro hlink
        have := (h3 e he s hs).mpr hlink
        rw [hEpend e he m1 hm1 hid1] at this
        cases this
    · rw [heq, hseq]
      simp only [Option.some.injEq]
      constructor
      · intro hlink
        have : m1 = m2 := eq_of_nodup_map (fun m => m.saleId) _ hms m1 m2 hm1 hm2
          (hlink.trans hid2.symm)
        rw [← this]; exact hid1
      · intro hlink
        have : m1 = m2 := eq_of_nodup_map (fun m => m.expenseId) _ hme m1 m2 hm1 hm2
          (hid1.trans hlink.symm)
        rw [this]; exact hid2

/-- C8, amended: a run keeps the link invariant on a store whose expenses and whose sales have
pairwise distinct ids, provided that its match list names no sale twice. -/
theorem run_preserves_linkInvariant (st : Store) (dateToleranceDays autoMatchThreshold : ℚ)
    (matchStrategy : String) (hinv : linkInvariant st)
    (hE : (st.expenses.map fun e => e.id).Nodup) (hS : (st.sales.map fun s => s.id).Nodup)
    (hms : ((run st dateToleranceDays autoMatchThreshold matchStrategy).2.matchList.map
      fun m => m.saleId).Nodup) :
    linkInvariant (run st dateToleranceDays autoMatchThreshold matchStrategy).1 := by
  rw [run_snd] at hms
  rw [run_fst]
  apply linkInvariant_commit st _ hinv hE hS
  · intro m hm
    obtain ⟨e, he, -, -, -, hid, -⟩ := mem_findMatches _ _ _ _ _ m hm
    obtain ⟨hmem, hpend⟩ := (mem_pendingRows _ _).mp he
    exact ⟨e, hmem, hpend, hid⟩
  · intro m hm
    obtain ⟨e, -, best, rest, hpm, -, hid⟩ := mem_findMatches _ _ _ _ _ m hm
    have hb : best.sale ∈ pendingRows st.sales :=
      potentialMatches_sale_mem e _ _ _ _ best (by rw [hpm]; exact List.mem_cons_self _ _)
    obtain ⟨hmem, hpend⟩ := (mem_pendingRows _ _).mp hb
    exact ⟨best.sale, hmem, hpend, hid⟩
  · exact List.Nodup.sublist (findMatches_expenseIds_sublist _ _ _ _ _)
      (List.Nodup.sublist ((pendingRows_sublist st.expenses).map _) hE)
  · exact hms

theorem potentialMatches_singleton (e s : Transaction) (tol thr : ℚ) (strat : String) :
    potentialMatches e [s] tol thr strat =
      if reachesThreshold thr ⟨s, calculateMatchConfidence e s tol strat⟩ = true then
        [⟨s, calculateMatchConfidence e s tol strat⟩]
      else [] := by
  unfold potentialMatches
  simp only [List.map_cons, List.map_nil, List.filter_cons, List.filter_nil]
  split_ifs <;> rfl

theorem score_same_day_same_amount (a b : String) :
    calculateMatchConfidence (Examples.row a 19783 100 none) (Examples.row b 19783 100 none) 7
      "amount_and_date" = some 90 := by
  rw [calculateMatchConfidence_amount_and_date_eq]
  norm_num [amountContribution, dateContribution, daysDiff, Examples.row]

theorem score_same_day_250_100 (a b : String) :
    calculateMatchConfidence (Examples.row a 19783 250 none) (Examples.row b 19783 100 none) 7
      "amount_and_date" = some 20 := by
  rw [calculateMatchConfidence_amount_and_date_eq]
  norm_num [amountContribution, dateContribution, daysDiff, Examples.row]

theorem reasons_same_day_same_amount (a b : String) :
    getMatchReasons (Examples.row a 19783 100 none) (Examples.row b 19783 100 none) 7 =
      ["Exact amount match", "Same date"] := by
  simp [getMatchReasons, daysDiff, Examples.row]

theorem findMatches_contested :
    findMatches (pendingRows Examples.contested.expenses) (pendingRows Examples.contested.sales)
      7 90 "amount_and_date" =
      [⟨"A", "S", some 90, ["Exact amount match", "Same date"]⟩,
        ⟨"B", "S", some 90, ["Exact amount match", "Same date"]⟩] := by
  have hE : pendingRows Examples.contested.expenses =
      [Examples.row "A" 19783 100 none, Examples.row "B" 19783 100 none] := rfl
  have hS : pendingRows Examples.contested.sales = [Examples.row "S" 19783 100 none] := rfl
  have hr : reachesThreshold 90 ⟨Examples.row "S" 19783 100 none, some 90⟩ = true := by
    simp [reachesThreshold]
  rw [hE, hS, findMatches_cons, findMatches_cons, findMatches_nil, selectFor_nil_eq,
    selectFor_nil_eq, potentialMatches_singleton, potentialMatches_singleton,
    score_same_day_same_amount, score_same_day_same_amount, if_pos hr]
  simp only [reasons_same_day_same_amount]
  rfl

theorem findMatches_uncontested :
    findMatches (pendingRows Examples.uncontested.expenses)
      (pendingRows Examples.uncontested.sales) 7 90 "amount_and_date" =
      [⟨"A", "S", some 90, ["Exact amount match", "Same date"]⟩] := by
  have hE : pendingRows Examples.uncontested.expenses =
      [Examples.row "A" 19783 100 none, Examples.row "B" 19783 250 none] := rfl
  have hS : pendingRows Examples.uncontested.sales = [Examples.row "S" 19783 100 none] := rfl
  have hr : reachesThreshold 90 ⟨Examples.row "S" 19783 100 none, some 90⟩ = true := by
    simp [reachesThreshold]
  have hr2 : ¬ reachesThreshold 90 ⟨Examples.row "S" 19783 100 none, some 20⟩ = true := by
    simp only [reachesThreshold, decide_eq_true_eq]
    norm_num
  rw [hE, hS, findMatches_cons, findMatches_cons, findMatches_nil, selectFor_nil_eq,
    selectFor_nil_eq, potentialMatches_singleton, potentialMatches_singleton,
    score_same_day_same_amount, score_same_day_250_100, if_pos hr, if_neg hr2]
  simp only [reasons_same_day_same_amount]
  rfl

/-- C8, refuted as stated: expenses `A` and `B` and sale `S`, all pending, unlinked, of amount
100 and of the same day, satisfy the link invariant; under `amount_and_date` with threshold 90
both expenses select `S`, and after the commit loop `A` points at `S` while `S` points at `B`. -/
theorem run_breaks_link_symmetry :
    linkInvariant Examples.contested ∧
    (run Examples.contested 7 90 "amount_and_date").1 =
      ⟨[{ Examples.row "A" 19783 100 none with
            status := Status.matched, matched_to_sale_id := some "S" },
          { Examples.row "B" 19783 100 none with
            status := Status.matched, matched_to_sale_id := some "S" }],
        [{ Examples.row "S" 19783 100 none with
            status := Status.matched, matched_to_expense_id := some "B" }]⟩ ∧
    ¬ linkInvariant (run Examples.contested 7 90 "amount_and_date").1 := by
  have hrun : (run Examples.contested 7 90 "amount_and_date").1 =
      ⟨[{ Examples.row "A" 19783 100 none with
            status := Status.matched, matched_to_sale_id := some "S" },
          { Examples.row "B" 19783 100 none with
            status := Status.matched, matched_to_sale_id := some "S" }],
        [{ Examples.row "S" 19783 100 none with
            status := Status.matched, matched_to_expense_id := some "B" }]⟩ := by
    rw [run_fst, findMatches_contested]
    rfl
  refine ⟨by decide, hrun, ?_⟩
  rw [hrun]
  decide

/-- C8 amended, at the store of expenses `A` (100) and `B` (250) and sale `S` (100): only `A`
selects `S`, and the invariant holds after the run. -/
theorem run_preserves_linkInvariant_witness :
    linkInvariant Examples.uncontested ∧
    (Examples.uncontested.expenses.map fun e => e.id).Nodup ∧
    (Examples.uncontested.sales.map fun s => s.id).Nodup ∧
    ((run Examples.uncontested 7 90 "amount_and_date").2.matchList.map
      fun m => m.saleId).Nodup ∧
    linkInvariant (run Examples.uncontested 7 90 "amount_and_date").1 := by
  have h1 : linkInvariant Examples.uncontested := by decide
  have h2 : (Examples.uncontested.expenses.map fun e => e.id).Nodup := by decide
  have h3 : (Examples.uncontested.sales.map fun s => s.id).Nodup := by decide
  have h4 : ((run Examples.uncontested 7 90 "amount_and_date").2.matchList.map
      fun m => m.saleId).Nodup := by
    rw [run_snd, findMatches_uncontested]
    decide
  exact ⟨h1, h2, h3, h4,
    run_preserves_linkInvariant Examples.uncontested 7 90 "amount_and_date" h1 h2 h3 h4⟩

/-! ## The match of one expense in a run -/

theorem findMatches_append (es1 es2 sales : List Transaction) (tol thr : ℚ) (strat : String) :
    findMatches (es1 ++ es2) sales tol thr strat =
      findMatches es1 sales tol thr strat ++ findMatches es2 sales tol thr strat := by
  unfold findMatches
  rw [List.foldl_append, foldl_selectFor]

/-- The matches of a list of expenses none of which carries the id `i`: none is for `i`. -/
theorem filter_findMatches_of_not_mem (es sales : List Transaction) (tol thr : ℚ)
    (strat : String) (i : String) (h : i ∉ es.map fun e => e.id) :
    (findMatches es sales tol thr strat).filter (fun m => decide (m.expenseId = i)) = [] := by
  rw [List.filter_eq_nil_iff]
  intro m hm
  obtain ⟨e, he, _, _, _, hid, _⟩ := mem_findMatches es sales tol thr strat m hm
  simp only [decide_eq_true_eq]
  intro hmi
  exact h (List.mem_map.mpr ⟨e, he, by rw [← hid, hmi]⟩)

/-- C2: the pending expense `expense` of a run, with the pending expenses `before` and `after` it
in the order of the query.  If no pending sale has a score that reaches the threshold, the match
list of the run consists of the matches of the other expenses only.  Otherwise exactly one match
`m` is inserted between them; it carries the id of the expense, its confidence is a number that
reaches the threshold and is the greatest score over the pending sales, and its sale is the first
pending sale, in the order of the pool, with that score.  When the ids of the pending expenses
are distinct, the matches of the run that carry the id of the expense are none in the first case
and `m` alone in the second. -/
theorem run_best_per_expense (st : Store) (dateToleranceDays autoMatchThreshold : ℚ)
    (matchStrategy : String) (before after : List Transaction) (expense : Transaction)
    (hsplit : pendingRows st.expenses = before ++ expense :: after) :
    ((¬ ∃ s ∈ pendingRows st.sales, ∃ v,
        calculateMatchConfidence expense s dateToleranceDays matchStrategy = some v ∧
          autoMatchThreshold ≤ v) →
      (run st dateToleranceDays autoMatchThreshold matchStrategy).2.matchList =
        findMatches before (pendingRows st.sales) dateToleranceDays autoMatchThreshold
            matchStrategy ++
          findMatches after (pendingRows st.sales) dateToleranceDays autoMatchThreshold
            matchStrategy ∧
      (((pendingRows st.expenses).map fun e => e.id).Nodup →
        (run st dateToleranceDays autoMatchThreshold matchStrategy).2.matchList.filter
          (fun m => decide (m.expenseId = expense.id)) = [])) ∧
    ((∃ s ∈ pendingRows st.sales, ∃ v,
        calculateMatchConfidence expense s dateToleranceDays matchStrategy = some v ∧
          autoMatchThreshold ≤ v) →
      ∃ m v l1 s l2,
        (run st dateToleranceDays autoMatchThreshold matchStrategy).2.matchList =
          findMatches before (pendingRows st.sales) dateToleranceDays autoMatchThreshold
              matchStrategy ++
            m :: findMatches after (pendingRows st.sales) dateToleranceDays autoMatchThreshold
              matchStrategy ∧
        (((pendingRows st.expenses).map fun e => e.id).Nodup →
          (run st dateToleranceDays autoMatchThreshold matchStrategy).2.matchList.filter
            (fun m => decide (m.expenseId = expense.id)) = [m]) ∧
        m.expenseId = expense.id ∧ m.confidence = some v ∧ autoMatchThreshold ≤ v ∧
        (∀ t ∈ pendingRows st.sales, ∀ w,
          calculateMatchConfidence expense t dateToleranceDays matchStrategy = some w → w ≤ v) ∧
        pendingRows st.sales = l1 ++ s :: l2 ∧ m.saleId = s.id ∧
        calculateMatchConfidence expense s dateToleranceDays matchStrategy = some v ∧
        ∀ t ∈ l1, calculateMatchConfidence expense t dateToleranceDays matchStrategy ≠ some v) := by
  have hlist : (run st dateToleranceDays autoMatchThreshold matchStrategy).2.matchList =
      findMatches before (pendingRows st.sales) dateToleranceDays autoMatchThreshold
          matchStrategy ++
        (selectFor (pendingRows st.sales) dateToleranceDays autoMatchThreshold matchStrategy []
            expense ++
          findMatches after (pendingRows st.sales) dateToleranceDays autoMatchThreshold
            matchStrategy) := by
    rw [run_snd, hsplit, findMatches_append, findMatches_cons]
  have hids : ((pendingRows st.expenses).map fun e => e.id).Nodup →
      expense.id ∉ before.map (fun e => e.id) ∧ expense.id ∉ after.map (fun e => e.id) := by
    intro hnd
    rw [hsplit, List.map_append, List.map_cons] at hnd
    have h1 := List.nodup_append.mp hnd
    have h2 := List.nodup_cons.mp h1.2.1
    refine ⟨fun hb => ?_, h2.1⟩
    exact h1.2.2 hb (List.mem_cons_self _ _)
  obtain ⟨hno, hyes⟩ := selectFor_spec (pendingRows st.sales) dateToleranceDays
    autoMatchThreshold matchStrategy [] expense
  constructor
  · intro h
    rw [hlist, hno h, List.nil_append]
    refine ⟨rfl, fun hnd => ?_⟩
    rw [List.filter_append, filter_findMatches_of_not_mem _ _ _ _ _ _ (hids hnd).1,
      filter_findMatches_of_not_mem _ _ _ _ _ _ (hids hnd).2]
    rfl
  · intro h
    obtain ⟨m, v, l1, s, l2, hsel, hid, hrest⟩ := hyes h
    refine ⟨m, v, l1, s, l2, ?_, ?_, hid, hrest⟩
    · rw [hlist, hsel]
      rfl
    · intro hnd
      rw [hlist, hsel, List.filter_append, List.filter_append,
        filter_findMatches_of_not_mem _ _ _ _ _ _ (hids hnd).1,
        filter_findMatches_of_not_mem _ _ _ _ _ _ (hids hnd).2]
      simp [hid]

theorem tied_expenses : pendingRows Examples.tied.expenses =
    [Examples.row "B" 19783 250 none, Examples.row "A" 19783 100 none] := rfl

theorem tied_sales : pendingRows Examples.tied.sales =
    [Examples.row "T1" 19783 101 none, Examples.row "T2" 19784 100 none,
      Examples.row "T3" 19784 100 none, Examples.row "T4" 19786 100 none,
      Examples.row "T5" 19783 150 none] := rfl

theorem tied_score_T1 : calculateMatchConfidence (Examples.row "A" 19783 100 none)
    (Examples.row "T1" 19783 101 none) 7 "amount_and_date" = some 70 := by
  rw [calculateMatchConfidence_amount_and_date_eq]
  norm_num [amountContribution, dateContribution, daysDiff, Examples.row, abs_of_neg]

theorem tied_score_next_day (i : String) :
    calculateMatchConfidence (Examples.row "A" 19783 100 none)
      (Examples.row i 19784 100 none) 7 "amount_and_date" = some 85 := by
  rw [calculateMatchConfidence_amount_and_date_eq]
  norm_num [amountContribution, dateContribution, daysDiff, Examples.row, abs_of_neg]

theorem tied_score_T4 : calculateMatchConfidence (Examples.row "A" 19783 100 none)
    (Examples.row "T4" 19786 100 none) 7 "amount_and_date" = some 80 := by
  rw [calculateMatchConfidence_amount_and_date_eq]
  norm_num [amountContribution, dateContribution, daysDiff, Examples.row, abs_of_neg]

theorem tied_score_T5 : calculateMatchConfidence (Examples.row "A" 19783 100 none)
    (Examples.row "T5" 19783 150 none) 7 "amount_and_date" = some 20 := by
  rw [calculateMatchConfidence_amount_and_date_eq]
  norm_num [amountContribution, dateContribution, daysDiff, Examples.row, abs_of_neg]

/-- The expense `B` of amount 250 scores at most 20 against every sale of the store `tied`. -/
theorem tied_score_B (s : Transaction) (hs : s ∈ pendingRows Examples.tied.sales) (v : ℚ)
    (hv : calculateMatchConfidence (Examples.row "B" 19783 250 none) s 7 "amount_and_date" =
      some v) : v ≤ 20 := by
  rw [calculateMatchConfidence_amount_and_date_eq] at hv
  simp only [Option.some.injEq] at hv
  have hd := (dateContribution_range (Examples.row "B" 19783 250 none) s 7).2
  have ha : amountContribution (Examples.row "B" 19783 250 none) s = 0 := by
    rw [tied_sales] at hs
    simp only [List.mem_cons, List.mem_singleton, List.not_mem_nil, or_false] at hs
    rcases hs with rfl | rfl | rfl | rfl | rfl <;>
      norm_num [amountContribution, Examples.row]
  rw [ha] at hv
  linarith

theorem findMatches_tied :
    findMatches (pendingRows Examples.tied.expenses) (pendingRows Examples.tied.sales) 7 80
      "amount_and_date" = [⟨"A", "T2", some 85, ["Exact amount match", "Within 1 day"]⟩] := by
  have hB : potentialMatches (Examples.row "B" 19783 250 none)
      (pendingRows Examples.tied.sales) 7 80 "amount_and_date" = [] := by
    rw [potentialMatches_eq_nil]
    intro s hs v hv
    have := tied_score_B s hs v hv
    linarith
  have hA : potentialMatches (Examples.row "A" 19783 100 none)
      (pendingRows Examples.tied.sales) 7 80 "amount_and_date" =
      [⟨Examples.row "T2" 19784 100 none, some 85⟩, ⟨Examples.row "T3" 19784 100 none, some 85⟩,
        ⟨Examples.row "T4" 19786 100 none, some 80⟩] := by
    simp only [potentialMatches, tied_sales, List.map_cons, List.map_nil, tied_score_T1,
      tied_score_next_day, tied_score_T4, tied_score_T5]
    norm_num [List.filter_cons, reachesThreshold, List.insertionSort, List.orderedInsert,
      keepsOrder]
  rw [tied_expenses, findMatches_cons, findMatches_cons, findMatches_nil, selectFor_nil_eq,
    selectFor_nil_eq, hB, hA]
  norm_num [getMatchReasons, daysDiff, Examples.row]
  decide

/-- C2 on the store `tied` under `amount_and_date` with tolerance 7 and threshold 80.  The
expense `A` scores 70, 85, 85, 80 and 20 against the sales `T1` .. `T5`: the run emits for it the
single match with `T2`, the first of the two sales with the greatest score 85, although `T1`
comes first in the pool.  The expense `B` scores at most 20 against every sale: the run emits no
match for it. -/
theorem run_best_per_expense_witness :
    (pendingRows Examples.tied.expenses =
        [Examples.row "B" 19783 250 none] ++ Examples.row "A" 19783 100 none :: [] ∧
      (∃ s ∈ pendingRows Examples.tied.sales, ∃ v,
        calculateMatchConfidence (Examples.row "A" 19783 100 none) s 7 "amount_and_date" =
          some v ∧ (80 : ℚ) ≤ v) ∧
      (run Examples.tied 7 80 "amount_and_date").2.matchList =
        [⟨"A", "T2", some 85, ["Exact amount match", "Within 1 day"]⟩] ∧
      ((pendingRows Examples.tied.expenses).map fun e => e.id).Nodup ∧
      ∃ m v l1 s l2,
        (run Examples.tied 7 80 "amount_and_date").2.matchList =
          findMatches [Examples.row "B" 19783 250 none] (pendingRows Examples.tied.sales) 7 80
              "amount_and_date" ++
            m :: findMatches [] (pendingRows Examples.tied.sales) 7 80 "amount_and_date" ∧
        (((pendingRows Examples.tied.expenses).map fun e => e.id).Nodup →
          (run Examples.tied 7 80 "amount_and_date").2.matchList.filter
            (fun m => decide (m.expenseId = (Examples.row "A" 19783 100 none).id)) = [m]) ∧
        m.expenseId = (Examples.row "A" 19783 100 none).id ∧ m.confidence = some v ∧
        (80 : ℚ) ≤ v ∧
        (∀ t ∈ pendingRows Examples.tied.sales, ∀ w,
          calculateMatchConfidence (Examples.row "A" 19783 100 none) t 7 "amount_and_date" =
            some w → w ≤ v) ∧
        pendingRows Examples.tied.sales = l1 ++ s :: l2 ∧ m.saleId = s.id ∧
        calculateMatchConfidence (Examples.row "A" 19783 100 none) s 7 "amount_and_date" =
          some v ∧
        ∀ t ∈ l1,
          calculateMatchConfidence (Examples.row "A" 19783 100 none) t 7 "amount_and_date" ≠
            some v) ∧
    (pendingRows Examples.tied.expenses =
        [] ++ Examples.row "B" 19783 250 none :: [Examples.row "A" 19783 100 none] ∧
      (¬ ∃ s ∈ pendingRows Examples.tied.sales, ∃ v,
        calculateMatchConfidence (Examples.row "B" 19783 250 none) s 7 "amount_and_date" =
          some v ∧ (80 : ℚ) ≤ v) ∧
      (run Examples.tied 7 80 "amount_and_date").2.matchList =
        findMatches [] (pendingRows Examples.tied.sales) 7 80 "amount_and_date" ++
          findMatches [Examples.row "A" 19783 100 none] (pendingRows Examples.tied.sales) 7 80
            "amount_and_date" ∧
      (((pendingRows Examples.tied.expenses).map fun e => e.id).Nodup →
        (run Examples.tied 7 80 "amount_and_date").2.matchList.filter
          (fun m => decide (m.expenseId = (Examples.row "B" 19783 250 none).id)) = [])) := by
  have hA : ∃ s ∈ pendingRows Examples.tied.sales, ∃ v,
      calculateMatchConfidence (Examples.row "A" 19783 100 none) s 7 "amount_and_date" =
        some v ∧ (80 : ℚ) ≤ v := by
    refine ⟨Examples.row "T2" 19784 100 none, ?_, 85, tied_score_next_day "T2", by norm_num⟩
    rw [tied_sales]
    simp
  have hB : ¬ ∃ s ∈ pendingRows Examples.tied.sales, ∃ v,
      calculateMatchConfidence (Examples.row "B" 19783 250 none) s 7 "amount_and_date" =
        some v ∧ (80 : ℚ) ≤ v := by
    rintro ⟨s, hs, v, hv, hle⟩
    have := tied_score_B s hs v hv
    linarith
  have hrun : (run Examples.tied 7 80 "amount_and_date").2.matchList =
      [⟨"A", "T2", some 85, ["Exact amount match", "Within 1 day"]⟩] := by
    rw [run_snd, findMatches_tied]
  have hnd : ((pendingRows Examples.tied.expenses).map fun e => e.id).Nodup := by
    rw [tied_expenses]
    decide
  exact ⟨⟨rfl, hA, hrun, hnd,
      (run_best_per_expense Examples.tied 7 80 "amount_and_date"
        [Examples.row "B" 19783 250 none] [] (Examples.row "A" 19783 100 none) rfl).2 hA⟩,
    ⟨rfl, hB,
      (run_best_per_expense Examples.tied 7 80 "amount_and_date" []
        [Examples.row "A" 19783 100 none] (Examples.row "B" 19783 250 none) rfl).1 hB⟩⟩

end AutoMatch

/-! ## Review table -/

namespace MatchingTable

theorem keepsOrder_iff_score (a b : SuggestedMatch) :
    keepsOrder a b = true ↔ b.matchScore ≤ a.matchScore := by
  simp [keepsOrder]

theorem eligible_eq (expense : Transaction) (sales : List Transaction) :
    (((sales.filter fun sale => sale.status = Status.pending).map fun sale =>
      (⟨sale, matchScore expense sale, daysDiff expense sale⟩ : SuggestedMatch)).filter
        fun m => decide (m.matchScore > 20)) = eligible expense sales := by
  unfold eligible
  rw [List.filter_map, List.filter_filter]
  congr 1
  apply List.filter_congr
  intro s _
  simp [Bool.and_comm]

theorem potentialMatches_eq (expense : Transaction) (sales : List Transaction) :
    potentialMatches expense sales =
      ((eligible expense sales).insertionSort fun a b => keepsOrder a b = true).take 3 := by
  unfold potentialMatches
  rw [eligible_eq]

theorem mem_eligible (expense : Transaction) (sales : List Transaction) (m : SuggestedMatch)
    (hm : m ∈ eligible expense sales) :
    20 < m.matchScore ∧ m.sale.status = Status.pending ∧ m.sale ∈ sales ∧
      m.matchScore = matchScore expense m.sale := by
  unfold eligible at hm
  obtain ⟨s, hs, rfl⟩ := List.mem_map.mp hm
  simp only [List.mem_filter, Bool.and_eq_true, decide_eq_true_eq] at hs
  exact ⟨hs.2.2, hs.2.1, hs.1, rfl⟩

/-- C9: the suggested-match list of an expense is the first 3 elements of the stable sort, in
descending order of the score, of the pending sales whose score is strictly greater than 20:
there is a list `sorted` that is a rearrangement of that pool, is in descending order of the
score, keeps the pool order among the entries of any one score, and whose first 3 elements are
the list.  Consequently the list has at most 3 entries, every entry is a pending sale of the pool
with its score, which is greater than 20, the scores do not increase along the list, and the
entries of any one score are the first ones of the pool with that score, in pool order. -/
theorem potentialMatches_ranked (expense : Transaction) (sales : List Transaction) :
    (∃ sorted : List SuggestedMatch,
      potentialMatches expense sales = sorted.take 3 ∧
      sorted.Perm (eligible expense sales) ∧
      sorted.Pairwise (fun a b => b.matchScore ≤ a.matchScore) ∧
      ∀ v : ℚ, sorted.filter (fun m => decide (m.matchScore = v)) =
        (eligible expense sales).filter (fun m => decide (m.matchScore = v))) ∧
    (potentialMatches expense sales).length ≤ 3 ∧
    (∀ m ∈ potentialMatches expense sales,
      20 < m.matchScore ∧ m.sale.status = Status.pending ∧ m.sale ∈ sales ∧
        m.matchScore = matchScore expense m.sale) ∧
    (potentialMatches expense sales).Pairwise (fun a b => b.matchScore ≤ a.matchScore) ∧
    ∀ v : ℚ, ((potentialMatches expense sales).filter fun m => decide (m.matchScore = v)) <+:
      ((eligible expense sales).filter fun m => decide (m.matchScore = v)) := by
  have hperm := List.perm_insertionSort (fun a b => keepsOrder a b = true)
    (eligible expense sales)
  have hsorted := insertionSort_pairwise_key (fun m : SuggestedMatch => m.matchScore)
    (fun a b => keepsOrder a b = true) keepsOrder_iff_score (eligible expense sales)
  have hstable := fun v => insertionSort_filter_key (fun m : SuggestedMatch => m.matchScore)
    (fun a b => keepsOrder a b = true) keepsOrder_iff_score v (eligible expense sales)
  rw [potentialMatches_eq]
  refine ⟨⟨_, rfl, hperm, hsorted, hstable⟩, List.length_take_le _ _, ?_, ?_, ?_⟩
  · intro m hm
    exact mem_eligible expense sales m (hperm.subset (List.mem_of_mem_take hm))
  · exact hsorted.sublist (List.take_sublist _ _)
  · intro v
    rw [← hstable v]
    exact (List.take_prefix _ _).filter _

/-- C10, refuted as stated: for an expense and a sale of amount 100 on the same day the review
table assigns the score 100 (70 + 30), while `calculateMatchConfidence` gives 90 (70 + 20) under
`amount_and_date` and 70 under `amount_only`. -/
theorem matchScore_differs_from_confidence :
    matchScore (Examples.row "A" 19783 100 none) (Examples.row "S" 19783 100 none) = 100 ∧
    (potentialMatches (Examples.row "A" 19783 100 none)
      [Examples.row "S" 19783 100 none]).map (fun m => m.matchScore) = [100] ∧
    calculateMatchConfidence (Examples.row "A" 19783 100 none)
      (Examples.row "S" 19783 100 none) 7 "amount_and_date" = some 90 ∧
    calculateMatchConfidence (Examples.row "A" 19783 100 none)
      (Examples.row "S" 19783 100 none) 7 "amount_only" = some 70 := by
  have h1 : matchScore (Examples.row "A" 19783 100 none) (Examples.row "S" 19783 100 none)
      = 100 := by
    norm_num [matchScore, daysDiff, Examples.row]
  refine ⟨h1, ?_, ?_, ?_⟩
  · have hp : (Examples.row "S" 19783 100 none).status = Status.pending := rfl
    simp only [potentialMatches, List.filter_cons, List.filter_nil, hp, decide_True, if_true,
      List.map_cons, List.map_nil, h1]
    norm_num
  · rw [calculateMatchConfidence_amount_and_date_eq]
    norm_num [amountContribution, dateContribution, daysDiff, Examples.row]
  · rw [calculateMatchConfidence_amount_only_eq _ _ _ _ (by decide) (by decide)]
    norm_num [amountContribution, Examples.row]

/-- C10, amended: the review table scores with a fixed rule of its own, which takes no
configuration.  The score of a pair is the amount tier 70 if `d = 0`, else 50 if `d < 10%` of the
expense amount, else 30 if `d < 20%`, else 0, plus the date tier 30 if the dates are at most 1
day apart, else 20 if at most 7 days, else 10 if at most 30 days, else 0; and every entry of a
suggested-match list carries this score of its sale. -/
theorem matchScore_tiers (expense sale : Transaction) :
    matchScore expense sale =
      (if |expense.amount - sale.amount| = 0 then 70
        else if |expense.amount - sale.amount| < 10 / 100 * expense.amount then 50
        else if |expense.amount - sale.amount| < 20 / 100 * expense.amount then 30
        else 0) +
      (if daysDiff expense sale ≤ 1 then 30
        else if daysDiff expense sale ≤ 7 then 20
        else if daysDiff expense sale ≤ 30 then 10
        else 0) ∧
    ∀ sales : List Transaction, ∀ m ∈ potentialMatches expense sales,
      m.matchScore =
        (if |expense.amount - m.sale.amount| = 0 then 70
          else if |expense.amount - m.sale.amount| < 10 / 100 * expense.amount then 50
          else if |expense.amount - m.sale.amount| < 20 / 100 * expense.amount then 30
          else 0) +
        (if daysDiff expense m.sale ≤ 1 then 30
          else if daysDiff expense m.sale ≤ 7 then 20
          else if daysDiff expense m.sale ≤ 30 then 10
          else 0) := by
  have hform : ∀ s : Transaction, matchScore expense s =
      (if |expense.amount - s.amount| = 0 then 70
        else if |expense.amount - s.amount| < 10 / 100 * expense.amount then 50
        else if |expense.amount - s.amount| < 20 / 100 * expense.amount then 30
        else 0) +
      (if daysDiff expense s ≤ 1 then 30
        else if daysDiff expense s ≤ 7 then 20
        else if daysDiff expense s ≤ 30 then 10
        else 0) := by
    intro s
    have h10 : expense.amount * (1 / 10) = 10 / 100 * expense.amount := by ring
    have h20 : expense.amount * (2 / 10) = 20 / 100 * expense.amount := by ring
    unfold matchScore
    simp only [h10, h20, zero_add]
    split_ifs <;> norm_num
  refine ⟨hform sale, ?_⟩
  intro sales m hm
  rw [potentialMatches_eq] at hm
  have hperm := List.perm_insertionSort (fun a b => keepsOrder a b = true)
    (eligible expense sales)
  have := mem_eligible expense sales m (hperm.subset (List.mem_of_mem_take hm))
  rw [this.2.2.2, hform m.sale]

/-- C9 on a pool with a tie: the sale of the same day comes first (100), the two sales three
days later follow in pool order (90 each), the near amount (80) is cut off and the far one (0)
is discarded. -/
theorem potentialMatches_ranked_example :
    (potentialMatches (Examples.row "A" 19783 100 none) Examples.pool).map
      (fun m => (m.sale.id, m.matchScore)) = [("S3", 100), ("S1", 90), ("S2", 90)] := by
  have h1 : matchScore (Examples.row "A" 19783 100 none) (Examples.row "S1" 19786 100 none)
      = 90 := by norm_num [matchScore, daysDiff, Examples.row]
  have h2 : matchScore (Examples.row "A" 19783 100 none) (Examples.row "S2" 19786 100 none)
      = 90 := by norm_num [matchScore, daysDiff, Examples.row]
  have h3 : matchScore (Examples.row "A" 19783 100 none) (Examples.row "S3" 19783 100 none)
      = 100 := by norm_num [matchScore, daysDiff, Examples.row]
  have h4 : matchScore (Examples.row "A" 19783 100 none) (Examples.row "S4" 19823 150 none)
      = 0 := by norm_num [matchScore, daysDiff, Examples.row, abs_of_neg]
  have h5 : matchScore (Examples.row "A" 19783 100 none) (Examples.row "S5" 19784 101 none)
      = 80 := by norm_num [matchScore, daysDiff, Examples.row, abs_of_neg]
  have hp : ∀ (i : String) (d : Int) (a : ℚ), (Examples.row i d a none).status = Status.pending :=
    fun _ _ _ => rfl
  simp only [potentialMatches, Examples.pool, List.filter_cons, List.filter_nil, hp, decide_True,
    if_true, List.map_cons, List.map_nil, h1, h2, h3, h4, h5]
  norm_num [List.insertionSort, List.orderedInsert, keepsOrder, Examples.row]

end MatchingTable

/-! ## Scoring under the three strategies -/

/-- C11: under `amount_only` the score is determined by the two amounts: two calls whose
expense amounts agree and whose sale amounts agree give the same result, whatever the dates, the
descriptions and the tolerances are. -/
theorem calculateMatchConfidence_amount_only_depends_on_amounts
    (expense1 sale1 expense2 sale2 : Transaction) (dateToleranceDays1 dateToleranceDays2 : ℚ)
    (he : expense1.amount = expense2.amount) (hs : sale1.amount = sale2.amount) :
    calculateMatchConfidence expense1 sale1 dateToleranceDays1 "amount_only" =
      calculateMatchConfidence expense2 sale2 dateToleranceDays2 "amount_only" := by
  rw [calculateMatchConfidence_amount_only_eq _ _ _ _ (by decide) (by decide),
    calculateMatchConfidence_amount_only_eq _ _ _ _ (by decide) (by decide)]
  unfold amountContribution
  rw [he, hs]

/-- C11 at two pairs of amounts 100 and 104 that differ in dates, descriptions and tolerance. -/
theorem calculateMatchConfidence_amount_only_depends_on_amounts_witness :
    (Examples.row "e1" 19783 100 none).amount =
      (Examples.row "e2" 19000 100 (some "rent")).amount ∧
    (Examples.row "s1" 19783 104 none).amount =
      (Examples.row "s2" 19900 104 (some "Invoice 123")).amount ∧
    calculateMatchConfidence (Examples.row "e1" 19783 100 none)
        (Examples.row "s1" 19783 104 none) 7 "amount_only" =
      calculateMatchConfidence (Examples.row "e2" 19000 100 (some "rent"))
        (Examples.row "s2" 19900 104 (some "Invoice 123")) 0 "amount_only" :=
  ⟨rfl, rfl, calculateMatchConfidence_amount_only_depends_on_amounts _ _ _ _ 7 0 rfl rfl⟩

theorem amountContribution_of_eq (expense sale : Transaction)
    (h : expense.amount = sale.amount) : amountContribution expense sale = 70 := by
  unfold amountContribution
  simp [h]

theorem daysDiff_of_eq (expense sale : Transaction) (h : expense.date = sale.date) :
    daysDiff expense sale = 0 := by
  unfold daysDiff
  simp [h]

theorem dateContribution_of_eq (expense sale : Transaction) (tol : ℚ)
    (h : expense.date = sale.date) : dateContribution expense sale tol = 20 := by
  unfold dateContribution
  simp [daysDiff_of_eq expense sale h]

theorem score_exact_pair (expense sale : Transaction) (tol : ℚ)
    (ha : expense.amount = sale.amount) (hd : expense.date = sale.date) :
    calculateMatchConfidence expense sale tol "amount_and_date" = some 90 := by
  rw [calculateMatchConfidence_amount_and_date_eq, amountContribution_of_eq _ _ ha,
    dateContribution_of_eq _ _ _ hd]
  norm_num

/-- C12: for equal amounts and the same date the score under `amount_and_date` is exactly
90 = 70 + 20, for every tolerance; in particular it is at least 90. -/
theorem calculateMatchConfidence_exact_pair (expense sale : Transaction)
    (dateToleranceDays : ℚ) (ha : expense.amount = sale.amount) (hd : expense.date = sale.date) :
    calculateMatchConfidence expense sale dateToleranceDays "amount_and_date" = some 90 ∧
    ∃ v, calculateMatchConfidence expense sale dateToleranceDays "amount_and_date" = some v ∧
      (90 : ℚ) ≤ v :=
  ⟨score_exact_pair expense sale dateToleranceDays ha hd, 90,
    score_exact_pair expense sale dateToleranceDays ha hd, le_refl _⟩

/-- C12 at an expense and a sale of amount 100 of 2024-03-01, with tolerance 0. -/
theorem calculateMatchConfidence_exact_pair_witness :
    (Examples.row "e1" 19783 100 none).amount = (Examples.row "s1" 19783 100 none).amount ∧
    (Examples.row "e1" 19783 100 none).date = (Examples.row "s1" 19783 100 none).date ∧
    calculateMatchConfidence (Examples.row "e1" 19783 100 none)
      (Examples.row "s1" 19783 100 none) 0 "amount_and_date" = some 90 :=
  ⟨rfl, rfl, (calculateMatchConfidence_exact_pair _ _ 0 rfl rfl).1⟩

/-! ## Similarity of a string with itself -/

theorem editRec_self (p : List Char) : editRec p p = 0 := by
  induction p with
  | nil => simp [editRec]
  | cons c p ih => simp [editRec, ih]

theorem levenshteinDistance_self (s : String) : levenshteinDistance s s = 0 := by
  rw [levenshteinDistance_eq, editRec_self]

theorem calculateStringSimilarity_self (s : String) (h : s.length ≠ 0) :
    calculateStringSimilarity s s = some 1 := by
  unfold calculateStringSimilarity
  have hpos : (s.length : ℚ) ≠ 0 := by exact_mod_cast h
  simp only [gt_iff_lt, lt_self_iff_false, if_false, h, levenshteinDistance_self,
    Nat.cast_zero, sub_zero]
  rw [div_self hpos]

/-- C17, at the failing input: the similarity of the empty string with itself is `NaN`
(`0 / 0`), not 1; for a string of one character it is 1. -/
theorem calculateStringSimilarity_empty :
    calculateStringSimilarity "" "" = none ∧ calculateStringSimilarity "a" "a" = some 1 := by
  constructor
  · rfl
  · exact calculateStringSimilarity_self "a" (by decide)

/-! ## `levenshteinDistance` is the edit distance -/

theorem editRec_cons_cons (c a : Char) (p q : List Char) :
    editRec (c :: p) (a :: q) =
      if c = a then editRec p q
      else min (editRec p q + 1) (min (editRec (c :: p) q + 1) (editRec p (a :: q) + 1)) := by
  rw [editRec]

theorem editRec_nil_left (q : List Char) : editRec [] q = q.length := by
  rw [editRec]

/-- Dropping the first character of the second string raises the value by at most one, given
that dropping the first character of the first string does. -/
theorem editRec_cons_right_le (q : List Char)
    (hP : ∀ (p : List Char) (c : Char), editRec p q ≤ editRec (c :: p) q + 1)
    (p : List Char) (a : Char) : editRec p (a :: q) ≤ editRec p q + 1 := by
  cases p with
  | nil => simp [editRec_nil_left]
  | cons c p =>
    rw [editRec_cons_cons]
    by_cases h : c = a
    · rw [if_pos h]
      exact hP p c
    · rw [if_neg h]
      exact le_trans (min_le_right _ _) (min_le_left _ _)

theorem editRec_le_cons_left (q : List Char) :
    ∀ (p : List Char) (c : Char), editRec p q ≤ editRec (c :: p) q + 1 := by
  induction q with
  | nil =>
    intro p c
    simp only [editRec_nil_right, List.length_cons]
    omega
  | cons a q ih =>
    intro p c
    have hQ := editRec_cons_right_le q ih p a
    have hP := ih p c
    rw [editRec_cons_cons c a p q]
    by_cases h : c = a
    · rw [if_pos h]
      exact hQ
    · rw [if_neg h]
      simp only [min_def]
      split_ifs <;> omega

theorem editRec_le_cons_right (p q : List Char) (a : Char) :
    editRec p q ≤ editRec p (a :: q) + 1 := by
  rw [editRec_comm p q, editRec_comm p (a :: q)]
  exact editRec_le_cons_left p q a

theorem editDistance_eq_editRec (a b : List Char) : editDistance a b = editRec a b := by
  induction a, b using editDistance.induct with
  | case1 b => rw [editDistance, editRec_nil_left]
  | case2 x a => rw [editDistance, editRec_nil_right]
  | case3 x a y b ih1 ih2 ih3 =>
    rw [editDistance, ih1, ih2, ih3, editRec_cons_cons]
    have h1 := editRec_le_cons_left (y :: b) a x
    have h2 := editRec_le_cons_right (x :: a) b y
    have h3 := editRec_le_cons_left b a x
    have h4 := editRec_le_cons_right a b y
    by_cases h : x = y
    · subst h
      simp only [if_true, add_zero]
      rw [editRec_cons_cons] at h1 h2
      simp only [if_true] at h1 h2
      have h5 : editRec a b ≤ editRec a (x :: b) + 1 := h4
      have h6 : editRec a b ≤ editRec (x :: a) b + 1 := h3
      rw [min_eq_right (le_trans (min_le_right _ _) h5), min_eq_right h6]
    · simp only [if_neg h, min_def]
      split_ifs <;> omega

/-- The edit distance is the cost of some edit script. -/
theorem editScript_editDistance (a b : List Char) : EditScript a b (editDistance a b) := by
  induction a, b using editDistance.induct with
  | case1 b =>
    rw [editDistance]
    induction b with
    | nil => exact EditScript.done
    | cons y b ih => exact EditScript.insert y ih
  | case2 x a =>
    rw [editDistance]
    induction a generalizing x with
    | nil => exact EditScript.delete x EditScript.done
    | cons z a ih => exact EditScript.delete x (ih z)
  | case3 x a y b ih1 ih2 ih3 =>
    rw [editDistance]
    rcases min_choice (editDistance a (y :: b) + 1)
        (min (editDistance (x :: a) b + 1) (editDistance a b + if x = y then 0 else 1))
      with h | h
    · rw [h]; exact EditScript.delete x ih1
    · rw [h]
      rcases min_choice (editDistance (x :: a) b + 1)
          (editDistance a b + if x = y then 0 else 1) with h' | h'
      · rw [h']; exact EditScript.insert y ih2
      · rw [h']
        by_cases hxy : x = y
        · subst hxy
          simpa using EditScript.keep x ih3
        · simpa [hxy] using EditScript.substitute x y ih3

theorem editDistance_cons_cons (x y : Char) (a b : List Char) :
    editDistance (x :: a) (y :: b) =
      min (editDistance a (y :: b) + 1)
        (min (editDistance (x :: a) b + 1) (editDistance a b + if x = y then 0 else 1)) := by
  rw [editDistance]

theorem editDistance_nil_left (b : List Char) : editDistance [] b = b.length := by
  rw [editDistance]

theorem editDistance_nil_right (a : List Char) : editDistance a [] = a.length := by
  cases a with
  | nil => rw [editDistance]
  | cons x a => rw [editDistance]

/-- No edit script is cheaper than the edit distance. -/
theorem editDistance_le_of_editScript (a b : List Char) (n : Nat) (h : EditScript a b n) :
    editDistance a b ≤ n := by
  induction h with
  | done => simp [editDistance_nil_left]
  | keep x _ ih =>
    rw [editDistance_cons_cons]
    refine le_trans (min_le_right _ _) (le_trans (min_le_right _ _) ?_)
    simpa using ih
  | substitute x y _ ih =>
    rw [editDistance_cons_cons]
    refine le_trans (min_le_right _ _) (le_trans (min_le_right _ _) ?_)
    split_ifs <;> omega
  | @delete x a b n _ ih =>
    cases b with
    | nil =>
      rw [editDistance_nil_right] at ih ⊢
      simp only [List.length_cons]
      omega
    | cons y b =>
      rw [editDistance_cons_cons]
      exact le_trans (min_le_left _ _) (by omega)
  | @insert y a b n _ ih =>
    cases a with
    | nil =>
      rw [editDistance_nil_left] at ih ⊢
      simp only [List.length_cons]
      omega
    | cons x a =>
      rw [editDistance_cons_cons]
      exact le_trans (min_le_right _ _) (le_trans (min_le_left _ _) (by omega))

theorem editScript_snoc_keep (x : Char) (a b : List Char) (n : Nat) (h : EditScript a b n) :
    EditScript (a ++ [x]) (b ++ [x]) n := by
  induction h with
  | done => exact EditScript.keep x EditScript.done
  | keep z _ ih => exact EditScript.keep z ih
  | substitute z w _ ih => exact EditScript.substitute z w ih
  | delete z _ ih => exact EditScript.delete z ih
  | insert w _ ih => exact EditScript.insert w ih

theorem editScript_snoc_substitute (x y : Char) (a b : List Char) (n : Nat)
    (h : EditScript a b n) : EditScript (a ++ [x]) (b ++ [y]) (n + 1) := by
  induction h with
  | done => exact EditScript.substitute x y EditScript.done
  | keep z _ ih => exact EditScript.keep z ih
  | substitute z w _ ih => exact EditScript.substitute z w ih
  | delete z _ ih => exact EditScript.delete z ih
  | insert w _ ih => exact EditScript.insert w ih

theorem editScript_snoc_delete (x : Char) (a b : List Char) (n : Nat)
    (h : EditScript a b n) : EditScript (a ++ [x]) b (n + 1) := by
  induction h with
  | done => exact EditScript.delete x EditScript.done
  | keep z _ ih => exact EditScript.keep z ih
  | substitute z w _ ih => exact EditScript.substitute z w ih
  | delete z _ ih => exact EditScript.delete z ih
  | insert w _ ih => exact EditScript.insert w ih

theorem editScript_snoc_insert (y : Char) (a b : List Char) (n : Nat)
    (h : EditScript a b n) : EditScript a (b ++ [y]) (n + 1) := by
  induction h with
  | done => exact EditScript.insert y EditScript.done
  | keep z _ ih => exact EditScript.keep z ih
  | substitute z w _ ih => exact EditScript.substitute z w ih
  | delete z _ ih => exact EditScript.delete z ih
  | insert w _ ih => exact EditScript.insert w ih

/-- An edit script read backwards is an edit script between the reversed strings. -/
theorem editScript_reverse (a b : List Char) (n : Nat) (h : EditScript a b n) :
    EditScript a.reverse b.reverse n := by
  induction h with
  | done => exact EditScript.done
  | keep x _ ih =>
    simp only [List.reverse_cons]
    exact editScript_snoc_keep x _ _ _ ih
  | substitute x y _ ih =>
    simp only [List.reverse_cons]
    exact editScript_snoc_substitute x y _ _ _ ih
  | delete x _ ih =>
    simp only [List.reverse_cons]
    exact editScript_snoc_delete x _ _ _ ih
  | insert y _ ih =>
    simp only [List.reverse_cons]
    exact editScript_snoc_insert y _ _ _ ih

theorem editDistance_reverse (a b : List Char) :
    editDistance a.reverse b.reverse = editDistance a b := by
  apply le_antisymm
  · exact editDistance_le_of_editScript _ _ _
      (editScript_reverse a b _ (editScript_editDistance a b))
  · have := editDistance_le_of_editScript _ _ _
      (editScript_reverse a.reverse b.reverse _ (editScript_editDistance a.reverse b.reverse))
    simpa using this

theorem editDistance_comm (a b : List Char) : editDistance a b = editDistance b a := by
  rw [editDistance_eq_editRec, editDistance_eq_editRec, editRec_comm]

theorem levenshteinDistance_eq_editDistance (a b : String) :
    levenshteinDistance a b = editDistance a.toList b.toList := by
  rw [levenshteinDistance_eq, ← editDistance_eq_editRec, editDistance_reverse,
    editDistance_comm]

/-- C18: `levenshteinDistance(a, b)` is the unit-cost edit distance of `a` and `b`: it is the
value of the standard recursive definition, it is the cost of an edit script that turns `a` into
`b`, and no edit script that turns `a` into `b` is cheaper.  In particular it is 0 for equal
strings and at most the greater of the two lengths. -/
theorem levenshteinDistance_is_edit_distance (a b : String) :
    levenshteinDistance a b = editDistance a.toList b.toList ∧
    EditScript a.toList b.toList (levenshteinDistance a b) ∧
    (∀ n, EditScript a.toList b.toList n → levenshteinDistance a b ≤ n) ∧
    levenshteinDistance a a = 0 ∧
    levenshteinDistance a b ≤ max a.length b.length := by
  refine ⟨levenshteinDistance_eq_editDistance a b, ?_, ?_, levenshteinDistance_self a,
    levenshteinDistance_le a b⟩
  · rw [levenshteinDistance_eq_editDistance]
    exact editScript_editDistance _ _
  · intro n hn
    rw [levenshteinDistance_eq_editDistance]
    exact editDistance_le_of_editScript _ _ n hn

/-! ## Manual confirmation -/

namespace DataStore

/-- C15, refuted as stated: the expense `A` is already matched to the sale `S0`; confirming the
pair `A`, `S` with both writes succeeding throws no error, relinks `A` to `S`, marks `S` as
matched to `A`, and leaves `S0` pointing at `A`. -/
theorem confirmMatch_accepts_matched_expense :
    Examples.settled.expenses.map (fun r => (r.id, r.status, r.matched_to_sale_id)) =
      [("A", Status.matched, some "S0")] ∧
    (confirmMatch Examples.settled "A" "S" none none).2 = none ∧
    (confirmMatch Examples.settled "A" "S" none none).1.expenses.map
        (fun r => (r.id, r.status, r.matched_to_sale_id)) =
      [("A", Status.matched, some "S")] ∧
    (confirmMatch Examples.settled "A" "S" none none).1.sales.map
        (fun r => (r.id, r.status, r.matched_to_expense_id)) =
      [("S0", Status.matched, some "A"), ("S", Status.matched, some "A")] := by
  refine ⟨rfl, rfl, rfl, rfl⟩

/-- C15, amended: `confirmMatch` does not look at the status of either row.  It throws exactly when
one of its two writes answers with an error, and then throws that error; when the write to
`expenses` fails nothing is changed; when both writes succeed it succeeds, whatever the statuses of
the two rows are, and the tables are those after the two writes. -/
theorem confirmMatch_throws_iff (st : AutoMatch.Store) (expenseId saleId : String)
    (expenseError saleError : Option String) :
    ((confirmMatch st expenseId saleId expenseError saleError).2 = none ↔
      expenseError = none ∧ saleError = none) ∧
    (∀ error, expenseError = some error →
      confirmMatch st expenseId saleId expenseError saleError = (st, some error)) ∧
    (∀ error, expenseError = none → saleError = some error →
      (confirmMatch st expenseId saleId expenseError saleError).2 = some error) ∧
    (expenseError = none → saleError = none →
      confirmMatch st expenseId saleId expenseError saleError =
        (⟨AutoMatch.updateExpense st.expenses expenseId saleId,
          AutoMatch.updateSale st.sales saleId expenseId⟩, none)) := by
  cases expenseError <;> cases saleError <;> simp [confirmMatch]

/-- C15 amended, at the store of the matched expense `A`: when the write to `expenses` answers with
an error, that error is thrown and nothing is changed. -/
theorem confirmMatch_throws_iff_witness :
    (some "timeout" : Option String) = some "timeout" ∧
    confirmMatch Examples.settled "A" "S" (some "timeout") none =
      (Examples.settled, some "timeout") :=
  ⟨rfl, (confirmMatch_throws_iff Examples.settled "A" "S" (some "timeout") none).2.1
    "timeout" rfl⟩

/-- C16: for an expense and a sale of the store, pending or not, `confirmMatch` with both writes
succeeding throws nothing; afterwards every row of `expenses` with the id of the expense has
status `matched` and `matched_to_sale_id` the id of the sale, every row of `sales` with the id of
the sale has status `matched` and `matched_to_expense_id` the id of the expense, each in its
place and with its other columns, and every other row is unchanged. -/
theorem confirmMatch_pending_pair (st : AutoMatch.Store) (expense sale : Transaction)
    (he : expense ∈ st.expenses) (hs : sale ∈ st.sales) :
    (confirmMatch st expense.id sale.id none none).2 = none ∧
    (confirmMatch st expense.id sale.id none none).1.expenses =
      st.expenses.map (fun r =>
        if r.id = expense.id then
          { r with status := Status.matched, matched_to_sale_id := some sale.id }
        else r) ∧
    (confirmMatch st expense.id sale.id none none).1.sales =
      st.sales.map (fun r =>
        if r.id = sale.id then
          { r with status := Status.matched, matched_to_expense_id := some expense.id }
        else r) ∧
    ({ expense with status := Status.matched, matched_to_sale_id := some sale.id } : Transaction) ∈
      (confirmMatch st expense.id sale.id none none).1.expenses ∧
    ({ sale with status := Status.matched, matched_to_expense_id := some expense.id } :
      Transaction) ∈ (confirmMatch st expense.id sale.id none none).1.sales ∧
    (∀ r ∈ st.expenses, r.id ≠ expense.id →
      r ∈ (confirmMatch st expense.id sale.id none none).1.expenses) ∧
    (∀ r ∈ st.sales, r.id ≠ sale.id →
      r ∈ (confirmMatch st expense.id sale.id none none).1.sales) ∧
    (∀ r ∈ (confirmMatch st expense.id sale.id none none).1.expenses,
      r.id ≠ expense.id → r ∈ st.expenses) ∧
    (∀ r ∈ (confirmMatch st expense.id sale.id none none).1.sales,
      r.id ≠ sale.id → r ∈ st.sales) := by
  have hE : (confirmMatch st expense.id sale.id none none).1.expenses =
      st.expenses.map (fun r =>
        if r.id = expense.id then
          { r with status := Status.matched, matched_to_sale_id := some sale.id }
        else r) := rfl
  have hS : (confirmMatch st expense.id sale.id none none).1.sales =
      st.sales.map (fun r =>
        if r.id = sale.id then
          { r with status := Status.matched, matched_to_expense_id := some expense.id }
        else r) := rfl
  refine ⟨rfl, hE, hS, ?_, ?_, ?_, ?_, ?_, ?_⟩
  · rw [hE]
    exact List.mem_map.mpr ⟨expense, he, by simp⟩
  · rw [hS]
    exact List.mem_map.mpr ⟨sale, hs, by simp⟩
  · intro r hr hne
    rw [hE]
    exact List.mem_map.mpr ⟨r, hr, by simp [hne]⟩
  · intro r hr hne
    rw [hS]
    exact List.mem_map.mpr ⟨r, hr, by simp [hne]⟩
  · intro r hr hne
    rw [hE] at hr
    obtain ⟨r0, hr0, rfl⟩ := List.mem_map.mp hr
    by_cases h : r0.id = expense.id
    · rw [if_pos h] at hne
      exact absurd h hne
    · rw [if_neg h]; exact hr0
  · intro r hr hne
    rw [hS] at hr
    obtain ⟨r0, hr0, rfl⟩ := List.mem_map.mp hr
    by_cases h : r0.id = sale.id
    · rw [if_pos h] at hne
      exact absurd h hne
    · rw [if_neg h]; exact hr0

/-- C16 at the pending expense `B` (250) and the pending sale `S` (100) of the example store. -/
theorem confirmMatch_pending_pair_witness :
    Examples.row "B" 19783 250 none ∈ Examples.uncontested.expenses ∧
    Examples.row "S" 19783 100 none ∈ Examples.uncontested.sales ∧
    (Examples.row "B" 19783 250 none).status = Status.pending ∧
    (Examples.row "S" 19783 100 none).status = Status.pending ∧
    (confirmMatch Examples.uncontested "B" "S" none none).2 = none ∧
    (confirmMatch Examples.uncontested "B" "S" none none).1.expenses =
      [Examples.row "A" 19783 100 none,
        { Examples.row "B" 19783 250 none with
          status := Status.matched, matched_to_sale_id := some "S" }] := by
  have he : Examples.row "B" 19783 250 none ∈ Examples.uncontested.expenses := by
    simp [Examples.uncontested]
  have hs : Examples.row "S" 19783 100 none ∈ Examples.uncontested.sales := by
    simp [Examples.uncontested]
  have h := confirmMatch_pending_pair Examples.uncontested (Examples.row "B" 19783 250 none)
    (Examples.row "S" 19783 100 none) he hs
  exact ⟨he, hs, rfl, rfl, h.1, rfl⟩

end DataStore

/-! ## End-to-end scenarios -/

theorem pendingRows_singleton (r : Transaction) (h : r.status = Status.pending) :
    AutoMatch.pendingRows [r] = [r] := by
  simp [AutoMatch.pendingRows, h]

theorem getMatchReasons_exact_pair (expense sale : Transaction) (tol : ℚ)
    (ha : expense.amount = sale.amount) (hd : expense.date = sale.date) :
    getMatchReasons expense sale tol = ["Exact amount match", "Same date"] := by
  simp [getMatchReasons, ha, daysDiff_of_eq expense sale hd]

/-- C13: a pending expense and a pending sale of equal amounts and of the same date, alone in the
store.  Under `amount_and_date` with threshold 95 the run emits no match (the score is 90), and
the review table suggests the sale for the expense (with its score 100). -/
theorem exact_pair_suggested_not_matched (expense sale : Transaction) (dateToleranceDays : ℚ)
    (hpe : expense.status = Status.pending) (hps : sale.status = Status.pending)
    (ha : expense.amount = sale.amount) (hd : expense.date = sale.date) :
    (AutoMatch.run ⟨[expense], [sale]⟩ dateToleranceDays 95 "amount_and_date").2.matchList = [] ∧
    (AutoMatch.run ⟨[expense], [sale]⟩ dateToleranceDays 95 "amount_and_date").2.matchedCount
      = 0 ∧
    (AutoMatch.run ⟨[expense], [sale]⟩ dateToleranceDays 95 "amount_and_date").1 =
      ⟨[expense], [sale]⟩ ∧
    MatchingTable.potentialMatches expense [sale] = [⟨sale, 100, 0⟩] := by
  have hscore := score_exact_pair expense sale dateToleranceDays ha hd
  have hfind : AutoMatch.findMatches (AutoMatch.pendingRows [expense])
      (AutoMatch.pendingRows [sale]) dateToleranceDays 95 "amount_and_date" = [] := by
    rw [pendingRows_singleton _ hpe, pendingRows_singleton _ hps, AutoMatch.findMatches_cons,
      AutoMatch.findMatches_nil, AutoMatch.selectFor_nil_eq,
      AutoMatch.potentialMatches_singleton, hscore]
    have hr : ¬ AutoMatch.reachesThreshold 95 ⟨sale, some 90⟩ = true := by
      simp only [AutoMatch.reachesThreshold, decide_eq_true_eq]
      norm_num
    rw [if_neg hr]
    rfl
  refine ⟨?_, ?_, ?_, ?_⟩
  · rw [AutoMatch.run_snd, hfind]
  · rw [AutoMatch.run_snd, hfind]
    rfl
  · rw [AutoMatch.run_fst, hfind]
    have he : AutoMatch.expenseAfter [] = id := rfl
    have hs : AutoMatch.saleAfter [] = id := rfl
    simp [he, hs]
  · have hm : MatchingTable.matchScore expense sale = 100 := by
      unfold MatchingTable.matchScore
      simp only [ha, sub_self, abs_zero, if_true, daysDiff_of_eq expense sale hd]
      norm_num
    simp only [MatchingTable.potentialMatches, List.filter_cons, List.filter_nil, hps,
      decide_True, if_true, List.map_cons, List.map_nil, hm,
      daysDiff_of_eq expense sale hd]
    norm_num [List.insertionSort, List.orderedInsert]

/-- C13 at the expense and the sale of amount 100 of 2024-03-01, with tolerance 7. -/
theorem exact_pair_suggested_not_matched_witness :
    (Examples.row "A" 19783 100 none).status = Status.pending ∧
    (Examples.row "S" 19783 100 none).status = Status.pending ∧
    (Examples.row "A" 19783 100 none).amount = (Examples.row "S" 19783 100 none).amount ∧
    (Examples.row "A" 19783 100 none).date = (Examples.row "S" 19783 100 none).date ∧
    (AutoMatch.run ⟨[Examples.row "A" 19783 100 none], [Examples.row "S" 19783 100 none]⟩ 7 95
      "amount_and_date").2.matchList = [] ∧
    MatchingTable.potentialMatches (Examples.row "A" 19783 100 none)
      [Examples.row "S" 19783 100 none] = [⟨Examples.row "S" 19783 100 none, 100, 0⟩] :=
  ⟨rfl, rfl, rfl, rfl,
    (exact_pair_suggested_not_matched (Examples.row "A" 19783 100 none)
      (Examples.row "S" 19783 100 none) 7 rfl rfl rfl rfl).1,
    (exact_pair_suggested_not_matched (Examples.row "A" 19783 100 none)
      (Examples.row "S" 19783 100 none) 7 rfl rfl rfl rfl).2.2.2⟩

/-- C14: an expense and a sale of equal amounts, of the same date and with the same non-empty
description score exactly 100 under `fuzzy_match`; when both are pending and alone in the store,
the run with threshold 95 emits the match of the expense with the sale, with confidence 100, and
commits it. -/
theorem identical_pair_auto_matched (expense sale : Transaction) (dateToleranceDays : ℚ)
    (description : String)
    (hpe : expense.status = Status.pending) (hps : sale.status = Status.pending)
    (ha : expense.amount = sale.amount) (hd : expense.date = sale.date)
    (hde : expense.description = some description) (hds : sale.description = some description)
    (hne : description ≠ "") :
    calculateMatchConfidence expense sale dateToleranceDays "fuzzy_match" = some 100 ∧
    (AutoMatch.run ⟨[expense], [sale]⟩ dateToleranceDays 95 "fuzzy_match").2.matchList =
      [⟨expense.id, sale.id, some 100, ["Exact amount match", "Same date"]⟩] ∧
    (AutoMatch.run ⟨[expense], [sale]⟩ dateToleranceDays 95 "fuzzy_match").2.matchedCount = 1 := by
  have hlen : description.length ≠ 0 := fun h => hne (string_eq_empty _ h)
  have hscore : calculateMatchConfidence expense sale dateToleranceDays "fuzzy_match" =
      some 100 := by
    rw [calculateMatchConfidence_fuzzy_eq, hde, hds, Option.getD_some,
      calculateStringSimilarity_self _ hlen, amountContribution_of_eq _ _ ha,
      dateContribution_of_eq _ _ _ hd]
    norm_num
  have hfind : AutoMatch.findMatches (AutoMatch.pendingRows [expense])
      (AutoMatch.pendingRows [sale]) dateToleranceDays 95 "fuzzy_match" =
      [⟨expense.id, sale.id, some 100, ["Exact amount match", "Same date"]⟩] := by
    rw [pendingRows_singleton _ hpe, pendingRows_singleton _ hps, AutoMatch.findMatches_cons,
      AutoMatch.findMatches_nil, AutoMatch.selectFor_nil_eq,
      AutoMatch.potentialMatches_singleton, hscore]
    have hr : AutoMatch.reachesThreshold 95 ⟨sale, some 100⟩ = true := by
      simp only [AutoMatch.reachesThreshold, decide_eq_true_eq]
      norm_num
    rw [if_pos hr]
    simp only [getMatchReasons_exact_pair expense sale dateToleranceDays ha hd, List.append_nil]
  refine ⟨hscore, ?_, ?_⟩
  · rw [AutoMatch.run_snd, hfind]
  · rw [AutoMatch.run_snd, hfind]
    rfl

/-- C14 at the expense and the sale of amount 100 of 2024-03-01 with description
"Invoice 123". -/
theorem identical_pair_auto_matched_witness :
    (Examples.row "A" 19783 100 (some "Invoice 123")).status = Status.pending ∧
    (Examples.row "S" 19783 100 (some "Invoice 123")).status = Status.pending ∧
    (Examples.row "A" 19783 100 (some "Invoice 123")).amount =
      (Examples.row "S" 19783 100 (some "Invoice 123")).amount ∧
    (Examples.row "A" 19783 100 (some "Invoice 123")).date =
      (Examples.row "S" 19783 100 (some "Invoice 123")).date ∧
    ("Invoice 123" : String) ≠ "" ∧
    calculateMatchConfidence (Examples.row "A" 19783 100 (some "Invoice 123"))
      (Examples.row "S" 19783 100 (some "Invoice 123")) 7 "fuzzy_match" = some 100 ∧
    (AutoMatch.run ⟨[Examples.row "A" 19783 100 (some "Invoice 123")],
        [Examples.row "S" 19783 100 (some "Invoice 123")]⟩ 7 95 "fuzzy_match").2.matchList =
      [⟨"A", "S", some 100, ["Exact amount match", "Same date"]⟩] :=
  ⟨rfl, rfl, rfl, rfl, by decide,
    (identical_pair_auto_matched (Examples.row "A" 19783 100 (some "Invoice 123"))
      (Examples.row "S" 19783 100 (some "Invoice 123")) 7 "Invoice 123" rfl rfl rfl rfl rfl rfl
      (by decide)).1,
    (identical_pair_auto_matched (Examples.row "A" 19783 100 (some "Invoice 123"))
      (Examples.row "S" 19783 100 (some "Invoice 123")) 7 "Invoice 123" rfl rfl rfl rfl rfl rfl
      (by decide)).2.1⟩

/-! ## Whole numbers and signs -/

theorem amountContribution_nat (e s : Transaction) :
    ∃ n : ℕ, amountContribution e s = (n : ℚ) := by
  unfold amountContribution
  dsimp only
  split_ifs
  · exact ⟨70, by norm_num⟩
  · exact ⟨50, by norm_num⟩
  · exact ⟨30, by norm_num⟩
  · exact ⟨10, by norm_num⟩
  · exact ⟨0, by norm_num⟩

theorem dateContribution_nat (e s : Transaction) (tol : ℚ) :
    ∃ n : ℕ, dateContribution e s tol = (n : ℚ) := by
  unfold dateContribution
  split_ifs
  · exact ⟨20, by norm_num⟩
  · exact ⟨15, by norm_num⟩
  · exact ⟨10, by norm_num⟩
  · exact ⟨0, by norm_num⟩

/-- C19, refuted as stated: for equal amounts on the same day with descriptions "ab" and "abc"
the score under `fuzzy_match` is 70 + 20 + 10 * (2 / 3) = 290 / 3, which is not a whole
number. -/
theorem calculateMatchConfidence_not_whole :
    calculateMatchConfidence (Examples.row "e1" 19783 100 (some "ab"))
      (Examples.row "s1" 19783 100 (some "abc")) 7 "fuzzy_match" = some (290 / 3) ∧
    ¬ ∃ n : ℤ, (290 / 3 : ℚ) = (n : ℚ) := by
  constructor
  · have hsim : calculateStringSimilarity "ab" "abc" = some (2 / 3) := by
      have hl : levenshteinDistance "abc" "ab" = 1 := by decide
      have h1 : ("ab" : String).length = 2 := by decide
      have h2 : ("abc" : String).length = 3 := by decide
      unfold calculateStringSimilarity
      have hlt : ¬ (3 : ℕ) < 2 := by decide
      simp only [h1, h2, gt_iff_lt, hlt, if_false, hl]
      norm_num
    rw [calculateMatchConfidence_fuzzy_eq]
    simp only [Examples.row, Option.getD_some, hsim, Option.map_some']
    norm_num [amountContribution, dateContribution, daysDiff]
  · rintro ⟨n, hn⟩
    have h3 : (290 : ℚ) = 3 * (n : ℚ) := by linarith
    have h4 : (290 : ℤ) = 3 * n := by exact_mod_cast h3
    omega

/-- C19, amended: the description term is added without rounding, and no block of the function
rounds.  Under every strategy other than `fuzzy_match` the score is a whole number, a sum of tier
constants. -/
theorem calculateMatchConfidence_whole (expense sale : Transaction) (dateToleranceDays : ℚ)
    (matchStrategy : String) (h : matchStrategy ≠ "fuzzy_match") :
    ∃ n : ℕ, calculateMatchConfidence expense sale dateToleranceDays matchStrategy =
      some (n : ℚ) := by
  obtain ⟨na, ha⟩ := amountContribution_nat expense sale
  obtain ⟨nd, hd⟩ := dateContribution_nat expense sale dateToleranceDays
  by_cases h1 : matchStrategy = "amount_and_date"
  · subst h1
    rw [calculateMatchConfidence_amount_and_date_eq, ha, hd]
    exact ⟨na + nd, by push_cast; rfl⟩
  · rw [calculateMatchConfidence_amount_only_eq _ _ _ _ h1 h, ha]
    exact ⟨na, rfl⟩

/-- C19 amended, at amounts 100 and 101 three days apart under `amount_and_date`: the score is a
whole number. -/
theorem calculateMatchConfidence_whole_witness :
    "amount_and_date" ≠ "fuzzy_match" ∧
    ∃ n : ℕ, calculateMatchConfidence (Examples.row "e1" 19783 100 (some "ab"))
      (Examples.row "s1" 19786 101 (some "abc")) 7 "amount_and_date" = some (n : ℚ) :=
  ⟨by decide, calculateMatchConfidence_whole (Examples.row "e1" 19783 100 (some "ab"))
    (Examples.row "s1" 19786 101 (some "abc")) 7 "amount_and_date" (by decide)⟩

theorem abs_sub_negateAmount (e s : Transaction) :
    |(negateAmount e).amount - (negateAmount s).amount| = |e.amount - s.amount| := by
  simp only [negateAmount]
  rw [← abs_neg]
  congr 1
  ring

/-- For an expense whose amount is not positive only the exact tier applies. -/
theorem amountContribution_of_nonpos (e s : Transaction) (h : e.amount ≤ 0) :
    amountContribution e s = if |e.amount - s.amount| = 0 then 70 else 0 := by
  have hd : 0 ≤ |e.amount - s.amount| := abs_nonneg _
  unfold amountContribution
  dsimp only
  by_cases h0 : |e.amount - s.amount| = 0
  · simp [h0]
  · have h1 : ¬ |e.amount - s.amount| < e.amount * (5 / 100) := by
      intro hlt; nlinarith
    have h2 : ¬ |e.amount - s.amount| < e.amount * (1 / 10) := by
      intro hlt; nlinarith
    have h3 : ¬ |e.amount - s.amount| < e.amount * (2 / 10) := by
      intro hlt; nlinarith
    simp only [h0, h1, h2, h3, if_false]

/-- Negating both amounts keeps the amount contribution exactly when the amounts are equal or
differ by at least a fifth of the magnitude of the expense amount. -/
theorem amountContribution_negateAmount_iff (e s : Transaction) :
    amountContribution (negateAmount e) (negateAmount s) = amountContribution e s ↔
      |e.amount - s.amount| = 0 ∨ 2 / 10 * |e.amount| ≤ |e.amount - s.amount| := by
  have hd : 0 ≤ |e.amount - s.amount| := abs_nonneg _
  by_cases h0 : |e.amount - s.amount| = 0
  · have h0' : |(negateAmount e).amount - (negateAmount s).amount| = 0 := by
      rw [abs_sub_negateAmount, h0]
    simp only [h0, true_or, iff_true]
    unfold amountContribution
    simp [h0, h0']
  · have hpos : 0 < |e.amount - s.amount| := lt_of_le_of_ne hd (Ne.symm h0)
    simp only [h0, false_or]
    rcases le_total e.amount 0 with hle | hle
    · -- the expense amount is not positive: only the negated pair can reach a tier
      rw [amountContribution_of_nonpos e s hle, if_neg h0, abs_of_nonpos hle]
      unfold amountContribution
      dsimp only
      rw [abs_sub_negateAmount]
      simp only [negateAmount, h0, if_false]
      constructor
      · intro h
        by_contra hlt
        push_neg at hlt
        have h3 : |e.amount - s.amount| < -e.amount * (2 / 10) := by linarith
        split_ifs at h <;> norm_num at h
      · intro h
        have h1 : ¬ |e.amount - s.amount| < -e.amount * (5 / 100) := by
          intro hlt; linarith
        have h2 : ¬ |e.amount - s.amount| < -e.amount * (1 / 10) := by
          intro hlt; linarith
        have h3 : ¬ |e.amount - s.amount| < -e.amount * (2 / 10) := by
          intro hlt; linarith
        simp only [h1, h2, h3, if_false]
    · have hneg : (negateAmount e).amount ≤ 0 := by simp [negateAmount, hle]
      rw [amountContribution_of_nonpos _ _ hneg, abs_sub_negateAmount, if_neg h0,
        abs_of_nonneg hle]
      unfold amountContribution
      dsimp only
      simp only [h0, if_false]
      constructor
      · intro h
        by_contra hlt
        push_neg at hlt
        have h3 : |e.amount - s.amount| < e.amount * (2 / 10) := by linarith
        split_ifs at h <;> norm_num at h
      · intro h
        have h1 : ¬ |e.amount - s.amount| < e.amount * (5 / 100) := by
          intro hlt; linarith
        have h2 : ¬ |e.amount - s.amount| < e.amount * (1 / 10) := by
          intro hlt; linarith
        have h3 : ¬ |e.amount - s.amount| < e.amount * (2 / 10) := by
          intro hlt; linarith
        simp only [h1, h2, h3, if_false]

/-- C20, at the failing input: an expense of 100 and a sale of 101 score 50 under `amount_only`
(a difference of 1 is below 5% of 100); with both amounts negated the score is 0, since every
tier bound is a fraction of the negative expense amount. -/
theorem calculateMatchConfidence_negated_amounts :
    calculateMatchConfidence (Examples.row "e1" 19783 100 none)
      (Examples.row "s1" 19783 101 none) 7 "amount_only" = some 50 ∧
    (negateAmount (Examples.row "e1" 19783 100 none)).amount = -100 ∧
    (negateAmount (Examples.row "s1" 19783 101 none)).amount = -101 ∧
    calculateMatchConfidence (negateAmount (Examples.row "e1" 19783 100 none))
      (negateAmount (Examples.row "s1" 19783 101 none)) 7 "amount_only" = some 0 := by
  refine ⟨?_, rfl, rfl, ?_⟩
  · rw [calculateMatchConfidence_amount_only_eq _ _ _ _ (by decide) (by decide)]
    norm_num [amountContribution, Examples.row, abs_of_neg]
  · rw [calculateMatchConfidence_amount_only_eq _ _ _ _ (by decide) (by decide)]
    norm_num [amountContribution, negateAmount, Examples.row, abs_of_pos]

/-! ## Tolerance, caps and symmetry of the similarity -/

theorem dateContribution_of_gt (expense sale : Transaction) (tol : ℚ)
    (h1 : 1 < daysDiff expense sale) (ht : tol < daysDiff expense sale) :
    dateContribution expense sale tol = 0 := by
  unfold dateContribution
  have h0 : ¬ daysDiff expense sale = 0 := by intro h; rw [h] at h1; norm_num at h1
  rw [if_neg h0, if_neg (not_le.mpr h1), if_neg (not_le.mpr ht)]

/-- C21, refuted as stated: with `dateToleranceDays = 0` and equal amounts one day apart, the
date term contributes 15: the score is 85 under `amount_and_date` and 70 under `amount_only`. -/
theorem calculateMatchConfidence_one_day_beyond_tolerance :
    daysDiff (Examples.row "e1" 19783 100 none) (Examples.row "s1" 19784 100 none) = 1 ∧
    calculateMatchConfidence (Examples.row "e1" 19783 100 none)
      (Examples.row "s1" 19784 100 none) 0 "amount_and_date" = some 85 ∧
    calculateMatchConfidence (Examples.row "e1" 19783 100 none)
      (Examples.row "s1" 19784 100 none) 0 "amount_only" = some 70 := by
  refine ⟨?_, ?_, ?_⟩
  · norm_num [daysDiff, Examples.row]
  · rw [calculateMatchConfidence_amount_and_date_eq]
    norm_num [amountContribution, dateContribution, daysDiff, Examples.row]
  · rw [calculateMatchConfidence_amount_only_eq _ _ _ _ (by decide) (by decide)]
    norm_num [amountContribution, Examples.row]

/-- C21, amended: for every tolerance and every pair whose date gap is greater than the tolerance
and greater than one day, the date term contributes 0: the score under `amount_and_date` is the
score under `amount_only`.  (A gap of at most one day is scored before the tolerance is
looked at.) -/
theorem calculateMatchConfidence_beyond_tolerance (expense sale : Transaction)
    (dateToleranceDays : ℚ) (h1 : 1 < daysDiff expense sale)
    (ht : dateToleranceDays < daysDiff expense sale) :
    dateContribution expense sale dateToleranceDays = 0 ∧
    calculateMatchConfidence expense sale dateToleranceDays "amount_and_date" =
      calculateMatchConfidence expense sale dateToleranceDays "amount_only" := by
  have hd := dateContribution_of_gt expense sale dateToleranceDays h1 ht
  refine ⟨hd, ?_⟩
  rw [calculateMatchConfidence_amount_and_date_eq,
    calculateMatchConfidence_amount_only_eq _ _ _ _ (by decide) (by decide), hd, add_zero]

/-- C21 amended, at equal amounts eight days apart with tolerance 7: both scores are 70. -/
theorem calculateMatchConfidence_beyond_tolerance_witness :
    (1 : ℚ) < daysDiff (Examples.row "e1" 19783 100 none) (Examples.row "s1" 19791 100 none) ∧
    (7 : ℚ) < daysDiff (Examples.row "e1" 19783 100 none) (Examples.row "s1" 19791 100 none) ∧
    calculateMatchConfidence (Examples.row "e1" 19783 100 none)
        (Examples.row "s1" 19791 100 none) 7 "amount_and_date" =
      calculateMatchConfidence (Examples.row "e1" 19783 100 none)
        (Examples.row "s1" 19791 100 none) 7 "amount_only" := by
  have hd : daysDiff (Examples.row "e1" 19783 100 none) (Examples.row "s1" 19791 100 none)
      = 8 := by
    norm_num [daysDiff, Examples.row]
  have h1 : (1 : ℚ) < daysDiff (Examples.row "e1" 19783 100 none)
      (Examples.row "s1" 19791 100 none) := by rw [hd]; norm_num
  have h7 : (7 : ℚ) < daysDiff (Examples.row "e1" 19783 100 none)
      (Examples.row "s1" 19791 100 none) := by rw [hd]; norm_num
  exact ⟨h1, h7, (calculateMatchConfidence_beyond_tolerance _ _ 7 h1 h7).2⟩

/-- C30: for two strings that are not both empty the similarity does not depend on the order of
the arguments, it is a number, and that number lies between 0 and 1; the two calls of
`levenshteinDistance`, which for strings of equal length receive the strings in opposite orders,
agree. -/
theorem calculateStringSimilarity_symmetric (a b : String) (h : a ≠ "" ∨ b ≠ "") :
    calculateStringSimilarity a b = calculateStringSimilarity b a ∧
    levenshteinDistance a b = levenshteinDistance b a ∧
    ∃ v, calculateStringSimilarity a b = some v ∧ 0 ≤ v ∧ v ≤ 1 := by
  refine ⟨calculateStringSimilarity_comm a b, levenshteinDistance_comm a b, ?_⟩
  cases hv : calculateStringSimilarity a b with
  | some v => exact ⟨v, rfl, calculateStringSimilarity_range a b v hv⟩
  | none =>
    exfalso
    unfold calculateStringSimilarity at hv
    simp only at hv
    split_ifs at hv with h1 h0 h0
    · have : a.length = 0 := h0
      omega
    · have hb : b.length = 0 := h0
      have ha : a.length = 0 := by omega
      rcases h with h | h
      · exact h (string_eq_empty a ha)
      · exact h (string_eq_empty b hb)

/-- C30 at the strings "kitten" and "sitten", of equal length: the similarity is 5/6 in both
orders. -/
theorem calculateStringSimilarity_symmetric_witness :
    (("kitten" : String) ≠ "" ∨ ("sitten" : String) ≠ "") ∧
    calculateStringSimilarity "kitten" "sitten" = calculateStringSimilarity "sitten" "kitten" ∧
    ∃ v, calculateStringSimilarity "kitten" "sitten" = some v ∧ 0 ≤ v ∧ v ≤ 1 :=
  ⟨Or.inl (by decide),
    (calculateStringSimilarity_symmetric "kitten" "sitten" (Or.inl (by decide))).1,
    (calculateStringSimilarity_symmetric "kitten" "sitten" (Or.inl (by decide))).2.2⟩

namespace AutoMatch

/-! ## Order and number of the matches -/

theorem potentialMatches_eq_nil_iff_any (e : Transaction) (sales : List Transaction)
    (tol thr : ℚ) (strat : String) :
    potentialMatches e sales tol thr strat = [] ↔
      (sales.any fun s => reachesThreshold thr ⟨s, calculateMatchConfidence e s tol strat⟩)
        = false := by
  unfold potentialMatches
  rw [insertionSort_eq_nil, List.filter_eq_nil_iff]
  simp only [List.mem_map, forall_exists_index, and_imp, forall_apply_eq_imp_iff₂,
    List.any_eq_false]

theorem findMatches_expenseIds (es sales : List Transaction) (tol thr : ℚ) (strat : String) :
    (findMatches es sales tol thr strat).map (fun m => m.expenseId) =
      (es.filter fun e =>
        sales.any fun s => reachesThreshold thr ⟨s, calculateMatchConfidence e s tol strat⟩).map
        (fun e => e.id) := by
  induction es with
  | nil => simp [findMatches_nil]
  | cons e es ih =>
    rw [findMatches_cons, selectFor_nil_eq, List.map_append, ih, List.filter_cons]
    cases hp : potentialMatches e sales tol thr strat with
    | nil =>
      rw [(potentialMatches_eq_nil_iff_any e sales tol thr strat).mp hp]
      simp
    | cons best rest =>
      have hany : (sales.any fun s =>
          reachesThreshold thr ⟨s, calculateMatchConfidence e s tol strat⟩) = true := by
        by_contra h
        rw [Bool.not_eq_true] at h
        rw [(potentialMatches_eq_nil_iff_any e sales tol thr strat).mpr h] at hp
        cases hp
      rw [hany]
      simp

theorem score_one_day_same_amount (a b : String) (tol : ℚ) :
    calculateMatchConfidence (Examples.row a 19784 100 none) (Examples.row b 19783 100 none) tol
      "amount_and_date" = some 85 := by
  rw [calculateMatchConfidence_amount_and_date_eq]
  norm_num [amountContribution, dateContribution, daysDiff, Examples.row]

/-- C22, refuted as stated: the pending expenses `A` (one day after the sale `S`, score 85) and
`B` (same day, score 90), in this order, with threshold 80 under `amount_and_date`: the match
list has `A` first and `B` second, with confidences 85 and 90. -/
theorem findMatches_keeps_input_order :
    (findMatches [Examples.row "A" 19784 100 none, Examples.row "B" 19783 100 none]
      [Examples.row "S" 19783 100 none] 7 80 "amount_and_date").map
        (fun m => (m.expenseId, m.confidence)) = [("A", some 85), ("B", some 90)] := by
  have hr1 : reachesThreshold 80 ⟨Examples.row "S" 19783 100 none, some 85⟩ = true := by
    simp only [reachesThreshold, decide_eq_true_eq]; norm_num
  have hr2 : reachesThreshold 80 ⟨Examples.row "S" 19783 100 none, some 90⟩ = true := by
    simp only [reachesThreshold, decide_eq_true_eq]; norm_num
  rw [findMatches_cons, findMatches_cons, findMatches_nil, selectFor_nil_eq, selectFor_nil_eq,
    potentialMatches_singleton, potentialMatches_singleton, score_one_day_same_amount,
    score_exact_pair (Examples.row "B" 19783 100 none) (Examples.row "S" 19783 100 none) 7
      rfl rfl, if_pos hr1, if_pos hr2]
  rfl

/-- C22, amended: the run processes the pending expenses in the order in which the query returns
them.  The expenses named by the match list are, in input order, exactly the pending expenses
with a sale at or above the threshold; the confidences follow that order and need not
decrease. -/
theorem findMatches_in_expense_order (expenses sales : List Transaction)
    (dateToleranceDays autoMatchThreshold : ℚ) (matchStrategy : String) :
    (findMatches expenses sales dateToleranceDays autoMatchThreshold matchStrategy).map
        (fun m => m.expenseId) =
      (expenses.filter fun e =>
        sales.any fun s =>
          reachesThreshold autoMatchThreshold
            ⟨s, calculateMatchConfidence e s dateToleranceDays matchStrategy⟩).map
        (fun e => e.id) ∧
    ((findMatches expenses sales dateToleranceDays autoMatchThreshold matchStrategy).map
        fun m => m.expenseId).Sublist (expenses.map fun e => e.id) := by
  refine ⟨findMatches_expenseIds _ _ _ _ _, ?_⟩
  rw [findMatches_expenseIds]
  exact (List.filter_sublist _).map _

/-- C23: when the pending expenses have pairwise distinct ids, no expense id occurs twice in the
match list and the list is at most as long as the list of pending expenses; hence two pending
sales with different ids that the commit loop marks as matched are not linked to the same
expense. -/
theorem findMatches_one_per_expense (expenses sales : List Transaction)
    (dateToleranceDays autoMatchThreshold : ℚ) (matchStrategy : String)
    (hE : (expenses.map fun e => e.id).Nodup) :
    ((findMatches expenses sales dateToleranceDays autoMatchThreshold matchStrategy).map
        fun m => m.expenseId).Nodup ∧
    (findMatches expenses sales dateToleranceDays autoMatchThreshold matchStrategy).length ≤
      expenses.length ∧
    ∀ s1 s2 : Transaction, s1.status = Status.pending → s2.status = Status.pending →
      (saleAfter (findMatches expenses sales dateToleranceDays autoMatchThreshold matchStrategy)
        s1).status = Status.matched →
      (saleAfter (findMatches expenses sales dateToleranceDays autoMatchThreshold matchStrategy)
        s2).status = Status.matched →
      (saleAfter (findMatches expenses sales dateToleranceDays autoMatchThreshold matchStrategy)
          s1).matched_to_expense_id =
        (saleAfter (findMatches expenses sales dateToleranceDays autoMatchThreshold matchStrategy)
          s2).matched_to_expense_id →
      s1.id = s2.id := by
  have hsub := findMatches_expenseIds_sublist expenses sales dateToleranceDays
    autoMatchThreshold matchStrategy
  have hnd := List.Nodup.sublist hsub hE
  refine ⟨hnd, ?_, ?_⟩
  · have := hsub.length_le
    simpa using this
  · intro s1 s2 hp1 hp2 hm1 hm2 hlink
    rcases saleAfter_cases (findMatches expenses sales dateToleranceDays autoMatchThreshold
        matchStrategy) s1 with ⟨-, h1⟩ | ⟨m1, hm1mem, hid1, h1⟩
    · rw [h1, hp1] at hm1; cases hm1
    rcases saleAfter_cases (findMatches expenses sales dateToleranceDays autoMatchThreshold
        matchStrategy) s2 with ⟨-, h2⟩ | ⟨m2, hm2mem, hid2, h2⟩
    · rw [h2, hp2] at hm2; cases hm2
    rw [h1, h2] at hlink
    simp only [Option.some.injEq] at hlink
    have : m1 = m2 := eq_of_nodup_map (fun m => m.expenseId) _ hnd m1 m2 hm1mem hm2mem hlink
    rw [← hid1, ← hid2, this]

/-- C23 at the expenses `A` and `B` and the sale `S` of the example store: one match. -/
theorem findMatches_one_per_expense_witness :
    (Examples.uncontested.expenses.map fun e => e.id).Nodup ∧
    ((findMatches Examples.uncontested.expenses Examples.uncontested.sales 7 90
      "amount_and_date").map fun m => m.expenseId).Nodup ∧
    (findMatches Examples.uncontested.expenses Examples.uncontested.sales 7 90
      "amount_and_date").length ≤ Examples.uncontested.expenses.length := by
  have h : (Examples.uncontested.expenses.map fun e => e.id).Nodup := by decide
  exact ⟨h,
    (findMatches_one_per_expense Examples.uncontested.expenses Examples.uncontested.sales 7 90
      "amount_and_date" h).1,
    (findMatches_one_per_expense Examples.uncontested.expenses Examples.uncontested.sales 7 90
      "amount_and_date" h).2.1⟩

end AutoMatch

namespace Handler

/-! ## Configuration -/

theorem serve_user (user : String) (settings : Option Settings) (st : AutoMatch.Store) :
    serve (some user) settings st =
      ((AutoMatch.run st (dateToleranceDays settings) (autoMatchThreshold settings)
          (matchStrategy settings)).1,
        Response.success (AutoMatch.run st (dateToleranceDays settings)
          (autoMatchThreshold settings) (matchStrategy settings)).2) := rfl

theorem findMatches_amount_and_date_above_90 (expenses sales : List Transaction) (tol thr : ℚ)
    (h : 90 < thr) : AutoMatch.findMatches expenses sales tol thr "amount_and_date" = [] := by
  rw [AutoMatch.findMatches_eq_nil]
  intro e _
  rw [AutoMatch.potentialMatches_eq_nil]
  intro s _ v hv
  rw [calculateMatchConfidence_amount_and_date_eq] at hv
  simp only [Option.some.injEq] at hv
  have ha := amountContribution_range e s
  have hd := dateContribution_range e s tol
  linarith

/-- C29: the score is at most 70 under `amount_only` and at most 90 under `amount_and_date`;
hence under `amount_and_date` a run with a threshold above 90 emits no match for any pools, and so
does a run with the default configuration (no settings row: `amount_and_date`, threshold 95),
which answers with an empty match list and leaves the store unchanged. -/
theorem strategy_caps_score (expense sale : Transaction) (tolerance : ℚ) :
    (∀ v, calculateMatchConfidence expense sale tolerance "amount_only" = some v →
      v ≤ 70) ∧
    (∀ v, calculateMatchConfidence expense sale tolerance "amount_and_date" = some v →
      v ≤ 90) ∧
    (∀ (expenses sales : List Transaction) (threshold : ℚ), 90 < threshold →
      AutoMatch.findMatches expenses sales tolerance threshold
        "amount_and_date" = []) ∧
    (∀ (user : String) (st : AutoMatch.Store),
      serve (some user) none st =
        (st, Response.success ⟨0, (AutoMatch.pendingRows st.expenses).length,
          (AutoMatch.pendingRows st.sales).length, []⟩)) := by
  have ha := amountContribution_range expense sale
  have hd := dateContribution_range expense sale tolerance
  refine ⟨?_, ?_, ?_, ?_⟩
  · intro v hv
    rw [calculateMatchConfidence_amount_only_eq _ _ _ _ (by decide) (by decide)] at hv
    simp only [Option.some.injEq] at hv
    linarith
  · intro v hv
    rw [calculateMatchConfidence_amount_and_date_eq] at hv
    simp only [Option.some.injEq] at hv
    linarith
  · intro expenses sales thr h
    exact findMatches_amount_and_date_above_90 expenses sales tolerance thr h
  · intro user st
    have hfind : AutoMatch.findMatches (AutoMatch.pendingRows st.expenses)
        (AutoMatch.pendingRows st.sales) 7 95 "amount_and_date" = [] :=
      findMatches_amount_and_date_above_90 _ _ 7 95 (by norm_num)
    have h1 : dateToleranceDays none = 7 := rfl
    have h2 : autoMatchThreshold none = 95 := rfl
    have h3 : matchStrategy none = "amount_and_date" := rfl
    rw [serve_user, h1, h2, h3, AutoMatch.run_fst, AutoMatch.run_snd, hfind]
    have he : AutoMatch.expenseAfter [] = id := rfl
    have hs : AutoMatch.saleAfter [] = id := rfl
    simp [he, hs]

/-- C29 at the threshold 95: no match for the pools of the example store. -/
theorem strategy_caps_score_witness :
    (90 : ℚ) < 95 ∧
    AutoMatch.findMatches Examples.uncontested.expenses Examples.uncontested.sales 7 95
      "amount_and_date" = [] :=
  ⟨by norm_num, (strategy_caps_score (Examples.row "A" 19783 100 none)
    (Examples.row "S" 19783 100 none) 7).2.2.1 _ _ 95 (by norm_num)⟩

/-- C24, refuted as stated: a settings row with `date_tolerance_days = 0` yields the tolerance 7 of
the default, not the stored 0. -/
theorem dateToleranceDays_stored_zero :
    dateToleranceDays (some ⟨some 0, some 95, some "amount_and_date"⟩) = 7 := by
  simp [dateToleranceDays]

/-- C24, amended: each of the three values is the stored one when the settings row supplies a
value that is not falsy (a number other than 0, a string other than the empty one); it is the
default 7, 95 or `amount_and_date` when there is no settings row, when the column is null, and
also when the stored number is 0 or the stored string is empty.  The run is carried out with these
values. -/
theorem configuration_or_default (settings : Option Settings) :
    (∀ s v, settings = some s → s.date_tolerance_days = some v → v ≠ 0 →
      dateToleranceDays settings = v) ∧
    (∀ s v, settings = some s → s.auto_match_threshold = some v → v ≠ 0 →
      autoMatchThreshold settings = v) ∧
    (∀ s v, settings = some s → s.match_strategy = some v → v ≠ "" →
      matchStrategy settings = v) ∧
    ((settings = none ∨ ∃ s, settings = some s ∧
        (s.date_tolerance_days = none ∨ s.date_tolerance_days = some 0)) →
      dateToleranceDays settings = 7) ∧
    ((settings = none ∨ ∃ s, settings = some s ∧
        (s.auto_match_threshold = none ∨ s.auto_match_threshold = some 0)) →
      autoMatchThreshold settings = 95) ∧
    ((settings = none ∨ ∃ s, settings = some s ∧
        (s.match_strategy = none ∨ s.match_strategy = some "")) →
      matchStrategy settings = "amount_and_date") ∧
    (∀ (user : String) (st : AutoMatch.Store),
      serve (some user) settings st =
        ((AutoMatch.run st (dateToleranceDays settings) (autoMatchThreshold settings)
            (matchStrategy settings)).1,
          Response.success (AutoMatch.run st (dateToleranceDays settings)
            (autoMatchThreshold settings) (matchStrategy settings)).2)) := by
  refine ⟨?_, ?_, ?_, ?_, ?_, ?_, fun user st => serve_user user settings st⟩
  · rintro s v rfl hv hne
    simp [dateToleranceDays, hv, hne]
  · rintro s v rfl hv hne
    simp [autoMatchThreshold, hv, hne]
  · rintro s v rfl hv hne
    simp [matchStrategy, hv, hne]
  · rintro (rfl | ⟨s, rfl, h | h⟩)
    · rfl
    · simp [dateToleranceDays, h]
    · simp [dateToleranceDays, h]
  · rintro (rfl | ⟨s, rfl, h | h⟩)
    · rfl
    · simp [autoMatchThreshold, h]
    · simp [autoMatchThreshold, h]
  · rintro (rfl | ⟨s, rfl, h | h⟩)
    · rfl
    · simp [matchStrategy, h]
    · simp [matchStrategy, h]

/-- C24 amended, at a settings row with tolerance 3, threshold 80 and strategy `fuzzy_match`. -/
theorem configuration_or_default_witness :
    (3 : ℚ) ≠ 0 ∧ (80 : ℚ) ≠ 0 ∧ ("fuzzy_match" : String) ≠ "" ∧
    dateToleranceDays (some ⟨some 3, some 80, some "fuzzy_match"⟩) = 3 ∧
    autoMatchThreshold (some ⟨some 3, some 80, some "fuzzy_match"⟩) = 80 ∧
    matchStrategy (some ⟨some 3, some 80, some "fuzzy_match"⟩) = "fuzzy_match" :=
  ⟨by norm_num, by norm_num, by decide,
    (configuration_or_default (some ⟨some 3, some 80, some "fuzzy_match"⟩)).1 _ 3 rfl rfl
      (by norm_num),
    (configuration_or_default (some ⟨some 3, some 80, some "fuzzy_match"⟩)).2.1 _ 80 rfl rfl
      (by norm_num),
    (configuration_or_default (some ⟨some 3, some 80, some "fuzzy_match"⟩)).2.2.1 _
      "fuzzy_match" rfl rfl (by decide)⟩

theorem score_same_day_250_100_any (a b : String) (tol : ℚ) :
    calculateMatchConfidence (Examples.row a 19783 250 none) (Examples.row b 19783 100 none) tol
      "amount_and_date" = some 20 := by
  rw [calculateMatchConfidence_amount_and_date_eq]
  norm_num [amountContribution, dateContribution, daysDiff, Examples.row]

theorem findMatches_uncontested_of (tol thr : ℚ) (h1 : 20 < thr) (h2 : thr ≤ 90) :
    AutoMatch.findMatches (AutoMatch.pendingRows Examples.uncontested.expenses)
      (AutoMatch.pendingRows Examples.uncontested.sales) tol thr "amount_and_date" =
      [⟨"A", "S", some 90, ["Exact amount match", "Same date"]⟩] := by
  have hE : AutoMatch.pendingRows Examples.uncontested.expenses =
      [Examples.row "A" 19783 100 none, Examples.row "B" 19783 250 none] := rfl
  have hS : AutoMatch.pendingRows Examples.uncontested.sales =
      [Examples.row "S" 19783 100 none] := rfl
  have hr : AutoMatch.reachesThreshold thr ⟨Examples.row "S" 19783 100 none, some 90⟩
      = true := by
    simp [AutoMatch.reachesThreshold, h2]
  have hr2 : ¬ AutoMatch.reachesThreshold thr ⟨Examples.row "S" 19783 100 none, some 20⟩
      = true := by
    simp only [AutoMatch.reachesThreshold, decide_eq_true_eq]
    exact not_le.mpr h1
  rw [hE, hS, AutoMatch.findMatches_cons, AutoMatch.findMatches_cons,
    AutoMatch.findMatches_nil, AutoMatch.selectFor_nil_eq, AutoMatch.selectFor_nil_eq,
    AutoMatch.potentialMatches_singleton, AutoMatch.potentialMatches_singleton,
    score_exact_pair (Examples.row "A" 19783 100 none) (Examples.row "S" 19783 100 none) tol
      rfl rfl,
    score_same_day_250_100_any, if_pos hr, if_neg hr2]
  simp only [getMatchReasons_exact_pair (Examples.row "A" 19783 100 none)
    (Examples.row "S" 19783 100 none) tol rfl rfl]
  rfl

theorem serve_out_of_range_example :
    serve (some "user") (some ⟨some (-1), some 40, some "amount_and_date"⟩)
      Examples.uncontested =
      (⟨[{ Examples.row "A" 19783 100 none with
            status := Status.matched, matched_to_sale_id := some "S" },
          Examples.row "B" 19783 250 none],
        [{ Examples.row "S" 19783 100 none with
            status := Status.matched, matched_to_expense_id := some "A" }]⟩,
      Response.success
        ⟨1, 2, 1, [⟨"A", "S", some 90, ["Exact amount match", "Same date"]⟩]⟩) := by
  have h1 : dateToleranceDays (some ⟨some (-1), some 40, some "amount_and_date"⟩) = -1 := by
    simp [dateToleranceDays]
  have h2 : autoMatchThreshold (some ⟨some (-1), some 40, some "amount_and_date"⟩) = 40 := by
    simp [autoMatchThreshold]
  have h3 : matchStrategy (some ⟨some (-1), some 40, some "amount_and_date"⟩) =
      "amount_and_date" := by
    simp [matchStrategy]
  have hf := findMatches_uncontested_of (-1) 40 (by norm_num) (by norm_num)
  rw [serve_user, h1, h2, h3, AutoMatch.run_fst, AutoMatch.run_snd, hf]
  rfl

/-- A request that gets as far as the selection is handled as `serve` handles it. -/
theorem handle_eq_serve (req : Request) (st : AutoMatch.Store) (user : String)
    (hm : req.method ≠ "OPTIONS") (ha : req.authThrows = false) (hu : req.user = some user)
    (hq : req.queryThrows = false) (he : req.expensesAnswered = true)
    (hs : req.salesAnswered = true) :
    handle req st =
      ((serve (some user) req.settings st).1,
        Answer.json (serve (some user) req.settings st).2) := by
  simp [handle, hm, ha, hu, hq, he, hs, serve]

/-- C25, refuted as stated: a request of a user whose settings row holds the tolerance -1 and
the threshold 40, both out of range, is not rejected.  The handler runs with these values: it
answers with the summary of a run that matches the expense `A` with the sale `S`, and both rows
are rewritten. -/
theorem handle_accepts_out_of_range_configuration :
    dateToleranceDays Examples.outOfRangeRequest.settings = -1 ∧
    autoMatchThreshold Examples.outOfRangeRequest.settings = 40 ∧
    handle Examples.outOfRangeRequest Examples.uncontested =
      (⟨[{ Examples.row "A" 19783 100 none with
            status := Status.matched, matched_to_sale_id := some "S" },
          Examples.row "B" 19783 250 none],
        [{ Examples.row "S" 19783 100 none with
            status := Status.matched, matched_to_expense_id := some "A" }]⟩,
      Answer.json (Response.success
        ⟨1, 2, 1, [⟨"A", "S", some 90, ["Exact amount match", "Same date"]⟩]⟩)) := by
  refine ⟨by simp [dateToleranceDays, Examples.outOfRangeRequest],
    by simp [autoMatchThreshold, Examples.outOfRangeRequest], ?_⟩
  rw [handle_eq_serve Examples.outOfRangeRequest _ "user" (by decide) rfl rfl rfl rfl rfl]
  have hset : Examples.outOfRangeRequest.settings =
      some ⟨some (-1), some 40, some "amount_and_date"⟩ := rfl
  rw [hset, serve_out_of_range_example]

/-- C25, amended: the handler does not look at the range of the configuration.  A request that
gets as far as the selection (its method is not `OPTIONS`, nothing throws, the token has a user,
both queries for pending rows answer with data) is answered, for every settings row, in range or
not, with the summary of the run under the values of `dateToleranceDays`, `autoMatchThreshold`
and `matchStrategy`, and the store is the one after that run. -/
theorem handle_runs_every_configuration (req : Request) (st : AutoMatch.Store) (user : String)
    (hm : req.method ≠ "OPTIONS") (ha : req.authThrows = false) (hu : req.user = some user)
    (hq : req.queryThrows = false) (he : req.expensesAnswered = true)
    (hs : req.salesAnswered = true) :
    handle req st =
      ((AutoMatch.run st (dateToleranceDays req.settings) (autoMatchThreshold req.settings)
          (matchStrategy req.settings)).1,
        Answer.json (Response.success
          (AutoMatch.run st (dateToleranceDays req.settings) (autoMatchThreshold req.settings)
            (matchStrategy req.settings)).2)) := by
  rw [handle_eq_serve req st user hm ha hu hq he hs, serve_user]

/-- C25 amended, at the request with the stored tolerance -1 and the stored threshold 40 on the
store of the expenses `A` (100) and `B` (250) and the sale `S` (100). -/
theorem handle_runs_every_configuration_witness :
    Examples.outOfRangeRequest.method ≠ "OPTIONS" ∧
    Examples.outOfRangeRequest.authThrows = false ∧
    Examples.outOfRangeRequest.user = some "user" ∧
    Examples.outOfRangeRequest.queryThrows = false ∧
    Examples.outOfRangeRequest.expensesAnswered = true ∧
    Examples.outOfRangeRequest.salesAnswered = true ∧
    handle Examples.outOfRangeRequest Examples.uncontested =
      ((AutoMatch.run Examples.uncontested
          (dateToleranceDays Examples.outOfRangeRequest.settings)
          (autoMatchThreshold Examples.outOfRangeRequest.settings)
          (matchStrategy Examples.outOfRangeRequest.settings)).1,
        Answer.json (Response.success
          (AutoMatch.run Examples.uncontested
            (dateToleranceDays Examples.outOfRangeRequest.settings)
            (autoMatchThreshold Examples.outOfRangeRequest.settings)
            (matchStrategy Examples.outOfRangeRequest.settings)).2)) :=
  ⟨by decide, rfl, rfl, rfl, rfl, rfl,
    handle_runs_every_configuration Examples.outOfRangeRequest Examples.uncontested "user"
      (by decide) rfl rfl rfl rfl rfl⟩

end Handler

namespace AutoMatch

/-! ## Commit loop with refused writes -/

theorem foldl_applyMatchWith_count (written : MatchResult → Bool × Bool) (ms : List MatchResult)
    (st : Store) (n : Nat) : (ms.foldl (applyMatchWith written) (st, n)).2 = n + ms.length := by
  induction ms generalizing st n with
  | nil => rfl
  | cons m ms ih =>
    rw [List.foldl_cons, applyMatchWith, ih, List.length_cons]
    omega

theorem applyMatchesWith_count (written : MatchResult → Bool × Bool) (st : Store)
    (ms : List MatchResult) : (applyMatchesWith written st ms).2 = ms.length := by
  unfold applyMatchesWith
  rw [foldl_applyMatchWith_count, Nat.zero_add]

theorem applyMatchesWith_all_written (st : Store) (ms : List MatchResult) :
    applyMatchesWith (fun _ => (true, true)) st ms = applyMatches st ms := by
  unfold applyMatchesWith applyMatches
  congr 1

/-- C26, at the failing input: the run on the example store selects the pairing `A`-`S`.  When
the store refuses both writes of the pairing the store is unchanged, and when it refuses the write
to `sales` only the expense `A` is rewritten; in both cases `matchedCount` is 1. -/
theorem applyMatchesWith_counts_refused_writes :
    findMatches (pendingRows Examples.uncontested.expenses)
        (pendingRows Examples.uncontested.sales) 7 90 "amount_and_date" =
      [⟨"A", "S", some 90, ["Exact amount match", "Same date"]⟩] ∧
    applyMatchesWith (fun _ => (false, false)) Examples.uncontested
        [⟨"A", "S", some 90, ["Exact amount match", "Same date"]⟩] =
      (Examples.uncontested, 1) ∧
    applyMatchesWith (fun _ => (true, false)) Examples.uncontested
        [⟨"A", "S", some 90, ["Exact amount match", "Same date"]⟩] =
      (⟨[{ Examples.row "A" 19783 100 none with
              status := Status.matched, matched_to_sale_id := some "S" },
            Examples.row "B" 19783 250 none],
          [Examples.row "S" 19783 100 none]⟩, 1) :=
  ⟨findMatches_uncontested, rfl, rfl⟩

end AutoMatch

/-! ## Reasons -/

theorem within_ne_exact (n : Int) (suffix : String) :
    "Within " ++ toString n ++ " day" ++ suffix ≠ "Exact amount match" := by
  intro h
  have := congrArg (fun s : String => s.data.head?) h
  simp [String.data_append] at this

theorem within_ne_same (n : Int) (suffix : String) :
    "Within " ++ toString n ++ " day" ++ suffix ≠ "Same date" := by
  intro h
  have := congrArg (fun s : String => s.data.head?) h
  simp [String.data_append] at this

theorem getMatchReasons_eq (expense sale : Transaction) (tol : ℚ) :
    getMatchReasons expense sale tol =
      (if expense.amount = sale.amount then ["Exact amount match"] else []) ++
      (if daysDiff expense sale = 0 then ["Same date"]
        else if daysDiff expense sale ≤ tol then
          ["Within " ++ toString ⌊daysDiff expense sale + 1 / 2⌋ ++ " day" ++
            (if daysDiff expense sale > 1 then "s" else "")]
        else []) := by
  unfold getMatchReasons
  split_ifs <;> simp

theorem exact_mem_getMatchReasons (expense sale : Transaction) (tol : ℚ) :
    "Exact amount match" ∈ getMatchReasons expense sale tol ↔ expense.amount = sale.amount := by
  rw [getMatchReasons_eq]
  have hne := within_ne_exact ⌊daysDiff expense sale + 1 / 2⌋
    (if daysDiff expense sale > 1 then "s" else "")
  generalize "Within " ++ toString ⌊daysDiff expense sale + 1 / 2⌋ ++ " day" ++
    (if daysDiff expense sale > 1 then "s" else "") = w at hne ⊢
  have hse : ("Exact amount match" : String) ≠ "Same date" := by decide
  by_cases ha : expense.amount = sale.amount
  · simp [ha]
  · by_cases hd : daysDiff expense sale = 0
    · simp [ha, hd]
    · by_cases ht : daysDiff expense sale ≤ tol
      · simp [ha, hd, ht, hne.symm]
      · simp [ha, hd, ht]

theorem same_date_mem_getMatchReasons (expense sale : Transaction) (tol : ℚ) :
    "Same date" ∈ getMatchReasons expense sale tol ↔ daysDiff expense sale = 0 := by
  rw [getMatchReasons_eq]
  have hne := within_ne_same ⌊daysDiff expense sale + 1 / 2⌋
    (if daysDiff expense sale > 1 then "s" else "")
  generalize "Within " ++ toString ⌊daysDiff expense sale + 1 / 2⌋ ++ " day" ++
    (if daysDiff expense sale > 1 then "s" else "") = w at hne ⊢
  by_cases ha : expense.amount = sale.amount <;> by_cases hd : daysDiff expense sale = 0 <;>
    by_cases ht : daysDiff expense sale ≤ tol <;> simp [ha, hd, ht, hne.symm]

/-- The reasons hold a date note, an entry other than "Exact amount match", exactly when the
gap is 0 or at most the tolerance. -/
theorem date_note_mem_getMatchReasons (expense sale : Transaction) (tol : ℚ) :
    (∃ note ∈ getMatchReasons expense sale tol, note ≠ "Exact amount match") ↔
      daysDiff expense sale = 0 ∨ daysDiff expense sale ≤ tol := by
  rw [getMatchReasons_eq]
  have hne := within_ne_exact ⌊daysDiff expense sale + 1 / 2⌋
    (if daysDiff expense sale > 1 then "s" else "")
  generalize "Within " ++ toString ⌊daysDiff expense sale + 1 / 2⌋ ++ " day" ++
    (if daysDiff expense sale > 1 then "s" else "") = w at hne ⊢
  by_cases ha : expense.amount = sale.amount <;> by_cases hd : daysDiff expense sale = 0 <;>
    by_cases ht : daysDiff expense sale ≤ tol <;> simp [ha, hd, ht, hne]

theorem dateContribution_ne_zero_iff (expense sale : Transaction) (tol : ℚ) (h1 : 1 ≤ tol) :
    dateContribution expense sale tol ≠ 0 ↔
      daysDiff expense sale = 0 ∨ daysDiff expense sale ≤ tol := by
  unfold dateContribution
  by_cases hd : daysDiff expense sale = 0
  · simp [hd]
  · by_cases ht : daysDiff expense sale ≤ tol
    · simp only [hd, ht, if_false, if_true, or_true, iff_true]
      split_ifs <;> norm_num
    · have h2 : ¬ daysDiff expense sale ≤ 1 := fun h => ht (le_trans h h1)
      simp [hd, ht, h2]

namespace AutoMatch

theorem mem_findMatches_eq (es sales : List Transaction) (tol thr : ℚ) (strat : String)
    (m : MatchResult) (hm : m ∈ findMatches es sales tol thr strat) :
    ∃ e ∈ es, ∃ s ∈ sales,
      m = ⟨e.id, s.id, calculateMatchConfidence e s tol strat, getMatchReasons e s tol⟩ := by
  induction es with
  | nil => simp [findMatches_nil] at hm
  | cons e es ih =>
    rw [findMatches_cons, List.mem_append, selectFor_nil_eq] at hm
    rcases hm with hm | hm
    · cases h : potentialMatches e sales tol thr strat with
      | nil => rw [h] at hm; simp at hm
      | cons best rest =>
        rw [h] at hm
        simp only [List.mem_singleton] at hm
        have hb : best ∈ potentialMatches e sales tol thr strat := by
          rw [h]; exact List.mem_cons_self _ _
        unfold potentialMatches at hb
        rw [List.mem_insertionSort] at hb
        obtain ⟨s, hs, v, hv, -, rfl⟩ := (mem_candidates e sales tol thr strat best).mp hb
        exact ⟨e, List.mem_cons_self _ _, s, hs, by rw [hm, hv]⟩
    · obtain ⟨e', he', rest⟩ := ih hm
      exact ⟨e', List.mem_cons_of_mem _ he', rest⟩

/-- C28, refuted as stated: under `amount_only` with threshold 60 the pair of equal amounts of the
same day is matched with confidence 70, the amount contribution alone; the date term adds
nothing, and the reasons still hold the note "Same date". -/
theorem findMatches_note_without_date_term :
    findMatches [Examples.row "A" 19783 100 none] [Examples.row "S" 19783 100 none] 7 60
      "amount_only" = [⟨"A", "S", some 70, ["Exact amount match", "Same date"]⟩] ∧
    amountContribution (Examples.row "A" 19783 100 none) (Examples.row "S" 19783 100 none)
      = 70 := by
  have ha := amountContribution_of_eq (Examples.row "A" 19783 100 none)
    (Examples.row "S" 19783 100 none) rfl
  have hs : calculateMatchConfidence (Examples.row "A" 19783 100 none)
      (Examples.row "S" 19783 100 none) 7 "amount_only" = some 70 := by
    rw [calculateMatchConfidence_amount_only_eq _ _ _ _ (by decide) (by decide), ha]
  have hr : reachesThreshold 60 ⟨Examples.row "S" 19783 100 none, some 70⟩ = true := by
    simp only [reachesThreshold, decide_eq_true_eq]; norm_num
  refine ⟨?_, ha⟩
  rw [findMatches_cons, findMatches_nil, selectFor_nil_eq, potentialMatches_singleton, hs,
    if_pos hr]
  simp only [getMatchReasons_exact_pair (Examples.row "A" 19783 100 none)
    (Examples.row "S" 19783 100 none) 7 rfl rfl]
  rfl

/-- C28, amended: every match of a run carries the reasons of its expense and its sale under the
tolerance, which are built without the strategy.  The list holds "Exact amount match" iff the
two amounts are equal, "Same date" iff the gap is 0, and a date note (an entry other than
"Exact amount match") iff the gap is 0 or at most the tolerance; for a tolerance of at least
one day that is exactly when the date contribution of the pair is not 0. -/
theorem findMatches_reasons (expenses sales : List Transaction)
    (dateToleranceDays autoMatchThreshold : ℚ) (matchStrategy : String) (m : MatchResult)
    (hm : m ∈ findMatches expenses sales dateToleranceDays autoMatchThreshold matchStrategy) :
    ∃ e ∈ expenses, ∃ s ∈ sales,
      m.expenseId = e.id ∧ m.saleId = s.id ∧
      m.reasons = getMatchReasons e s dateToleranceDays ∧
      ("Exact amount match" ∈ m.reasons ↔ e.amount = s.amount) ∧
      ("Same date" ∈ m.reasons ↔ daysDiff e s = 0) ∧
      ((∃ note ∈ m.reasons, note ≠ "Exact amount match") ↔
        daysDiff e s = 0 ∨ daysDiff e s ≤ dateToleranceDays) ∧
      (1 ≤ dateToleranceDays →
        ((∃ note ∈ m.reasons, note ≠ "Exact amount match") ↔
          dateContribution e s dateToleranceDays ≠ 0)) := by
  obtain ⟨e, he, s, hs, rfl⟩ := mem_findMatches_eq _ _ _ _ _ m hm
  refine ⟨e, he, s, hs, rfl, rfl, rfl, exact_mem_getMatchReasons e s _,
    same_date_mem_getMatchReasons e s _, date_note_mem_getMatchReasons e s _, ?_⟩
  intro h1
  rw [dateContribution_ne_zero_iff e s _ h1]
  exact date_note_mem_getMatchReasons e s _

/-- C28 amended, at the match of the example store under `amount_and_date`. -/
theorem findMatches_reasons_witness :
    (⟨"A", "S", some 90, ["Exact amount match", "Same date"]⟩ : MatchResult) ∈
      findMatches (pendingRows Examples.uncontested.expenses)
        (pendingRows Examples.uncontested.sales) 7 90 "amount_and_date" ∧
    ∃ e ∈ pendingRows Examples.uncontested.expenses,
      ∃ s ∈ pendingRows Examples.uncontested.sales,
        ("A" : String) = e.id ∧ ("S" : String) = s.id ∧
        ["Exact amount match", "Same date"] = getMatchReasons e s 7 := by
  have hm : (⟨"A", "S", some 90, ["Exact amount match", "Same date"]⟩ : MatchResult) ∈
      findMatches (pendingRows Examples.uncontested.expenses)
        (pendingRows Examples.uncontested.sales) 7 90 "amount_and_date" := by
    rw [findMatches_uncontested]
    exact List.mem_singleton.mpr rfl
  obtain ⟨e, he, s, hs, h1, h2, h3, -⟩ := findMatches_reasons _ _ 7 90 "amount_and_date" _ hm
  exact ⟨hm, e, he, s, hs, h1, h2, h3⟩

end AutoMatch

/-! ## Statuses after an operation -/

theorem mem_updateExpense_pending (rows : List Transaction) (expenseId saleId : String)
    (r : Transaction) (hr : r ∈ AutoMatch.updateExpense rows expenseId saleId)
    (hp : r.status = Status.pending) : r ∈ rows := by
  unfold AutoMatch.updateExpense at hr
  obtain ⟨r0, hr0, rfl⟩ := List.mem_map.mp hr
  by_cases h : r0.id = expenseId
  · rw [if_pos h] at hp; cases hp
  · rw [if_neg h]; exact hr0

theorem mem_updateSale_pending (rows : List Transaction) (saleId expenseId : String)
    (r : Transaction) (hr : r ∈ AutoMatch.updateSale rows saleId expenseId)
    (hp : r.status = Status.pending) : r ∈ rows := by
  unfold AutoMatch.updateSale at hr
  obtain ⟨r0, hr0, rfl⟩ := List.mem_map.mp hr
  by_cases h : r0.id = saleId
  · rw [if_pos h] at hp; cases hp
  · rw [if_neg h]; exact hr0

theorem mem_setIgnored_pending (rows : List Transaction) (transactionId : String)
    (r : Transaction) (hr : r ∈ DataStore.setIgnored rows transactionId)
    (hp : r.status = Status.pending) : r ∈ rows := by
  unfold DataStore.setIgnored at hr
  obtain ⟨r0, hr0, rfl⟩ := List.mem_map.mp hr
  by_cases h : r0.id = transactionId
  · rw [if_pos h] at hp; cases hp
  · rw [if_neg h]; exact hr0

theorem confirmMatch_pending_mem (st : AutoMatch.Store) (expenseId saleId : String)
    (expenseError saleError : Option String) :
    (∀ r ∈ (DataStore.confirmMatch st expenseId saleId expenseError saleError).1.expenses,
      r.status = Status.pending → r ∈ st.expenses) ∧
    (∀ r ∈ (DataStore.confirmMatch st expenseId saleId expenseError saleError).1.sales,
      r.status = Status.pending → r ∈ st.sales) := by
  cases expenseError with
  | some e => exact ⟨fun r hr _ => hr, fun r hr _ => hr⟩
  | none =>
    cases saleError with
    | some e =>
      exact ⟨fun r hr hp => mem_updateExpense_pending _ _ _ r hr hp, fun r hr _ => hr⟩
    | none =>
      exact ⟨fun r hr hp => mem_updateExpense_pending _ _ _ r hr hp,
        fun r hr hp => mem_updateSale_pending _ _ _ r hr hp⟩

theorem ignoreMatch_pending_mem (st : AutoMatch.Store) (transactionId type : String)
    (error : Option String) :
    (∀ r ∈ (DataStore.ignoreMatch st transactionId type error).1.expenses,
      r.status = Status.pending → r ∈ st.expenses) ∧
    (∀ r ∈ (DataStore.ignoreMatch st transactionId type error).1.sales,
      r.status = Status.pending → r ∈ st.sales) := by
  cases error with
  | some e => exact ⟨fun r hr _ => hr, fun r hr _ => hr⟩
  | none =>
    unfold DataStore.ignoreMatch
    by_cases ht : type = "expense"
    · simp only [ht, if_true]
      exact ⟨fun r hr hp => mem_setIgnored_pending _ _ r hr hp, fun r hr _ => hr⟩
    · simp only [ht, if_false]
      exact ⟨fun r hr _ => hr, fun r hr hp => mem_setIgnored_pending _ _ r hr hp⟩

namespace AutoMatch

theorem run_pending_mem (st : Store) (tol thr : ℚ) (strat : String) :
    (∀ r ∈ (run st tol thr strat).1.expenses, r.status = Status.pending → r ∈ st.expenses) ∧
    (∀ r ∈ (run st tol thr strat).1.sales, r.status = Status.pending → r ∈ st.sales) := by
  rw [run_fst]
  constructor
  · intro r hr hp
    obtain ⟨r0, hr0, rfl⟩ := List.mem_map.mp hr
    rw [(expenseAfter_pending _ r0 hp).2]
    exact hr0
  · intro r hr hp
    obtain ⟨r0, hr0, rfl⟩ := List.mem_map.mp hr
    rw [(saleAfter_pending _ r0 hp).2]
    exact hr0

/-- The commit loop of a run leaves every row that is not pending as it is, in a store whose
expenses and whose sales have pairwise distinct ids. -/
theorem run_keeps_settled_rows (st : Store) (tol thr : ℚ) (strat : String)
    (hE : (st.expenses.map fun e => e.id).Nodup) (hS : (st.sales.map fun s => s.id).Nodup) :
    (∀ r ∈ st.expenses, r.status ≠ Status.pending →
      expenseAfter (findMatches (pendingRows st.expenses) (pendingRows st.sales) tol thr strat)
        r = r) ∧
    (∀ r ∈ st.sales, r.status ≠ Status.pending →
      saleAfter (findMatches (pendingRows st.expenses) (pendingRows st.sales) tol thr strat)
        r = r) := by
  constructor
  · intro r hr hnp
    rcases expenseAfter_cases (findMatches (pendingRows st.expenses) (pendingRows st.sales)
        tol thr strat) r with ⟨-, h⟩ | ⟨m, hm, hid, -⟩
    · exact h
    · exfalso
      obtain ⟨e, he, -, -, -, hme, -⟩ := mem_findMatches _ _ _ _ _ m hm
      obtain ⟨hmem, hpend⟩ := (mem_pendingRows _ _).mp he
      have : e = r := eq_of_nodup_map (fun e => e.id) _ hE e r hmem hr (hme.symm.trans hid)
      exact hnp (this ▸ hpend)
  · intro r hr hnp
    rcases saleAfter_cases (findMatches (pendingRows st.expenses) (pendingRows st.sales)
        tol thr strat) r with ⟨-, h⟩ | ⟨m, hm, hid, -⟩
    · exact h
    · exfalso
      obtain ⟨e, -, best, rest, hpm, -, hms⟩ := mem_findMatches _ _ _ _ _ m hm
      have hb : best.sale ∈ pendingRows st.sales :=
        potentialMatches_sale_mem e _ _ _ _ best (by rw [hpm]; exact List.mem_cons_self _ _)
      obtain ⟨hmem, hpend⟩ := (mem_pendingRows _ _).mp hb
      have : best.sale = r :=
        eq_of_nodup_map (fun s => s.id) _ hS best.sale r hmem hr (hms.symm.trans hid)
      exact hnp (this ▸ hpend)

end AutoMatch

namespace DataStore

/-- C27, refuted as stated: the expense `A` is matched to the sale `S0`; `ignoreMatch` on `A` sets
its status to `ignored` (and keeps its link to `S0`). -/
theorem ignoreMatch_rewrites_matched_row :
    Examples.settled.expenses.map (fun r => (r.id, r.status, r.matched_to_sale_id)) =
      [("A", Status.matched, some "S0")] ∧
    (ignoreMatch Examples.settled "A" "expense" none).2 = none ∧
    (ignoreMatch Examples.settled "A" "expense" none).1.expenses.map
        (fun r => (r.id, r.status, r.matched_to_sale_id)) =
      [("A", Status.ignored, some "S0")] :=
  ⟨rfl, rfl, rfl⟩

/-- C27, amended: no operation sets a status back to `pending`: after `confirmMatch`, after
`ignoreMatch` and after a run, whatever the answers of the writes, every row that is pending was
there before, pending and unchanged.  The commit loop of a run leaves every matched or ignored
row as it is when the expenses and the sales have pairwise distinct ids.  (`confirmMatch` and
`ignoreMatch` write the rows they address whatever their status.) -/
theorem status_never_back_to_pending (st : AutoMatch.Store)
    (hE : (st.expenses.map fun e => e.id).Nodup) (hS : (st.sales.map fun s => s.id).Nodup) :
    (∀ (expenseId saleId : String) (expenseError saleError : Option String),
      (∀ r ∈ (confirmMatch st expenseId saleId expenseError saleError).1.expenses,
        r.status = Status.pending → r ∈ st.expenses) ∧
      (∀ r ∈ (confirmMatch st expenseId saleId expenseError saleError).1.sales,
        r.status = Status.pending → r ∈ st.sales)) ∧
    (∀ (transactionId type : String) (error : Option String),
      (∀ r ∈ (ignoreMatch st transactionId type error).1.expenses,
        r.status = Status.pending → r ∈ st.expenses) ∧
      (∀ r ∈ (ignoreMatch st transactionId type error).1.sales,
        r.status = Status.pending → r ∈ st.sales)) ∧
    (∀ (tol thr : ℚ) (strat : String),
      (∀ r ∈ (AutoMatch.run st tol thr strat).1.expenses,
        r.status = Status.pending → r ∈ st.expenses) ∧
      (∀ r ∈ (AutoMatch.run st tol thr strat).1.sales,
        r.status = Status.pending → r ∈ st.sales) ∧
      (AutoMatch.run st tol thr strat).1.expenses =
        st.expenses.map (AutoMatch.expenseAfter (AutoMatch.run st tol thr strat).2.matchList) ∧
      (AutoMatch.run st tol thr strat).1.sales =
        st.sales.map (AutoMatch.saleAfter (AutoMatch.run st tol thr strat).2.matchList) ∧
      (∀ r ∈ st.expenses, r.status ≠ Status.pending →
        AutoMatch.expenseAfter (AutoMatch.run st tol thr strat).2.matchList r = r) ∧
      (∀ r ∈ st.sales, r.status ≠ Status.pending →
        AutoMatch.saleAfter (AutoMatch.run st tol thr strat).2.matchList r = r)) := by
  refine ⟨fun a b c d => confirmMatch_pending_mem st a b c d,
    fun a b c => ignoreMatch_pending_mem st a b c, ?_⟩
  intro tol thr strat
  have hk := AutoMatch.run_keeps_settled_rows st tol thr strat hE hS
  have hp := AutoMatch.run_pending_mem st tol thr strat
  refine ⟨hp.1, hp.2, ?_, ?_, ?_, ?_⟩
  · rw [AutoMatch.run_fst, AutoMatch.run_snd]
  · rw [AutoMatch.run_fst, AutoMatch.run_snd]
  · rw [AutoMatch.run_snd]; exact hk.1
  · rw [AutoMatch.run_snd]; exact hk.2

/-- C27 amended, at the store of the matched pair `A`, `S0` and the pending sale `S`: a run leaves
the matched expense `A` as it is. -/
theorem status_never_back_to_pending_witness :
    (Examples.settled.expenses.map fun e => e.id).Nodup ∧
    (Examples.settled.sales.map fun s => s.id).Nodup ∧
    ∀ r ∈ Examples.settled.expenses, r.status ≠ Status.pending →
      AutoMatch.expenseAfter
        (AutoMatch.run Examples.settled 7 95 "amount_and_date").2.matchList r = r := by
  have hE : (Examples.settled.expenses.map fun e => e.id).Nodup := by decide
  have hS : (Examples.settled.sales.map fun s => s.id).Nodup := by decide
  exact ⟨hE, hS, ((status_never_back_to_pending Examples.settled hE hS).2.2 7 95
    "amount_and_date").2.2.2.2.1⟩

end DataStore

/-! ## The amount block in binary64 arithmetic -/

namespace Double

theorem roundHalfEven_eq (q : ℚ) (m : ℤ) (h : |q - m| < 1 / 2) : roundHalfEven q = m := by
  rw [abs_lt] at h
  unfold roundHalfEven
  by_cases hq : (m : ℚ) ≤ q
  · have hf : ⌊q⌋ = m := by
      rw [Int.floor_eq_iff]
      constructor <;> linarith
    rw [hf, if_pos (by linarith)]
  · have hf : ⌊q⌋ = m - 1 := by
      rw [Int.floor_eq_iff]
      push_cast
      constructor <;> linarith
    rw [hf]
    push_cast
    rw [if_neg (by linarith), if_pos (by linarith)]
    ring

theorem roundHalfEven_intCast (m : ℤ) : roundHalfEven (m : ℚ) = m :=
  roundHalfEven_eq _ m (by norm_num)

theorem abs_roundHalfEven_sub_le (q : ℚ) : |(roundHalfEven q : ℚ) - q| ≤ 1 / 2 := by
  have h1 := Int.floor_le q
  have h2 := Int.lt_floor_add_one q
  unfold roundHalfEven
  rw [abs_le]
  split_ifs <;> push_cast <;> constructor <;> linarith

theorem exponent_eq (x : ℚ) (e : ℤ) (h1 : (2 : ℚ) ^ e ≤ |x|) (h2 : |x| < 2 ^ (e + 1)) :
    exponent x = e := by
  have hpos : 0 < |x| := lt_of_lt_of_le (by positivity) h1
  have hb : 1 < 2 := by norm_num
  have h3 : e ≤ Int.log 2 |x| := by
    rw [← Int.zpow_le_iff_le_log hb hpos]
    exact_mod_cast h1
  have h4 : Int.log 2 |x| < e + 1 := by
    rw [← Int.lt_zpow_iff_log_lt hb hpos]
    exact_mod_cast h2
  unfold exponent
  omega

theorem exponent_spec (x : ℚ) (hx : x ≠ 0) :
    (2 : ℚ) ^ exponent x ≤ |x| ∧ |x| < 2 ^ (exponent x + 1) := by
  have hpos : 0 < |x| := abs_pos.mpr hx
  have hb : 1 < 2 := by norm_num
  constructor
  · have := Int.zpow_log_le_self hb hpos
    exact_mod_cast this
  · have := Int.lt_zpow_succ_log_self hb |x|
    exact_mod_cast this

/-- Evaluation of `round`: in the binade `e`, a multiple `m` of the unit `2 ^ (e - 52)` that is
less than half a unit away is the result. -/
theorem round_eq (x : ℚ) (e m : ℤ) (h1 : (2 : ℚ) ^ e ≤ |x|) (h2 : |x| < 2 ^ (e + 1))
    (h3 : |x / 2 ^ (e - 52) - m| < 1 / 2) : round x = m * 2 ^ (e - 52) := by
  have hx : x ≠ 0 := by
    intro h
    rw [h, abs_zero] at h1
    exact absurd h1 (not_le.mpr (by positivity))
  unfold round
  rw [if_neg hx, exponent_eq x e h1 h2, roundHalfEven_eq _ m h3]

theorem abs_round_sub_le (x : ℚ) : |round x - x| ≤ 2 ^ (exponent x - 53) := by
  unfold round
  split_ifs with hx
  · rw [hx]
    simp only [sub_self, abs_zero]
    positivity
  · have hu : (0 : ℚ) < 2 ^ (exponent x - 52) := by positivity
    have h := abs_roundHalfEven_sub_le (x / 2 ^ (exponent x - 52))
    have hrw : (roundHalfEven (x / 2 ^ (exponent x - 52)) : ℚ) * 2 ^ (exponent x - 52) - x =
        ((roundHalfEven (x / 2 ^ (exponent x - 52)) : ℚ) - x / 2 ^ (exponent x - 52)) *
          2 ^ (exponent x - 52) := by
      field_simp
    rw [hrw, abs_mul, abs_of_pos hu]
    have h53 : (2 : ℚ) ^ (exponent x - 53) = 1 / 2 * 2 ^ (exponent x - 52) := by
      rw [show exponent x - 52 = (exponent x - 53) + 1 by ring, zpow_add_one₀ (by norm_num)]
      ring
    rw [h53]
    exact mul_le_mul_of_nonneg_right h (le_of_lt hu)

/-- The relative error of `round` is at most `2 ^ (-53)`. -/
theorem abs_round_sub_le_mul (x : ℚ) : |round x - x| ≤ |x| / 2 ^ 53 := by
  by_cases hx : x = 0
  · simp [hx, round]
  · have h := abs_round_sub_le x
    have hs := (exponent_spec x hx).1
    have h53 : (2 : ℚ) ^ (exponent x - 53) = 2 ^ exponent x / 2 ^ 53 := by
      rw [zpow_sub₀ (by norm_num)]
      norm_num
    rw [h53] at h
    refine le_trans h ?_
    exact div_le_div_of_nonneg_right hs (by positivity)


/-- A number `j * 2 ^ a` with `|j| < 2 ^ 53` is a double. -/
theorem round_int_mul_zpow (j a : ℤ) (hj : |j| < 2 ^ 53) :
    round ((j : ℚ) * 2 ^ a) = (j : ℚ) * 2 ^ a := by
  by_cases hj0 : j = 0
  · simp [hj0, round]
  have hx : (j : ℚ) * 2 ^ a ≠ 0 := by
    have : (j : ℚ) ≠ 0 := by exact_mod_cast hj0
    positivity
  have hb : 1 < 2 := by norm_num
  have hpos : 0 < |(j : ℚ) * 2 ^ a| := abs_pos.mpr hx
  have habs : |(j : ℚ) * 2 ^ a| = |(j : ℚ)| * 2 ^ a := by
    rw [abs_mul, abs_of_pos (by positivity : (0 : ℚ) < 2 ^ a)]
  have hj1 : (1 : ℚ) ≤ |(j : ℚ)| := by
    have : 1 ≤ |j| := Int.one_le_abs hj0
    exact_mod_cast this
  have hj2 : |(j : ℚ)| < 2 ^ 53 := by exact_mod_cast hj
  have h2a : (0 : ℚ) < 2 ^ a := by positivity
  have hlo : a ≤ exponent ((j : ℚ) * 2 ^ a) := by
    unfold exponent
    rw [← Int.zpow_le_iff_le_log hb hpos, habs]
    push_cast
    nlinarith
  have hhi : exponent ((j : ℚ) * 2 ^ a) < a + 53 := by
    unfold exponent
    rw [← Int.lt_zpow_iff_log_lt hb hpos, habs]
    push_cast
    rw [zpow_add₀ (by norm_num : (2 : ℚ) ≠ 0)]
    have : ((2 : ℚ) ^ (53 : ℤ)) = 2 ^ 53 := by norm_num
    rw [this]
    nlinarith
  obtain ⟨n, hn⟩ : ∃ n : ℕ, (n : ℤ) = a + 52 - exponent ((j : ℚ) * 2 ^ a) :=
    ⟨(a + 52 - exponent ((j : ℚ) * 2 ^ a)).toNat, by omega⟩
  have hq : (j : ℚ) * 2 ^ a / 2 ^ (exponent ((j : ℚ) * 2 ^ a) - 52) = ((j * 2 ^ n : ℤ) : ℚ) := by
    rw [mul_div_assoc, ← zpow_sub₀ (by norm_num : (2 : ℚ) ≠ 0)]
    have : a - (exponent ((j : ℚ) * 2 ^ a) - 52) = (n : ℤ) := by omega
    rw [this, zpow_natCast]
    push_cast
    ring
  unfold round
  rw [if_neg hx, hq, roundHalfEven_intCast]
  push_cast
  rw [mul_assoc, ← zpow_natCast, ← zpow_add₀ (by norm_num : (2 : ℚ) ≠ 0)]
  congr 2
  omega

/-- A double is a multiple `k` of the unit of its binade, with `|k| < 2 ^ 53`. -/
theorem exists_int_of_round_eq (x : ℚ) (hx : round x = x) (hx0 : x ≠ 0) :
    ∃ k : ℤ, (k : ℚ) * 2 ^ (exponent x - 52) = x ∧ |(k : ℚ)| < 2 ^ 53 := by
  have hk : (roundHalfEven (x / 2 ^ (exponent x - 52)) : ℚ) * 2 ^ (exponent x - 52) = x := by
    have := hx
    unfold round at this
    rwa [if_neg hx0] at this
  refine ⟨_, hk, ?_⟩
  have hu : (0 : ℚ) < 2 ^ (exponent x - 52) := by positivity
  have h2 := (exponent_spec x hx0).2
  rw [← hk, abs_mul, abs_of_pos hu, hk] at h2
  have h53 : (2 : ℚ) ^ (exponent x + 1) = 2 ^ 53 * 2 ^ (exponent x - 52) := by
    rw [show exponent x + 1 = 53 + (exponent x - 52) by ring,
      zpow_add₀ (by norm_num : (2 : ℚ) ≠ 0)]
    norm_num
  rw [h53] at h2
  exact lt_of_mul_lt_mul_right h2 (le_of_lt hu)


/-- A double multiplied by `1 + δ` with `0 ≤ δ ≤ 2 ^ (-54)` rounds back to the double. -/
theorem round_mul_one_add (x δ : ℚ) (hx : round x = x) (hx0 : x ≠ 0) (h0 : 0 ≤ δ)
    (h1 : δ ≤ 1 / 2 ^ 54) : round (x * (1 + δ)) = x := by
  obtain ⟨k, hk, hk53⟩ := exists_int_of_round_eq x hx hx0
  obtain ⟨hlo, hhi⟩ := exponent_spec x hx0
  have hu : (0 : ℚ) < 2 ^ (exponent x - 52) := by positivity
  have hk' : |(k : ℚ)| ≤ 2 ^ 53 - 1 := by
    have h : |k| < 2 ^ 53 := by exact_mod_cast hk53
    have h' : |k| ≤ 2 ^ 53 - 1 := by omega
    exact_mod_cast h'
  have hxabs : |x| = |(k : ℚ)| * 2 ^ (exponent x - 52) := by
    rw [← hk, abs_mul, abs_of_pos hu, hk]
  have h53 : (2 : ℚ) ^ (exponent x + 1) = 2 ^ 53 * 2 ^ (exponent x - 52) := by
    rw [show exponent x + 1 = 53 + (exponent x - 52) by ring,
      zpow_add₀ (by norm_num : (2 : ℚ) ≠ 0)]
    norm_num
  have hyabs : |x * (1 + δ)| = |x| * (1 + δ) := by
    rw [abs_mul, abs_of_pos (by linarith : (0 : ℚ) < 1 + δ)]
  have hxpos : 0 < |x| := abs_pos.mpr hx0
  have hkpos : 0 ≤ |(k : ℚ)| := abs_nonneg _
  have hres := round_eq (x * (1 + δ)) (exponent x) k ?_ ?_ ?_
  · rw [hres, hk]
  · rw [hyabs]
    nlinarith
  · rw [hyabs, h53, hxabs]
    have : |(k : ℚ)| * (1 + δ) < 2 ^ 53 := by
      have h2 : |(k : ℚ)| * δ ≤ (2 ^ 53 - 1) * (1 / 2 ^ 54) := by
        apply mul_le_mul hk' h1 h0 (by norm_num)
      nlinarith
    nlinarith
  · have hq : x * (1 + δ) / 2 ^ (exponent x - 52) - k = k * δ := by
      have hgen : ∀ u : ℚ, 0 < u → (k : ℚ) * u = x → x * (1 + δ) / u - k = k * δ := by
        intro u hu0 hku
        rw [← hku]
        field_simp
        ring
      exact hgen _ hu hk
    rw [hq, abs_mul, abs_of_nonneg h0]
    have h2 : |(k : ℚ)| * δ ≤ (2 ^ 53 - 1) * (1 / 2 ^ 54) := by
      apply mul_le_mul hk' h1 h0 (by norm_num)
    have : ((2 : ℚ) ^ 53 - 1) * (1 / 2 ^ 54) < 1 / 2 := by norm_num
    linarith


/-- Two doubles `e > 0` and `s` that are at most a fifth of `e` apart: their difference is a
multiple `j` of `2 ^ (exponent e - 53)` with `|j| < 2 ^ 53`. -/
theorem exists_int_sub (e s : ℚ) (he : round e = e) (hs : round s = s) (he0 : 0 < e)
    (hd : |e - s| ≤ e / 5) :
    ∃ j : ℤ, |j| < 2 ^ 53 ∧ e - s = (j : ℚ) * 2 ^ (exponent e - 53) := by
  have hd' := abs_le.mp hd
  have hs0 : 0 < s := by linarith
  obtain ⟨k1, hk1, -⟩ := exists_int_of_round_eq e he (ne_of_gt he0)
  obtain ⟨k2, hk2, -⟩ := exists_int_of_round_eq s hs (ne_of_gt hs0)
  obtain ⟨hlo, hhi⟩ := exponent_spec e (ne_of_gt he0)
  rw [abs_of_pos he0] at hlo hhi
  have hb : 1 < 2 := by norm_num
  have hv : (0 : ℚ) < 2 ^ (exponent e - 53) := by positivity
  have hE : (2 : ℚ) ^ exponent e = 2 ^ 53 * 2 ^ (exponent e - 53) := by
    rw [show exponent e = 53 + (exponent e - 53) by ring, zpow_add₀ (by norm_num : (2 : ℚ) ≠ 0)]
    norm_num
  have hE1 : (2 : ℚ) ^ (exponent e + 1) = 2 ^ 54 * 2 ^ (exponent e - 53) := by
    rw [show exponent e + 1 = 54 + (exponent e - 53) by ring,
      zpow_add₀ (by norm_num : (2 : ℚ) ≠ 0)]
    norm_num
  have hEm : (2 : ℚ) ^ (exponent e - 1) = 2 ^ 52 * 2 ^ (exponent e - 53) := by
    rw [show exponent e - 1 = 52 + (exponent e - 53) by ring,
      zpow_add₀ (by norm_num : (2 : ℚ) ≠ 0)]
    norm_num
  have hE52 : (2 : ℚ) ^ (exponent e - 52) = 2 * 2 ^ (exponent e - 53) := by
    rw [show exponent e - 52 = 1 + (exponent e - 53) by ring,
      zpow_add₀ (by norm_num : (2 : ℚ) ≠ 0)]
    norm_num
  have hle : exponent e - 1 ≤ exponent s := by
    unfold exponent
    rw [← Int.zpow_le_iff_le_log hb (abs_pos.mpr (ne_of_gt hs0)), abs_of_pos hs0]
    push_cast
    have : (2 : ℚ) ^ (Int.log 2 |e| - 1) = 2 ^ (exponent e - 1) := rfl
    rw [this, hEm]
    rw [hE] at hlo
    nlinarith
  obtain ⟨n, hn⟩ : ∃ n : ℕ, (n : ℤ) = exponent s - exponent e + 1 :=
    ⟨(exponent s - exponent e + 1).toNat, by omega⟩
  have hS52 : (2 : ℚ) ^ (exponent s - 52) = 2 ^ n * 2 ^ (exponent e - 53) := by
    rw [show exponent s - 52 = (n : ℤ) + (exponent e - 53) by omega,
      zpow_add₀ (by norm_num : (2 : ℚ) ≠ 0), zpow_natCast]
  have hsub : e - s = ((2 * k1 - k2 * 2 ^ n : ℤ) : ℚ) * 2 ^ (exponent e - 53) := by
    calc e - s = (k1 : ℚ) * 2 ^ (exponent e - 52) - (k2 : ℚ) * 2 ^ (exponent s - 52) := by
          rw [hk1, hk2]
      _ = ((2 * k1 - k2 * 2 ^ n : ℤ) : ℚ) * 2 ^ (exponent e - 53) := by
          rw [hE52, hS52]
          push_cast
          ring
  refine ⟨2 * k1 - k2 * 2 ^ n, ?_, hsub⟩
  have habs : |((2 * k1 - k2 * 2 ^ n : ℤ) : ℚ)| * 2 ^ (exponent e - 53) ≤ e / 5 := by
    have h : |e - s| = |((2 * k1 - k2 * 2 ^ n : ℤ) : ℚ)| * 2 ^ (exponent e - 53) := by
      rw [hsub, abs_mul, abs_of_pos hv]
    rw [← h]
    exact hd
  have hlt : |((2 * k1 - k2 * 2 ^ n : ℤ) : ℚ)| < 2 ^ 53 := by
    rw [hE1] at hhi
    have h5 : |((2 * k1 - k2 * 2 ^ n : ℤ) : ℚ)| * 2 ^ (exponent e - 53) <
        2 ^ 53 * 2 ^ (exponent e - 53) := by
      nlinarith
    exact lt_of_mul_lt_mul_right h5 (le_of_lt hv)
  exact_mod_cast hlt

/-- The difference of two doubles that are at most a fifth of the first apart is a double, and
so is its absolute value: the subtraction is exact. -/
theorem round_sub_of_close (e s : ℚ) (he : round e = e) (hs : round s = s) (he0 : 0 < e)
    (hd : |e - s| ≤ e / 5) : round (e - s) = e - s ∧ round |e - s| = |e - s| := by
  obtain ⟨j, hj, hsub⟩ := exists_int_sub e s he hs he0 hd
  constructor
  · rw [hsub]
    exact round_int_mul_zpow j _ hj
  · have habs : |e - s| = ((|j| : ℤ) : ℚ) * 2 ^ (exponent e - 53) := by
      rw [hsub, abs_mul, abs_of_pos (by positivity : (0 : ℚ) < 2 ^ (exponent e - 53))]
      push_cast
      rfl
    rw [habs]
    exact round_int_mul_zpow |j| _ (by rwa [abs_abs])

theorem round_five_percent : round (5 / 100) = 1 / 20 * (1 + 1 / 2 ^ 54) := by
  rw [round_eq (5 / 100) (-5) 7205759403792794 (by norm_num [abs_of_pos])
    (by norm_num [abs_of_pos]) (by norm_num [abs_lt])]
  norm_num

theorem round_ten_percent : round (1 / 10) = 1 / 10 * (1 + 1 / 2 ^ 54) := by
  rw [round_eq (1 / 10) (-4) 7205759403792794 (by norm_num [abs_of_pos])
    (by norm_num [abs_of_pos]) (by norm_num [abs_lt])]
  norm_num

theorem round_twenty_percent : round (2 / 10) = 1 / 5 * (1 + 1 / 2 ^ 54) := by
  rw [round_eq (2 / 10) (-3) 7205759403792794 (by norm_num [abs_of_pos])
    (by norm_num [abs_of_pos]) (by norm_num [abs_lt])]
  norm_num




/-- The double nearest to 19.80. -/
theorem round_1980_expense :
    round (99 / 5) =
      5573204538870989 / 2 ^ 48 := by
  rw [round_eq (99 / 5) 4
    5573204538870989 (by norm_num [abs_of_pos, abs_of_neg])
    (by norm_num [abs_of_pos, abs_of_neg]) (by norm_num [abs_lt])]
  norm_num

/-- The double nearest to 20.79. -/
theorem round_1980_sale :
    round (2079 / 100) =
      2925932382907269 / 2 ^ 47 := by
  rw [round_eq (2079 / 100) 4
    5851864765814538 (by norm_num [abs_of_pos, abs_of_neg])
    (by norm_num [abs_of_pos, abs_of_neg]) (by norm_num [abs_lt])]
  norm_num

/-- The difference of the doubles of 19.80 and 20.79 is a double. -/
theorem round_1980_diff :
    round (5573204538870989 / 2 ^ 48 - 2925932382907269 / 2 ^ 47) =
      -278660226943549 / 2 ^ 48 := by
  rw [round_eq (5573204538870989 / 2 ^ 48 - 2925932382907269 / 2 ^ 47) (-1)
    (-8917127262193568) (by norm_num [abs_of_pos, abs_of_neg])
    (by norm_num [abs_of_pos, abs_of_neg]) (by norm_num [abs_lt])]
  norm_num

/-- The product of the double of 19.80 with the double `0.05`, rounded. -/
theorem round_1980_five :
    round (5573204538870989 / 2 ^ 48 * (1 / 20 * (1 + 1 / 2 ^ 54))) =
      8917127262193583 / 2 ^ 53 := by
  rw [round_eq (5573204538870989 / 2 ^ 48 * (1 / 20 * (1 + 1 / 2 ^ 54))) (-1)
    8917127262193583 (by norm_num [abs_of_pos, abs_of_neg])
    (by norm_num [abs_of_pos, abs_of_neg]) (by norm_num [abs_lt])]
  norm_num

/-- The product of the double of 19.80 with the double `0.1`, rounded. -/
theorem round_1980_ten :
    round (5573204538870989 / 2 ^ 48 * (1 / 10 * (1 + 1 / 2 ^ 54))) =
      8917127262193583 / 2 ^ 52 := by
  rw [round_eq (5573204538870989 / 2 ^ 48 * (1 / 10 * (1 + 1 / 2 ^ 54))) 0
    8917127262193583 (by norm_num [abs_of_pos, abs_of_neg])
    (by norm_num [abs_of_pos, abs_of_neg]) (by norm_num [abs_lt])]
  norm_num

/-- The product of the double of 19.80 with the double `0.2`, rounded. -/
theorem round_1980_twenty :
    round (5573204538870989 / 2 ^ 48 * (1 / 5 * (1 + 1 / 2 ^ 54))) =
      8917127262193583 / 2 ^ 51 := by
  rw [round_eq (5573204538870989 / 2 ^ 48 * (1 / 5 * (1 + 1 / 2 ^ 54))) 1
    8917127262193583 (by norm_num [abs_of_pos, abs_of_neg])
    (by norm_num [abs_of_pos, abs_of_neg]) (by norm_num [abs_lt])]
  norm_num

/-- The double nearest to 10.10. -/
theorem round_1010_expense :
    round (101 / 10) =
      5685794529555251 / 2 ^ 49 := by
  rw [round_eq (101 / 10) 3
    5685794529555251 (by norm_num [abs_of_pos, abs_of_neg])
    (by norm_num [abs_of_pos, abs_of_neg]) (by norm_num [abs_lt])]
  norm_num

/-- The double nearest to 11.11. -/
theorem round_1010_sale :
    round (1111 / 100) =
      781796747813847 / 2 ^ 46 := by
  rw [round_eq (1111 / 100) 3
    6254373982510776 (by norm_num [abs_of_pos, abs_of_neg])
    (by norm_num [abs_of_pos, abs_of_neg]) (by norm_num [abs_lt])]
  norm_num

/-- The difference of the doubles of 10.10 and 11.11 is a double. -/
theorem round_1010_diff :
    round (5685794529555251 / 2 ^ 49 - 781796747813847 / 2 ^ 46) =
      -568579452955525 / 2 ^ 49 := by
  rw [round_eq (5685794529555251 / 2 ^ 49 - 781796747813847 / 2 ^ 46) 0
    (-4548635623644200) (by norm_num [abs_of_pos, abs_of_neg])
    (by norm_num [abs_of_pos, abs_of_neg]) (by norm_num [abs_lt])]
  norm_num

/-- The product of the double of 10.10 with the double `0.05`, rounded. -/
theorem round_1010_five :
    round (5685794529555251 / 2 ^ 49 * (1 / 20 * (1 + 1 / 2 ^ 54))) =
      4548635623644201 / 2 ^ 53 := by
  rw [round_eq (5685794529555251 / 2 ^ 49 * (1 / 20 * (1 + 1 / 2 ^ 54))) (-1)
    4548635623644201 (by norm_num [abs_of_pos, abs_of_neg])
    (by norm_num [abs_of_pos, abs_of_neg]) (by norm_num [abs_lt])]
  norm_num

/-- The product of the double of 10.10 with the double `0.1`, rounded. -/
theorem round_1010_ten :
    round (5685794529555251 / 2 ^ 49 * (1 / 10 * (1 + 1 / 2 ^ 54))) =
      4548635623644201 / 2 ^ 52 := by
  rw [round_eq (5685794529555251 / 2 ^ 49 * (1 / 10 * (1 + 1 / 2 ^ 54))) 0
    4548635623644201 (by norm_num [abs_of_pos, abs_of_neg])
    (by norm_num [abs_of_pos, abs_of_neg]) (by norm_num [abs_lt])]
  norm_num

/-- The product of the double of 10.10 with the double `0.2`, rounded. -/
theorem round_1010_twenty :
    round (5685794529555251 / 2 ^ 49 * (1 / 5 * (1 + 1 / 2 ^ 54))) =
      4548635623644201 / 2 ^ 51 := by
  rw [round_eq (5685794529555251 / 2 ^ 49 * (1 / 5 * (1 + 1 / 2 ^ 54))) 1
    4548635623644201 (by norm_num [abs_of_pos, abs_of_neg])
    (by norm_num [abs_of_pos, abs_of_neg]) (by norm_num [abs_lt])]
  norm_num

/-- The double nearest to 10.05. -/
theorem round_1005_expense :
    round (201 / 20) =
      2828823515942093 / 2 ^ 48 := by
  rw [round_eq (201 / 20) 3
    5657647031884186 (by norm_num [abs_of_pos, abs_of_neg])
    (by norm_num [abs_of_pos, abs_of_neg]) (by norm_num [abs_lt])]
  norm_num

/-- The double nearest to 12.06. -/
theorem round_1005_sale :
    round (603 / 50) =
      6789176438261023 / 2 ^ 49 := by
  rw [round_eq (603 / 50) 3
    6789176438261023 (by norm_num [abs_of_pos, abs_of_neg])
    (by norm_num [abs_of_pos, abs_of_neg]) (by norm_num [abs_lt])]
  norm_num

/-- The difference of the doubles of 10.05 and 12.06 is a double. -/
theorem round_1005_diff :
    round (2828823515942093 / 2 ^ 48 - 6789176438261023 / 2 ^ 49) =
      -1131529406376837 / 2 ^ 49 := by
  rw [round_eq (2828823515942093 / 2 ^ 48 - 6789176438261023 / 2 ^ 49) 1
    (-4526117625507348) (by norm_num [abs_of_pos, abs_of_neg])
    (by norm_num [abs_of_pos, abs_of_neg]) (by norm_num [abs_lt])]
  norm_num

/-- The product of the double of 10.05 with the double `0.05`, rounded. -/
theorem round_1005_five :
    round (2828823515942093 / 2 ^ 48 * (1 / 20 * (1 + 1 / 2 ^ 54))) =
      4526117625507349 / 2 ^ 53 := by
  rw [round_eq (2828823515942093 / 2 ^ 48 * (1 / 20 * (1 + 1 / 2 ^ 54))) (-1)
    4526117625507349 (by norm_num [abs_of_pos, abs_of_neg])
    (by norm_num [abs_of_pos, abs_of_neg]) (by norm_num [abs_lt])]
  norm_num

/-- The product of the double of 10.05 with the double `0.1`, rounded. -/
theorem round_1005_ten :
    round (2828823515942093 / 2 ^ 48 * (1 / 10 * (1 + 1 / 2 ^ 54))) =
      4526117625507349 / 2 ^ 52 := by
  rw [round_eq (2828823515942093 / 2 ^ 48 * (1 / 10 * (1 + 1 / 2 ^ 54))) 0
    4526117625507349 (by norm_num [abs_of_pos, abs_of_neg])
    (by norm_num [abs_of_pos, abs_of_neg]) (by norm_num [abs_lt])]
  norm_num

/-- The product of the double of 10.05 with the double `0.2`, rounded. -/
theorem round_1005_twenty :
    round (2828823515942093 / 2 ^ 48 * (1 / 5 * (1 + 1 / 2 ^ 54))) =
      4526117625507349 / 2 ^ 51 := by
  rw [round_eq (2828823515942093 / 2 ^ 48 * (1 / 5 * (1 + 1 / 2 ^ 54))) 1
    4526117625507349 (by norm_num [abs_of_pos, abs_of_neg])
    (by norm_num [abs_of_pos, abs_of_neg]) (by norm_num [abs_lt])]
  norm_num

/-- The result of `round` is at most a factor `1 ± 2 ^ (-53)` away from a positive argument. -/
theorem round_bounds (y : ℚ) (hy : 0 < y) :
    y * (1 - 1 / 2 ^ 53) ≤ round y ∧ round y ≤ y * (1 + 1 / 2 ^ 53) := by
  have h := abs_le.mp (abs_round_sub_le_mul y)
  rw [abs_of_pos hy] at h
  constructor <;> linarith [h.1, h.2]

/-- The amount contribution from the six doubles the block computes. -/
theorem amountContribution_of_round (expense sale : Transaction) (e s d b5 b10 b20 : ℚ)
    (he : round expense.amount = e) (hs : round sale.amount = s) (hd : round (e - s) = d)
    (h5 : round (e * round (5 / 100)) = b5) (h10 : round (e * round (1 / 10)) = b10)
    (h20 : round (e * round (2 / 10)) = b20) :
    amountContribution expense sale =
      if |d| = 0 then 70 else if |d| < b5 then 50 else if |d| < b10 then 30
      else if |d| < b20 then 10 else 0 := by
  simp only [amountContribution, he, hs, hd, h5, h10, h20]

theorem amountContribution_cases (expense sale : Transaction) :
    amountContribution expense sale = 70 ∨ amountContribution expense sale = 50 ∨
      amountContribution expense sale = 30 ∨ amountContribution expense sale = 10 ∨
      amountContribution expense sale = 0 := by
  unfold amountContribution
  simp only
  split_ifs <;> simp

theorem round_natCast_small (n : ℕ) (h : n < 2 ^ 53) : round (n : ℚ) = n := by
  have := round_int_mul_zpow (n : ℤ) 0 (by rw [abs_of_nonneg (by positivity)]; exact_mod_cast h)
  simpa using this

theorem amountOnlyConfidence_eq (expense sale : Transaction) :
    amountOnlyConfidence expense sale = amountContribution expense sale := by
  have h70 : round 70 = 70 := by simpa using round_natCast_small 70 (by norm_num)
  have h50 : round 50 = 50 := by simpa using round_natCast_small 50 (by norm_num)
  have h30 : round 30 = 30 := by simpa using round_natCast_small 30 (by norm_num)
  have h10 : round 10 = 10 := by simpa using round_natCast_small 10 (by norm_num)
  have h0 : round 0 = 0 := by simp [round]
  unfold amountOnlyConfidence
  simp only [zero_add]
  rcases amountContribution_cases expense sale with h | h | h | h | h <;>
    rw [h] <;> norm_num [h70, h50, h30, h10, h0]

/-- The doubles `expense.amount * 0.05`, `* 0.1` and `* 0.2` for a positive double: each lies
within the factors `(1 + 2 ^ (-54)) * (1 ± 2 ^ (-53))` of the exact share, and equals the exact
share when that share is a double. -/
theorem round_mul_share (e p : ℚ) (c : ℚ) (he0 : 0 < e) (hp : 0 < p)
    (hc : c = p * (1 + 1 / 2 ^ 54)) :
    e * p * (1 + 1 / 2 ^ 54) * (1 - 1 / 2 ^ 53) ≤ round (e * c) ∧
    round (e * c) ≤ e * p * (1 + 1 / 2 ^ 54) * (1 + 1 / 2 ^ 53) ∧
    (round (e * p) = e * p → round (e * c) = e * p) := by
  have hy : e * c = e * p * (1 + 1 / 2 ^ 54) := by rw [hc]; ring
  have hpos : 0 < e * p * (1 + 1 / 2 ^ 54) := by positivity
  obtain ⟨h1, h2⟩ := round_bounds (e * p * (1 + 1 / 2 ^ 54)) hpos
  rw [hy]
  refine ⟨h1, h2, fun hr => ?_⟩
  exact round_mul_one_add (e * p) (1 / 2 ^ 54) hr (ne_of_gt (by positivity)) (by positivity)
    (le_refl _)

/-- The amount block on two doubles whose distance is exactly the share `p ≤ 1/5` of the
expense amount: the distance is computed exactly, and the product for this share is exact. -/
theorem boundary_facts (expense sale : Transaction) (p : ℚ)
    (he : round expense.amount = expense.amount) (hs : round sale.amount = sale.amount)
    (he0 : 0 < expense.amount) (hp : p ≤ 1 / 5)
    (hd : |expense.amount - sale.amount| = p * expense.amount) :
    |round (round expense.amount - round sale.amount)| = p * expense.amount ∧
    round (expense.amount * p) = expense.amount * p := by
  have hclose : |expense.amount - sale.amount| ≤ expense.amount / 5 := by
    rw [hd]
    nlinarith
  obtain ⟨h1, h2⟩ := round_sub_of_close expense.amount sale.amount he hs he0 hclose
  rw [he, hs, h1, hd]
  refine ⟨rfl, ?_⟩
  rw [mul_comm, ← hd]
  exact h2

/-- The amount block on the decimal amounts 19.80 and 20.79. -/
theorem amountContribution_1980 (a b : String) (x y : Int) :
    amountContribution (Examples.row a x (99 / 5) none) (Examples.row b y (2079 / 100) none) = 50 := by
  rw [amountContribution_of_round _ _ (5573204538870989 / 2 ^ 48) (2925932382907269 / 2 ^ 47)
    (-278660226943549 / 2 ^ 48) (8917127262193583 / 2 ^ 53) (8917127262193583 / 2 ^ 52)
    (8917127262193583 / 2 ^ 51) round_1980_expense round_1980_sale round_1980_diff
    (by rw [round_five_percent]; exact round_1980_five)
    (by rw [round_ten_percent]; exact round_1980_ten)
    (by rw [round_twenty_percent]; exact round_1980_twenty)]
  norm_num [abs_of_neg]

/-- The amount block on the decimal amounts 10.10 and 11.11. -/
theorem amountContribution_1010 (a b : String) (x y : Int) :
    amountContribution (Examples.row a x (101 / 10) none) (Examples.row b y (1111 / 100) none) = 30 := by
  rw [amountContribution_of_round _ _ (5685794529555251 / 2 ^ 49) (781796747813847 / 2 ^ 46)
    (-568579452955525 / 2 ^ 49) (4548635623644201 / 2 ^ 53) (4548635623644201 / 2 ^ 52)
    (4548635623644201 / 2 ^ 51) round_1010_expense round_1010_sale round_1010_diff
    (by rw [round_five_percent]; exact round_1010_five)
    (by rw [round_ten_percent]; exact round_1010_ten)
    (by rw [round_twenty_percent]; exact round_1010_twenty)]
  norm_num [abs_of_neg]

/-- The amount block on the decimal amounts 10.05 and 12.06. -/
theorem amountContribution_1005 (a b : String) (x y : Int) :
    amountContribution (Examples.row a x (201 / 20) none) (Examples.row b y (603 / 50) none) = 10 := by
  rw [amountContribution_of_round _ _ (2828823515942093 / 2 ^ 48) (6789176438261023 / 2 ^ 49)
    (-1131529406376837 / 2 ^ 49) (4526117625507349 / 2 ^ 53) (4526117625507349 / 2 ^ 52)
    (4526117625507349 / 2 ^ 51) round_1005_expense round_1005_sale round_1005_diff
    (by rw [round_five_percent]; exact round_1005_five)
    (by rw [round_ten_percent]; exact round_1005_ten)
    (by rw [round_twenty_percent]; exact round_1005_twenty)]
  norm_num [abs_of_neg]

end Double

/-- C4, amended: the amount block in binary64 arithmetic.  It is the whole result under
`amount_only`, and it is the first applicable of 70, 50, 30, 10, 0 with strict comparisons of the
double `|expense.amount - sale.amount|` against the doubles `expense.amount * 0.05`, `* 0.1` and
`* 0.2`.  When the two amounts are doubles and the expense amount is positive, a distance of
exactly 5% of the expense amount yields 30, one of exactly 10% yields 10, one of exactly 20%
yields 0. -/
theorem amountContribution_double_tiers (expense sale : Transaction) :
    Double.amountOnlyConfidence expense sale = Double.amountContribution expense sale ∧
    (Double.amountContribution expense sale =
      if |Double.round (Double.round expense.amount - Double.round sale.amount)| = 0 then 70
      else if |Double.round (Double.round expense.amount - Double.round sale.amount)| <
          Double.round (Double.round expense.amount * Double.round (5 / 100)) then 50
      else if |Double.round (Double.round expense.amount - Double.round sale.amount)| <
          Double.round (Double.round expense.amount * Double.round (1 / 10)) then 30
      else if |Double.round (Double.round expense.amount - Double.round sale.amount)| <
          Double.round (Double.round expense.amount * Double.round (2 / 10)) then 10
      else 0) ∧
    (Double.round expense.amount = expense.amount → Double.round sale.amount = sale.amount →
      0 < expense.amount →
      (|expense.amount - sale.amount| = 5 / 100 * expense.amount →
        Double.amountContribution expense sale = 30) ∧
      (|expense.amount - sale.amount| = 10 / 100 * expense.amount →
        Double.amountContribution expense sale = 10) ∧
      (|expense.amount - sale.amount| = 20 / 100 * expense.amount →
        Double.amountContribution expense sale = 0)) := by
  refine ⟨Double.amountOnlyConfidence_eq expense sale, rfl, ?_⟩
  intro he hs he0
  obtain ⟨l5, u5, x5⟩ := Double.round_mul_share expense.amount (1 / 20) (Double.round (5 / 100))
    he0 (by norm_num) Double.round_five_percent
  obtain ⟨l10, u10, x10⟩ := Double.round_mul_share expense.amount (1 / 10)
    (Double.round (1 / 10)) he0 (by norm_num) Double.round_ten_percent
  obtain ⟨l20, u20, x20⟩ := Double.round_mul_share expense.amount (1 / 5)
    (Double.round (2 / 10)) he0 (by norm_num) Double.round_twenty_percent
  refine ⟨fun hd => ?_, fun hd => ?_, fun hd => ?_⟩
  · obtain ⟨hdist, hex⟩ := Double.boundary_facts expense sale (5 / 100) he hs he0
      (by norm_num) hd
    have hex' : Double.round (expense.amount * (1 / 20)) = expense.amount * (1 / 20) := by
      rw [show (1 / 20 : ℚ) = 5 / 100 by norm_num]
      exact hex
    have e5 := x5 hex'
    unfold Double.amountContribution
    simp only [hdist]
    rw [he, e5]
    rw [if_neg (by intro h; nlinarith), if_neg (by intro h; nlinarith),
      if_pos (by nlinarith)]
  · obtain ⟨hdist, hex⟩ := Double.boundary_facts expense sale (10 / 100) he hs he0
      (by norm_num) hd
    have hex' : Double.round (expense.amount * (1 / 10)) = expense.amount * (1 / 10) := by
      rw [show (1 / 10 : ℚ) = 10 / 100 by norm_num]
      exact hex
    have e10 := x10 hex'
    unfold Double.amountContribution
    simp only [hdist]
    rw [he, e10]
    rw [if_neg (by intro h; nlinarith), if_neg (by intro h; nlinarith),
      if_neg (by intro h; nlinarith), if_pos (by nlinarith)]
  · obtain ⟨hdist, hex⟩ := Double.boundary_facts expense sale (20 / 100) he hs he0
      (by norm_num) hd
    have hex' : Double.round (expense.amount * (1 / 5)) = expense.amount * (1 / 5) := by
      rw [show (1 / 5 : ℚ) = 20 / 100 by norm_num]
      exact hex
    have e20 := x20 hex'
    unfold Double.amountContribution
    simp only [hdist]
    rw [he, e20]
    rw [if_neg (by intro h; nlinarith), if_neg (by intro h; nlinarith),
      if_neg (by intro h; nlinarith), if_neg (by intro h; nlinarith)]

/-- C4 amended, at the amounts 100 and 105, 100 and 110, 100 and 120, which are doubles: the
distances of exactly 5%, 10% and 20% of the expense amount yield 30, 10 and 0. -/
theorem amountContribution_double_tiers_witness :
    (Double.round 100 = 100 ∧ Double.round 105 = 105 ∧ (0 : ℚ) < 100 ∧
      |(100 : ℚ) - 105| = 5 / 100 * 100 ∧
      Double.amountContribution (Examples.row "e1" 19783 100 none)
        (Examples.row "s1" 19783 105 none) = 30) ∧
    (Double.round 100 = 100 ∧ Double.round 110 = 110 ∧ (0 : ℚ) < 100 ∧
      |(100 : ℚ) - 110| = 10 / 100 * 100 ∧
      Double.amountContribution (Examples.row "e1" 19783 100 none)
        (Examples.row "s1" 19783 110 none) = 10) ∧
    (Double.round 100 = 100 ∧ Double.round 120 = 120 ∧ (0 : ℚ) < 100 ∧
      |(100 : ℚ) - 120| = 20 / 100 * 100 ∧
      Double.amountContribution (Examples.row "e1" 19783 100 none)
        (Examples.row "s1" 19783 120 none) = 0) := by
  have h100 : Double.round 100 = 100 := by
    simpa using Double.round_natCast_small 100 (by norm_num)
  have h105 : Double.round 105 = 105 := by
    simpa using Double.round_natCast_small 105 (by norm_num)
  have h110 : Double.round 110 = 110 := by
    simpa using Double.round_natCast_small 110 (by norm_num)
  have h120 : Double.round 120 = 120 := by
    simpa using Double.round_natCast_small 120 (by norm_num)
  have hpos : (0 : ℚ) < 100 := by norm_num
  have d5 : |(100 : ℚ) - 105| = 5 / 100 * 100 := by norm_num [abs_of_neg]
  have d10 : |(100 : ℚ) - 110| = 10 / 100 * 100 := by norm_num [abs_of_neg]
  have d20 : |(100 : ℚ) - 120| = 20 / 100 * 100 := by norm_num [abs_of_neg]
  exact ⟨⟨h100, h105, hpos, d5,
      ((amountContribution_double_tiers (Examples.row "e1" 19783 100 none)
        (Examples.row "s1" 19783 105 none)).2.2 h100 h105 hpos).1 d5⟩,
    ⟨h100, h110, hpos, d10,
      ((amountContribution_double_tiers (Examples.row "e1" 19783 100 none)
        (Examples.row "s1" 19783 110 none)).2.2 h100 h110 hpos).2.1 d10⟩,
    ⟨h100, h120, hpos, d20,
      ((amountContribution_double_tiers (Examples.row "e1" 19783 100 none)
        (Examples.row "s1" 19783 120 none)).2.2 h100 h120 hpos).2.2 d20⟩⟩

/-- C4, refuted as stated: the amounts 19.80 and 20.79 are exactly 5% of 19.80 apart, and the
code yields 50, not 30: the doubles nearest to them are 0.98999999999999844 apart, which is less
than the double 19.80 * 0.05 = 0.99000000000000010.  In the same way 10.10 and 11.11, exactly
10% apart, yield 30 and not 10, and 10.05 and 12.06, exactly 20% apart, yield 10 and not 0. -/
theorem amountContribution_decimal_boundary :
    (|(99 / 5 : ℚ) - 2079 / 100| = 5 / 100 * (99 / 5) ∧
      Double.amountContribution (Examples.row "e1" 19783 (99 / 5) none)
        (Examples.row "s1" 19783 (2079 / 100) none) = 50 ∧
      Double.amountOnlyConfidence (Examples.row "e1" 19783 (99 / 5) none)
        (Examples.row "s1" 19783 (2079 / 100) none) = 50) ∧
    (|(101 / 10 : ℚ) - 1111 / 100| = 10 / 100 * (101 / 10) ∧
      Double.amountContribution (Examples.row "e1" 19783 (101 / 10) none)
        (Examples.row "s1" 19783 (1111 / 100) none) = 30 ∧
      Double.amountOnlyConfidence (Examples.row "e1" 19783 (101 / 10) none)
        (Examples.row "s1" 19783 (1111 / 100) none) = 30) ∧
    (|(201 / 20 : ℚ) - 603 / 50| = 20 / 100 * (201 / 20) ∧
      Double.amountContribution (Examples.row "e1" 19783 (201 / 20) none)
        (Examples.row "s1" 19783 (603 / 50) none) = 10 ∧
      Double.amountOnlyConfidence (Examples.row "e1" 19783 (201 / 20) none)
        (Examples.row "s1" 19783 (603 / 50) none) = 10) := by
  refine ⟨⟨by norm_num [abs_of_neg], Double.amountContribution_1980 _ _ _ _, ?_⟩,
    ⟨by norm_num [abs_of_neg], Double.amountContribution_1010 _ _ _ _, ?_⟩,
    ⟨by norm_num [abs_of_neg], Double.amountContribution_1005 _ _ _ _, ?_⟩⟩
  · rw [Double.amountOnlyConfidence_eq, Double.amountContribution_1980]
  · rw [Double.amountOnlyConfidence_eq, Double.amountContribution_1010]
  · rw [Double.amountOnlyConfidence_eq, Double.amountContribution_1005]

end ReconcilePro
